import Mathlib

/-!
# MMS client session engine (mms_client_connection.c)

A shallow embedding of the client session engine of
`src/mms/iso_mms/client/mms_client_connection.c`: the invoke-id allocator,
the outstanding-call table, the shared response slot, the three state
variables, the request paths, connect and conclude, the get-name-list
pagination, the parsers of the confirmed-error and reject PDUs, and the
transport callback `mmsIsoCallback`.

Conventions of the embedding.

* `uint32_t` values are `Nat` reduced `% 2 ^ 32` where the code can wrap;
  the millisecond clock (`uint64_t`) is an unreduced `Nat`.
* Pointers are `Nat` handles (`0` is `NULL`); a `ByteBuffer*` is the list of
  its `size` bytes, a read past the end yields `0`.
* What the code does to the outside world (transport calls, user handlers) is
  recorded as a list of `Event`s, in program order.
* The table lock `outstandingCallsLock` is a field of the state: a
  `Semaphore_wait` on it while it is taken never returns, which the
  embedding reports as `Outcome.blocked`.
* A loop that sleeps and polls takes a schedule: the clock value and the
  session that the thread finds after each sleep, as the other threads have
  left it. A schedule that ends while the loop still polls leaves the thread
  blocked in the loop.
* Build configuration: `MMS_OBTAIN_FILE_SERVICE == 1`, `MMS_FILE_SERVICE == 1`,
  `CONFIG_MMS_RAW_MESSAGE_LOGGING == 0`, `DEBUG_MMS_CLIENT == 0`.
-/

namespace MmsClient

/-! ## Data model -/

/-- The constant `OUTSTANDING_CALLS` (line 41). -/
def OUTSTANDING_CALLS : Nat := 10

/-- The constant `CONFIG_MMS_CONNECTION_DEFAULT_TIMEOUT` (line 39). -/
def CONFIG_MMS_CONNECTION_DEFAULT_TIMEOUT : Nat := 5000

/-- The constant `CONFIG_MMS_CONNECTION_DEFAULT_CONNECT_TIMEOUT` (line 40). -/
def CONFIG_MMS_CONNECTION_DEFAULT_CONNECT_TIMEOUT : Nat := 10000

/-- Number of values of a `uint32_t`. -/
def UINT32_RANGE : Nat := 4294967296

/-- A `ByteBuffer`: its `size` bytes. -/
abbrev ByteBuffer := List Nat

/-- The byte `buffer[i]`; `0` past the end of the list. -/
def byteAt (buffer : ByteBuffer) (i : Nat) : Nat := buffer.getD i 0

/-- The values of `MmsError` that this file names. -/
inductive MmsError where
  | MMS_ERROR_NONE
  | MMS_ERROR_CONNECTION_REJECTED
  | MMS_ERROR_CONNECTION_LOST
  | MMS_ERROR_SERVICE_TIMEOUT
  | MMS_ERROR_PARSING_RESPONSE
  | MMS_ERROR_CONCLUDE_REJECTED
  | MMS_ERROR_INVALID_ARGUMENTS
  | MMS_ERROR_OUTSTANDING_CALL_LIMIT
  | MMS_ERROR_OTHER
  | MMS_ERROR_VMDSTATE_OTHER
  | MMS_ERROR_APPLICATION_REFERENCE_OTHER
  | MMS_ERROR_DEFINITION_OTHER
  | MMS_ERROR_DEFINITION_INVALID_ADDRESS
  | MMS_ERROR_DEFINITION_TYPE_UNSUPPORTED
  | MMS_ERROR_DEFINITION_TYPE_INCONSISTENT
  | MMS_ERROR_DEFINITION_OBJECT_UNDEFINED
  | MMS_ERROR_DEFINITION_OBJECT_EXISTS
  | MMS_ERROR_DEFINITION_OBJECT_ATTRIBUTE_INCONSISTENT
  | MMS_ERROR_RESOURCE_OTHER
  | MMS_ERROR_SERVICE_OTHER
  | MMS_ERROR_SERVICE_PREEMPT_OTHER
  | MMS_ERROR_TIME_RESOLUTION_OTHER
  | MMS_ERROR_ACCESS_OTHER
  | MMS_ERROR_ACCESS_OBJECT_NON_EXISTENT
  | MMS_ERROR_ACCESS_OBJECT_ACCESS_UNSUPPORTED
  | MMS_ERROR_ACCESS_OBJECT_ACCESS_DENIED
  | MMS_ERROR_ACCESS_OBJECT_INVALIDATED
  | MMS_ERROR_FILE_OTHER
  | MMS_ERROR_FILE_FILENAME_AMBIGUOUS
  | MMS_ERROR_FILE_FILE_BUSY
  | MMS_ERROR_FILE_FILENAME_SYNTAX_ERROR
  | MMS_ERROR_FILE_CONTENT_TYPE_INVALID
  | MMS_ERROR_FILE_POSITION_INVALID
  | MMS_ERROR_FILE_FILE_ACCESS_DENIED
  | MMS_ERROR_FILE_FILE_NON_EXISTENT
  | MMS_ERROR_FILE_DUPLICATE_FILENAME
  | MMS_ERROR_FILE_INSUFFICIENT_SPACE_IN_FILESTORE
  | MMS_ERROR_REJECT_OTHER
  | MMS_ERROR_REJECT_UNKNOWN_PDU_TYPE
  | MMS_ERROR_REJECT_INVALID_PDU
  | MMS_ERROR_REJECT_UNRECOGNIZED_SERVICE
  | MMS_ERROR_REJECT_UNRECOGNIZED_MODIFIER
  | MMS_ERROR_REJECT_REQUEST_INVALID_ARGUMENT
  deriving DecidableEq, Repr

open MmsError

/-- The type `AssociationState`. -/
inductive AssociationState where
  | MMS_STATE_CLOSED
  | MMS_STATE_CONNECTED
  deriving DecidableEq, Repr

/-- The type `ConnectionState`. -/
inductive ConnectionState where
  | MMS_CON_IDLE
  | MMS_CON_WAITING
  | MMS_CON_ASSOCIATED
  | MMS_CON_ASSOCIATION_FAILED
  deriving DecidableEq, Repr

/-- The values of the `int` field `concludeState`; `CONCLUDE_STATE_IDLE` is
the zero value a created session starts with (the spec's Idle). -/
inductive ConcludeState where
  | CONCLUDE_STATE_IDLE
  | CONCLUDE_STATE_REQUESTED
  | CONCLUDE_STATE_REJECTED
  | CONCLUDE_STATE_ACCEPTED
  deriving DecidableEq, Repr

/-- The values of `eMmsOutstandingCallType` that this file uses.
`MMS_CALL_TYPE_NONE` marks a synchronous call. -/
inductive eMmsOutstandingCallType where
  | MMS_CALL_TYPE_NONE
  | MMS_CALL_TYPE_READ_VARIABLE
  | MMS_CALL_TYPE_WRITE_VARIABLE
  | MMS_CALL_TYPE_WRITE_MULTIPLE_VARIABLES
  | MMS_CALL_TYPE_READ_NVL_DIRECTORY
  | MMS_CALL_TYPE_DEFINE_NVL
  deriving DecidableEq, Repr

open AssociationState ConnectionState ConcludeState eMmsOutstandingCallType

/-- One slot of the table `outstandingCalls` (`struct sMmsOutstandingCall`). -/
structure MmsOutstandingCall where
  isUsed : Bool
  invokeId : Nat
  timeout : Nat
  type : eMmsOutstandingCallType
  userCallback : Nat
  userParameter : Nat
  deriving DecidableEq, Repr

/-- A slot as `GLOBAL_CALLOC` leaves it. -/
def MmsOutstandingCall.zero : MmsOutstandingCall :=
  { isUsed := false, invokeId := 0, timeout := 0, type := MMS_CALL_TYPE_NONE,
    userCallback := 0, userParameter := 0 }

/-- The fields of `struct sMmsConnection` that the session engine reads and
writes. `outstandingCallsLock` is `true` while the semaphore is taken. -/
structure MmsConnection where
  lastInvokeId : Nat
  outstandingCalls : List MmsOutstandingCall
  outstandingCallsLock : Bool
  requestTimeout : Nat
  connectTimeout : Nat
  associationState : AssociationState
  connectionState : ConnectionState
  concludeState : ConcludeState
  responseInvokeId : Nat
  lastResponse : Option ByteBuffer
  lastResponseBufPos : Nat
  lastResponseError : MmsError
  connectionLostHandler : Nat
  connectionLostHandlerParameter : Nat
  reportHandler : Nat
  reportHandlerParameter : Nat
  deriving DecidableEq, Repr

/-- What a user handler receives besides invoke-id, parameter and error. -/
inductive HandlerResult where
  | readVariable (value : Option Nat)
  | writeVariable (accessError : Int)
  | writeMultipleVariables (accessResults : Option Nat)
  | readNVLDirectory (specs : Option Nat) (deletable : Bool)
  | genericService (success : Bool)
  deriving DecidableEq, Repr

/-- The calls that leave the session engine, in program order. -/
inductive Event where
  | allocateTransmitBuffer
  | releaseTransmitBuffer
  | releaseReceiveBuffer
  | sendMessage (message : ByteBuffer)
  | isoRelease
  | isoClose
  | isoAbort
  | associate (payload : ByteBuffer) (connectTimeout : Nat)
  | userCallback (callback : Nat) (invokeId : Nat) (parameter : Nat) (err : MmsError)
      (result : HandlerResult)
  | connectionLost (handler : Nat) (parameter : Nat)
  | informationReport (handler : Nat) (parameter : Nat) (report : Nat)
  | fileRequest (service : Nat) (invokeId : Nat)
  deriving DecidableEq, Repr

/-- Why a thread does not return from a call. -/
inductive Blocked where
  | outstandingCallsLock
  | lastResponseDrain
  | pollingResponse
  | pollingConnectionState
  | pollingConcludeState
  | responseSemaphore
  deriving DecidableEq, Repr

/-- The result of running a piece of the engine: it returns a value with the
new session state, or it never returns; either way with the events emitted. -/
inductive Outcome (α : Type) where
  | returned (value : α) (self : MmsConnection) (events : List Event)
  | blocked (cause : Blocked) (self : MmsConnection) (events : List Event)
  deriving DecidableEq, Repr

/-- The session state of an outcome. -/
def Outcome.state {α : Type} : Outcome α → MmsConnection
  | .returned _ s _ => s
  | .blocked _ s _ => s

/-- The events of an outcome. -/
def Outcome.trace {α : Type} : Outcome α → List Event
  | .returned _ _ e => e
  | .blocked _ _ e => e

/-- The value of an outcome that returned. -/
def Outcome.returnedValue {α : Type} : Outcome α → Option α
  | .returned v _ _ => some v
  | .blocked _ _ _ => none

/-- Sequencing: run `k` on the value and state `o` returned, events appended. -/
def Outcome.andThen {α β : Type} (o : Outcome α) (k : α → MmsConnection → Outcome β) :
    Outcome β :=
  match o with
  | .returned v s e =>
    match k v s with
    | .returned w s' e' => .returned w s' (e ++ e')
    | .blocked c s' e' => .blocked c s' (e ++ e')
  | .blocked c s e => .blocked c s e

/-! ## Invoke-id allocator -/

/-- The function `getNextInvokeId` (lines 275-286): `self->lastInvokeId++` on
a `uint32_t`, the new value is returned. -/
def getNextInvokeId (self : MmsConnection) : Nat × MmsConnection :=
  let nextInvokeId := (self.lastInvokeId + 1) % UINT32_RANGE
  (nextInvokeId, { self with lastInvokeId := nextInvokeId })

/-! ## Outstanding-call table -/

/-- The loop of `checkForOutstandingCall` (lines 295-302): the index of the
first used slot that carries `invokeId`. -/
def findOutstandingCall (invokeId : Nat) : List MmsOutstandingCall → Option Nat
  | [] => none
  | c :: rest =>
    if c.isUsed = true ∧ c.invokeId = invokeId then some 0
    else (findOutstandingCall invokeId rest).map (fun i => i + 1)

/-- The function `checkForOutstandingCall` (lines 288-307). The returned
pointer into the table is the index of the slot; `none` is `NULL`. -/
def checkForOutstandingCall (self : MmsConnection) (invokeId : Nat) : Outcome (Option Nat) :=
  if self.outstandingCallsLock then .blocked .outstandingCallsLock self []
  else .returned (findOutstandingCall invokeId self.outstandingCalls) self []

/-- The loop of `addToOutstandingCalls` (lines 316-327): the first unused slot
receives all six fields; `none` when every slot is used. -/
def insertOutstandingCall (entry : MmsOutstandingCall) :
    List MmsOutstandingCall → Option (List MmsOutstandingCall)
  | [] => none
  | c :: rest =>
    if c.isUsed = false then some (entry :: rest)
    else (insertOutstandingCall entry rest).map (fun r => c :: r)

/-- The function `addToOutstandingCalls` (lines 309-332); `now` is the value
of `Hal_getTimeInMs()` at line 320. -/
def addToOutstandingCalls (self : MmsConnection) (invokeId : Nat)
    (type : eMmsOutstandingCallType) (userCallback userParameter : Nat) (now : Nat) :
    Outcome Bool :=
  if self.outstandingCallsLock then .blocked .outstandingCallsLock self []
  else
    match insertOutstandingCall
        { isUsed := true, invokeId := invokeId, timeout := now + self.requestTimeout,
          type := type, userCallback := userCallback, userParameter := userParameter }
        self.outstandingCalls with
    | some calls => .returned true { self with outstandingCalls := calls } []
    | none => .returned false self []

/-- The loop of `removeFromOutstandingCalls` (lines 341-348): the first used
slot that carries `invokeId` is marked unused. -/
def removeOutstandingCall (invokeId : Nat) : List MmsOutstandingCall → List MmsOutstandingCall
  | [] => []
  | c :: rest =>
    if c.isUsed = true ∧ c.invokeId = invokeId then { c with isUsed := false } :: rest
    else c :: removeOutstandingCall invokeId rest

/-- The function `removeFromOutstandingCalls` (lines 334-351). -/
def removeFromOutstandingCalls (self : MmsConnection) (invokeId : Nat) : Outcome Unit :=
  if self.outstandingCallsLock then .blocked .outstandingCallsLock self []
  else .returned ()
    { self with outstandingCalls := removeOutstandingCall invokeId self.outstandingCalls } []

/-- The slot that the pointer `&(self->outstandingCalls[i])` designates. -/
def slotAt (self : MmsConnection) (i : Nat) : MmsOutstandingCall :=
  self.outstandingCalls.getD i MmsOutstandingCall.zero

/-- The assignment `self->outstandingCalls[i].isUsed = false` (line 901). -/
def clearSlot : List MmsOutstandingCall → Nat → List MmsOutstandingCall
  | [], _ => []
  | c :: rest, 0 => { c with isUsed := false } :: rest
  | c :: rest, i + 1 => c :: clearSlot rest i

/-- The search of the Tick branch (lines 894-897): the index of the first
used slot with `currentTime > timeout`. -/
def findExpiredCall (currentTime : Nat) : List MmsOutstandingCall → Option Nat
  | [] => none
  | c :: rest =>
    if c.isUsed = true ∧ currentTime > c.timeout then some 0
    else (findExpiredCall currentTime rest).map (fun i => i + 1)

/-! ## Transport send and the shared response slot -/

/-- The function `sendMessage` (lines 353-364). -/
def sendMessage (message : ByteBuffer) : List Event := [Event.sendMessage message]

/-- The function `releaseResponse` (lines 451-460). -/
def releaseResponse (self : MmsConnection) : MmsConnection × List Event :=
  ({ self with responseInvokeId := 0, lastResponseError := MMS_ERROR_NONE },
   [Event.releaseReceiveBuffer])

/-- The function `getResponseInvokeId` (lines 462-472). -/
def getResponseInvokeId (self : MmsConnection) : Nat := self.responseInvokeId

/-- The function `waitUntilLastResponseHasBeenProcessed` (lines 474-483): it
returns once `responseInvokeId` is `0`; while the slot is occupied the thread
sleeps and polls, so on an occupied slot it does not return by itself. -/
def waitUntilLastResponseHasBeenProcessed (self : MmsConnection) : Outcome Unit :=
  if getResponseInvokeId self ≠ 0 then .blocked .lastResponseDrain self []
  else .returned () self []

/-! ## Error mapping -/

/-- The function `convertRejectCodesToMmsError` (lines 485-498). -/
def convertRejectCodesToMmsError (rejectType rejectReason : Int) : MmsError :=
  if rejectType = 1 ∧ rejectReason = 1 then MMS_ERROR_REJECT_UNRECOGNIZED_SERVICE
  else if rejectType = 5 ∧ rejectReason = 0 then MMS_ERROR_REJECT_UNKNOWN_PDU_TYPE
  else if rejectType = 1 ∧ rejectReason = 4 then MMS_ERROR_REJECT_REQUEST_INVALID_ARGUMENT
  else if rejectType = 5 ∧ rejectReason = 1 then MMS_ERROR_REJECT_INVALID_PDU
  else MMS_ERROR_REJECT_OTHER

/-- The type `MmsServiceError`: two `int` fields. -/
structure MmsServiceError where
  errorClass : Int
  errorCode : Int
  deriving DecidableEq, Repr

/-- The function `convertServiceErrorToMmsError` (lines 500-620). -/
def convertServiceErrorToMmsError (serviceError : MmsServiceError) : MmsError :=
  match serviceError.errorClass with
  | 0 => MMS_ERROR_VMDSTATE_OTHER
  | 1 => MMS_ERROR_APPLICATION_REFERENCE_OTHER
  | 2 =>
    match serviceError.errorCode with
    | 1 => MMS_ERROR_DEFINITION_OBJECT_UNDEFINED
    | 2 => MMS_ERROR_DEFINITION_INVALID_ADDRESS
    | 3 => MMS_ERROR_DEFINITION_TYPE_UNSUPPORTED
    | 4 => MMS_ERROR_DEFINITION_TYPE_INCONSISTENT
    | 5 => MMS_ERROR_DEFINITION_OBJECT_EXISTS
    | 6 => MMS_ERROR_DEFINITION_OBJECT_ATTRIBUTE_INCONSISTENT
    | _ => MMS_ERROR_DEFINITION_OTHER
  | 3 => MMS_ERROR_RESOURCE_OTHER
  | 4 => MMS_ERROR_SERVICE_OTHER
  | 5 => MMS_ERROR_SERVICE_PREEMPT_OTHER
  | 6 => MMS_ERROR_TIME_RESOLUTION_OTHER
  | 7 =>
    match serviceError.errorCode with
    | 1 => MMS_ERROR_ACCESS_OBJECT_ACCESS_UNSUPPORTED
    | 2 => MMS_ERROR_ACCESS_OBJECT_NON_EXISTENT
    | 3 => MMS_ERROR_ACCESS_OBJECT_ACCESS_DENIED
    | 4 => MMS_ERROR_ACCESS_OBJECT_INVALIDATED
    | _ => MMS_ERROR_ACCESS_OTHER
  | 11 =>
    match serviceError.errorCode with
    | 1 => MMS_ERROR_FILE_FILENAME_AMBIGUOUS
    | 2 => MMS_ERROR_FILE_FILE_BUSY
    | 3 => MMS_ERROR_FILE_FILENAME_SYNTAX_ERROR
    | 4 => MMS_ERROR_FILE_CONTENT_TYPE_INVALID
    | 5 => MMS_ERROR_FILE_POSITION_INVALID
    | 6 => MMS_ERROR_FILE_FILE_ACCESS_DENIED
    | 7 => MMS_ERROR_FILE_FILE_NON_EXISTENT
    | 8 => MMS_ERROR_FILE_DUPLICATE_FILENAME
    | 9 => MMS_ERROR_FILE_INSUFFICIENT_SPACE_IN_FILESTORE
    | _ => MMS_ERROR_FILE_OTHER
  | _ => MMS_ERROR_OTHER

/-! ## BER primitives (ber_decode.c, not among the sources) -/

/-- The conversion of a `uint32_t` bit pattern to `int` (two's complement). -/
def toInt32 (v : Nat) : Int :=
  if v % UINT32_RANGE < 2147483648 then (v % UINT32_RANGE : Nat)
  else ((v % UINT32_RANGE : Nat) : Int) - 4294967296

/-- The bytes of a long-form length: `n` bytes from `bufPos` on, big endian,
each of them before `maxBufPos`. -/
def decodeLengthBytes (buffer : ByteBuffer) (maxBufPos : Nat) : Nat → Nat → Nat → Option (Nat × Nat)
  | 0, bufPos, length => some (length, bufPos)
  | n + 1, bufPos, length =>
    if bufPos ≥ maxBufPos then none
    else decodeLengthBytes buffer maxBufPos n (bufPos + 1) (length * 256 + byteAt buffer bufPos)

/-- Modelled from the spec: `BerDecoder_decodeLength` of ber_decode.c is not
among the sources. This is the definite-length decoding of BER that the spec
presupposes for a well-formed PDU ("definite lengths, content inside the
buffer"): a length byte below `0x80` is the length; `0x80 + n` with `n > 0`
announces `n` length bytes; the indefinite form, a length byte at or past
`maxBufPos` and content that ends past `maxBufPos` are errors (`-1`, here
`none`). On success the result is `(length, bufPos)` with `bufPos` the
position of the first content byte. -/
def BerDecoder_decodeLength (buffer : ByteBuffer) (bufPos maxBufPos : Nat) : Option (Nat × Nat) :=
  if bufPos ≥ maxBufPos then none
  else
    let len1 := byteAt buffer bufPos
    if len1 < 128 then
      if bufPos + 1 + len1 > maxBufPos then none else some (len1, bufPos + 1)
    else if len1 % 128 = 0 then none
    else
      match decodeLengthBytes buffer maxBufPos (len1 % 128) (bufPos + 1) 0 with
      | none => none
      | some (length, pos) => if pos + length > maxBufPos then none else some (length, pos)

/-- Modelled from the spec: `BerDecoder_decodeUint32` of ber_decode.c is not
among the sources. The `intLen` bytes from `bufPos` on, big endian, in a
`uint32_t` accumulator. -/
def BerDecoder_decodeUint32 (buffer : ByteBuffer) : Nat → Nat → Nat
  | 0, _ => 0
  | intLen + 1, bufPos =>
    (BerDecoder_decodeUint32 buffer intLen bufPos * 256 + byteAt buffer (bufPos + intLen))
      % UINT32_RANGE

/-- Modelled from the spec: `BerDecoder_decodeInt32` of ber_decode.c is not
among the sources. The `intLen` bytes from `bufPos` on as a two's complement
big-endian integer in an `int32_t`. -/
def BerDecoder_decodeInt32 (buffer : ByteBuffer) (intLen bufPos : Nat) : Int :=
  if intLen = 0 then 0
  else if byteAt buffer bufPos ≥ 128 ∧ intLen < 4 then
    toInt32 (BerDecoder_decodeUint32 buffer intLen bufPos + (UINT32_RANGE - 256 ^ intLen))
  else toInt32 (BerDecoder_decodeUint32 buffer intLen bufPos)

/-! ## PDU parsers -/

/-- The loop of `parseServiceError` (lines 628-664); one unit of `fuel` per
iteration. -/
def parseServiceErrorLoop (buffer : ByteBuffer) (endPos : Nat) :
    Nat → Nat → MmsServiceError → Option (Nat × MmsServiceError)
  | 0, bufPos, error => if bufPos < endPos then none else some (bufPos, error)
  | fuel + 1, bufPos, error =>
    if bufPos < endPos then
      let tag := byteAt buffer bufPos
      match BerDecoder_decodeLength buffer (bufPos + 1) endPos with
      | none => none
      | some (length, pos) =>
        if tag = 0xa0 then
          let errorClassTag := byteAt buffer pos
          match BerDecoder_decodeLength buffer (pos + 1) endPos with
          | none => none
          | some (length2, pos2) =>
            parseServiceErrorLoop buffer endPos fuel (pos2 + length2)
              { errorClass := (errorClassTag : Int) - 0x80,
                errorCode := toInt32 (BerDecoder_decodeUint32 buffer length2 pos2) }
        else parseServiceErrorLoop buffer endPos fuel (pos + length) error
    else some (bufPos, error)

/-- The function `parseServiceError` (lines 622-667); `none` is `-1`. Every
iteration consumes at least two bytes, so `maxLength` units of fuel suffice. -/
def parseServiceError (buffer : ByteBuffer) (bufPos maxLength : Nat) (error : MmsServiceError) :
    Option (Nat × MmsServiceError) :=
  parseServiceErrorLoop buffer (bufPos + maxLength) maxLength bufPos error

/-- What `mmsMsg_parseConfirmedErrorPDU` leaves behind on success: the
returned position and the two output variables. -/
structure ConfirmedErrorPDU where
  bufPos : Nat
  invokeId : Nat
  serviceError : MmsServiceError
  deriving DecidableEq, Repr

/-- The loop of `mmsMsg_parseConfirmedErrorPDU` (lines 687-713). -/
def parseConfirmedErrorLoop (buffer : ByteBuffer) (maxBufPos endPos : Nat) :
    Nat → Nat → Nat → MmsServiceError → Option ConfirmedErrorPDU
  | 0, bufPos, invokeId, serviceError =>
    if bufPos < endPos then none else some ⟨bufPos, invokeId, serviceError⟩
  | fuel + 1, bufPos, invokeId, serviceError =>
    if bufPos < endPos then
      let tag := byteAt buffer bufPos
      match BerDecoder_decodeLength buffer (bufPos + 1) maxBufPos with
      | none => none
      | some (length, pos) =>
        if tag = 0x80 then
          parseConfirmedErrorLoop buffer maxBufPos endPos fuel (pos + length)
            (BerDecoder_decodeUint32 buffer length pos) serviceError
        else if tag = 0xa2 then
          match parseServiceError buffer pos length serviceError with
          | none => none
          | some (pos2, serviceError2) =>
            parseConfirmedErrorLoop buffer maxBufPos endPos fuel pos2 invokeId serviceError2
        else parseConfirmedErrorLoop buffer maxBufPos endPos fuel (pos + length) invokeId serviceError
    else some ⟨bufPos, invokeId, serviceError⟩

/-- The function `mmsMsg_parseConfirmedErrorPDU` (lines 669-722); `none` is
`-1`. `invokeId` and `serviceError` are the contents of the output variables
before the call. -/
def mmsMsg_parseConfirmedErrorPDU (buffer : ByteBuffer) (bufPos maxBufPos : Nat)
    (invokeId : Nat) (serviceError : MmsServiceError) : Option ConfirmedErrorPDU :=
  if byteAt buffer bufPos ≠ 0xa2 then none
  else
    match BerDecoder_decodeLength buffer (bufPos + 1) maxBufPos with
    | none => none
    | some (length, pos) =>
      if pos + length > maxBufPos then none
      else parseConfirmedErrorLoop buffer maxBufPos (pos + length) maxBufPos pos invokeId
        serviceError

/-- What `mmsMsg_parseRejectPDU` leaves behind on success: the returned
position and the three output variables. -/
structure RejectPDU where
  bufPos : Nat
  invokeId : Nat
  rejectType : Int
  rejectReason : Int
  deriving DecidableEq, Repr

/-- The loop of `mmsMsg_parseRejectPDU` (lines 746-766). -/
def parseRejectLoop (buffer : ByteBuffer) (maxBufPos endPos : Nat) :
    Nat → Nat → Nat → Int → Int → Option RejectPDU
  | 0, bufPos, invokeId, rejectType, rejectReason =>
    if bufPos < endPos then none else some ⟨bufPos, invokeId, rejectType, rejectReason⟩
  | fuel + 1, bufPos, invokeId, rejectType, rejectReason =>
    if bufPos < endPos then
      let tag := byteAt buffer bufPos
      match BerDecoder_decodeLength buffer (bufPos + 1) maxBufPos with
      | none => none
      | some (length, pos) =>
        if tag = 0x80 then
          parseRejectLoop buffer maxBufPos endPos fuel (pos + length)
            (BerDecoder_decodeUint32 buffer length pos) rejectType rejectReason
        else if tag > 0x80 ∧ tag < 0x8c then
          parseRejectLoop buffer maxBufPos endPos fuel (pos + length) invokeId
            ((tag : Int) - 0x80) (BerDecoder_decodeInt32 buffer length pos)
        else
          parseRejectLoop buffer maxBufPos endPos fuel (pos + length) invokeId rejectType
            rejectReason
    else some ⟨bufPos, invokeId, rejectType, rejectReason⟩

/-- The function `mmsMsg_parseRejectPDU` (lines 724-775); `none` is `-1`. The
last three arguments are the contents of the output variables before the
call. -/
def mmsMsg_parseRejectPDU (buffer : ByteBuffer) (bufPos maxBufPos : Nat)
    (invokeId : Nat) (rejectType rejectReason : Int) : Option RejectPDU :=
  if byteAt buffer bufPos ≠ 0xa4 then none
  else
    match BerDecoder_decodeLength buffer (bufPos + 1) maxBufPos with
    | none => none
    | some (length, pos) =>
      if pos + length > maxBufPos then none
      else parseRejectLoop buffer maxBufPos (pos + length) maxBufPos pos invokeId rejectType
        rejectReason

/-- The header of a confirmed-response PDU as the callback reads it (lines
1081-1102): outer length, tag `0x02`, invoke-id. The result is the invoke-id
and the position after it; `none` is the jump to `exit_with_error`. -/
def parseConfirmedResponseHeader (buf : ByteBuffer) : Option (Nat × Nat) :=
  match BerDecoder_decodeLength buf 1 buf.length with
  | none => none
  | some (_, pos) =>
    if byteAt buf pos = 0x02 then
      match BerDecoder_decodeLength buf (pos + 1) buf.length with
      | none => none
      | some (invokeIdLength, pos2) =>
        some (BerDecoder_decodeUint32 buf invokeIdLength pos2, pos2 + invokeIdLength)
    else none

/-! ## Collaborators outside this file -/

/-- The functions of other files that the session engine calls on a payload:
the decoders of the service bodies (`mms_client_*.c`), the information-report
decoding reached from `handleUnconfirmedMmsPdu`, the file-service responders
and the constant `DATA_ACCESS_ERROR_NO_RESPONSE`. Values they produce are
handles. A decoder with an `MmsError*` argument yields the error it leaves
there. -/
structure Externals where
  mmsClient_parseReadResponse : ByteBuffer → Option Nat
  mmsClient_parseWriteResponse : ByteBuffer → Nat → MmsError × Int
  mmsClient_parseWriteMultipleItemsResponse : ByteBuffer → Nat → MmsError × Option Nat
  mmsClient_parseGetNamedVariableListAttributesResponse : ByteBuffer → Option Nat × Bool
  mmsClient_parseDefineNamedVariableResponse : Option ByteBuffer → Bool
  mmsClient_parseIdentifyResponse : Option ByteBuffer → Nat → Option Nat
  mmsClient_parseStatusResponse : Option ByteBuffer → Nat → Bool
  mmsClient_parseGetNameListResponse : Option ByteBuffer → List Nat × Bool
  informationReports : ByteBuffer → List Nat
  mmsClient_handleFileRequest : Nat → ByteBuffer → Nat → Nat → Nat → ByteBuffer
  DATA_ACCESS_ERROR_NO_RESPONSE : Int

/-- The function `handleUnconfirmedMmsPdu` (lines 103-273): with a report
handler set, the handler is called once per report that the decoder delivers;
the session state is not touched. -/
def handleUnconfirmedMmsPdu (ext : Externals) (self : MmsConnection) (message : ByteBuffer) :
    List Event :=
  if self.reportHandler ≠ 0 then
    (ext.informationReports message).map
      (fun r => Event.informationReport self.reportHandler self.reportHandlerParameter r)
  else []

/-! ## Response correlation -/

/-- The handler calls of `handleAsyncResponse` (lines 781-870) for the slot
`call`, by call type. -/
def handlerEvents (ext : Externals) (call : MmsOutstandingCall) (response : Option ByteBuffer)
    (bufPos : Nat) (err : MmsError) : List Event :=
  match call.type with
  | MMS_CALL_TYPE_READ_VARIABLE =>
    if err ≠ MMS_ERROR_NONE then
      [Event.userCallback call.userCallback call.invokeId call.userParameter err
        (HandlerResult.readVariable none)]
    else
      match response with
      | some r =>
        [Event.userCallback call.userCallback call.invokeId call.userParameter MMS_ERROR_NONE
          (HandlerResult.readVariable (ext.mmsClient_parseReadResponse r))]
      | none => []
  | MMS_CALL_TYPE_WRITE_VARIABLE =>
    if err ≠ MMS_ERROR_NONE then
      [Event.userCallback call.userCallback call.invokeId call.userParameter err
        (HandlerResult.writeVariable ext.DATA_ACCESS_ERROR_NO_RESPONSE)]
    else
      match response with
      | some r =>
        [Event.userCallback call.userCallback call.invokeId call.userParameter
          (ext.mmsClient_parseWriteResponse r bufPos).1
          (HandlerResult.writeVariable (ext.mmsClient_parseWriteResponse r bufPos).2)]
      | none => []
  | MMS_CALL_TYPE_WRITE_MULTIPLE_VARIABLES =>
    if err ≠ MMS_ERROR_NONE then
      [Event.userCallback call.userCallback call.invokeId call.userParameter err
        (HandlerResult.writeMultipleVariables none)]
    else
      match response with
      | some r =>
        [Event.userCallback call.userCallback call.invokeId call.userParameter
          (ext.mmsClient_parseWriteMultipleItemsResponse r bufPos).1
          (HandlerResult.writeMultipleVariables
            (ext.mmsClient_parseWriteMultipleItemsResponse r bufPos).2)]
      | none => []
  | MMS_CALL_TYPE_READ_NVL_DIRECTORY =>
    if err ≠ MMS_ERROR_NONE then
      [Event.userCallback call.userCallback call.invokeId call.userParameter err
        (HandlerResult.readNVLDirectory none false)]
    else
      match response with
      | some r =>
        let parsed := ext.mmsClient_parseGetNamedVariableListAttributesResponse r
        [Event.userCallback call.userCallback call.invokeId call.userParameter
          (if parsed.1 = none then MMS_ERROR_PARSING_RESPONSE else MMS_ERROR_NONE)
          (HandlerResult.readNVLDirectory parsed.1 parsed.2)]
      | none => []
  | MMS_CALL_TYPE_DEFINE_NVL =>
    if err ≠ MMS_ERROR_NONE then
      [Event.userCallback call.userCallback call.invokeId call.userParameter err
        (HandlerResult.genericService false)]
    else if ext.mmsClient_parseDefineNamedVariableResponse response = false then
      [Event.userCallback call.userCallback call.invokeId call.userParameter
        MMS_ERROR_PARSING_RESPONSE (HandlerResult.genericService false)]
    else
      [Event.userCallback call.userCallback call.invokeId call.userParameter MMS_ERROR_NONE
        (HandlerResult.genericService true)]
  | MMS_CALL_TYPE_NONE => []

/-- The function `handleAsyncResponse` (lines 777-875). `outstandingCall` is
the index of the slot the pointer designates: the handler is called, then
`removeFromOutstandingCalls` and `releaseResponse` run. -/
def handleAsyncResponse (ext : Externals) (self : MmsConnection) (response : Option ByteBuffer)
    (bufPos : Nat) (outstandingCall : Nat) (err : MmsError) : Outcome Unit :=
  (Outcome.returned () self
      (handlerEvents ext (slotAt self outstandingCall) response bufPos err)).andThen
    fun _ s1 =>
      (removeFromOutstandingCalls s1 (slotAt self outstandingCall).invokeId).andThen
        fun _ s2 => Outcome.returned () (releaseResponse s2).1 (releaseResponse s2).2

/-- The dispatch that the confirmed-error, reject and confirmed-response
branches share (lines 1012-1036, 1052-1074, 1104-1126): look the invoke-id up;
unknown: release the receive buffer; asynchronous call: `handleAsyncResponse`;
synchronous call: wait for the shared slot to be empty, then store. `store`
is the assignment under `lastResponseLock` of the branch. -/
def dispatchResponse (ext : Externals) (self : MmsConnection) (invokeId : Nat)
    (response : Option ByteBuffer) (bufPos : Nat) (err : MmsError)
    (store : MmsConnection → MmsConnection) : Outcome Unit :=
  (checkForOutstandingCall self invokeId).andThen fun call s =>
    match call with
    | some i =>
      if (slotAt s i).type ≠ MMS_CALL_TYPE_NONE then handleAsyncResponse ext s response bufPos i err
      else (waitUntilLastResponseHasBeenProcessed s).andThen
        fun _ s1 => Outcome.returned () (store s1) []
    | none => Outcome.returned () s [Event.releaseReceiveBuffer]

/-! ## The transport callback -/

/-- The type `IsoIndication`. -/
inductive IsoIndication where
  | ISO_IND_ASSOCIATION_SUCCESS
  | ISO_IND_ASSOCIATION_FAILED
  | ISO_IND_CLOSED
  | ISO_IND_DATA
  | ISO_IND_TICK
  deriving DecidableEq, Repr

open IsoIndication

/-- What one run of `mmsIsoCallback` takes from its surroundings:
`currentTime` is the value of `Hal_getTimeInMs()` (line 888); `invokeId`,
`rejectType` and `rejectReason` are the indeterminate contents of the locals
declared without initialiser (lines 1000, 1043-1045, 1146). -/
structure CallbackEnv where
  currentTime : Nat
  invokeId : Nat
  rejectType : Int
  rejectReason : Int
  deriving DecidableEq, Repr

/-- The Tick branch of `mmsIsoCallback` (lines 885-910). The table lock is
taken for the whole sweep, the call of `handleAsyncResponse` included. -/
def tickBranch (ext : Externals) (self : MmsConnection) (currentTime : Nat) : Outcome Unit :=
  if self.outstandingCallsLock then .blocked .outstandingCallsLock self []
  else
    let locked := { self with outstandingCallsLock := true }
    match findExpiredCall currentTime locked.outstandingCalls with
    | none => .returned () { locked with outstandingCallsLock := false } []
    | some i =>
      (if (slotAt locked i).type ≠ MMS_CALL_TYPE_NONE then
          handleAsyncResponse ext locked none 0 i MMS_ERROR_SERVICE_TIMEOUT
        else Outcome.returned () locked []).andThen
        fun _ s =>
          .returned ()
            { s with outstandingCalls := clearSlot s.outstandingCalls i,
                     outstandingCallsLock := false } []

/-- The loop of the confirmed-request branch of `mmsIsoCallback` (lines
1148-1248); `invokeId` is the local of that name. An iteration consumes at
least two bytes of the payload. -/
def confirmedRequestLoop (ext : Externals) (buf : ByteBuffer) :
    Nat → Nat → Nat → MmsConnection → List Event → Outcome Unit
  | 0, _, _, self, events => .returned () self events
  | fuel + 1, bufPos, invokeId, self, events =>
    if bufPos < buf.length then
      let extendedTag : Bool := byteAt buf bufPos % 32 = 31
      let nestedTag := if extendedTag then byteAt buf (bufPos + 1) else byteAt buf bufPos
      let bufPos1 := if extendedTag then bufPos + 2 else bufPos + 1
      match BerDecoder_decodeLength buf bufPos1 buf.length with
      | none => .returned () self (events ++ [Event.releaseReceiveBuffer])
      | some (length, pos) =>
        if extendedTag then
          if nestedTag = 0x48 ∨ nestedTag = 0x49 ∨ nestedTag = 0x4a then
            confirmedRequestLoop ext buf fuel (pos + length) invokeId self
              (events ++ [Event.allocateTransmitBuffer,
                Event.fileRequest nestedTag invokeId,
                Event.sendMessage
                  (ext.mmsClient_handleFileRequest nestedTag buf pos (pos + length) invokeId),
                Event.releaseReceiveBuffer])
          else
            confirmedRequestLoop ext buf fuel (pos + length) invokeId self
              (events ++ [Event.releaseReceiveBuffer])
        else if nestedTag = 0x02 then
          confirmedRequestLoop ext buf fuel (pos + length)
            (BerDecoder_decodeUint32 buf length pos)
            { self with lastInvokeId := BerDecoder_decodeUint32 buf length pos } events
        else
          .returned () self (events ++ [Event.releaseReceiveBuffer, Event.releaseReceiveBuffer])
    else .returned () self events

/-- The dispatch of `mmsIsoCallback` on the first byte of a non-empty payload
(lines 949-1268). -/
def tagDispatch (ext : Externals) (env : CallbackEnv) (indication : IsoIndication)
    (self : MmsConnection) (payload : ByteBuffer) : Outcome Unit :=
  if byteAt payload 0 = 0xa9 then
    .returned ()
      { self with
          connectionState :=
            if indication = ISO_IND_ASSOCIATION_SUCCESS then MMS_CON_ASSOCIATED
            else MMS_CON_ASSOCIATION_FAILED,
          lastResponse := some payload }
      [Event.releaseReceiveBuffer]
  else if byteAt payload 0 = 0xa3 then
    .returned () self (handleUnconfirmedMmsPdu ext self payload ++ [Event.releaseReceiveBuffer])
  else if byteAt payload 0 = 0x8b then
    .returned () { self with concludeState := CONCLUDE_STATE_REQUESTED }
      [Event.releaseReceiveBuffer]
  else if byteAt payload 0 = 0x8c then
    .returned () { self with concludeState := CONCLUDE_STATE_ACCEPTED }
      [Event.isoRelease, Event.releaseReceiveBuffer]
  else if byteAt payload 0 = 0x8d then
    .returned () { self with concludeState := CONCLUDE_STATE_REJECTED }
      [Event.releaseReceiveBuffer]
  else if byteAt payload 0 = 0xa2 then
    match mmsMsg_parseConfirmedErrorPDU payload 0 payload.length env.invokeId ⟨0, 0⟩ with
    | none => .returned () self [Event.releaseReceiveBuffer]
    | some pdu =>
      dispatchResponse ext self pdu.invokeId none 0
        (convertServiceErrorToMmsError pdu.serviceError)
        (fun s => { s with lastResponseError := convertServiceErrorToMmsError pdu.serviceError,
                           responseInvokeId := pdu.invokeId })
  else if byteAt payload 0 = 0xa4 then
    match mmsMsg_parseRejectPDU payload 0 payload.length env.invokeId env.rejectType
        env.rejectReason with
    | none => .returned () self [Event.releaseReceiveBuffer]
    | some pdu =>
      dispatchResponse ext self pdu.invokeId none 0
        (convertRejectCodesToMmsError pdu.rejectType pdu.rejectReason)
        (fun s => { s with
          lastResponseError := convertRejectCodesToMmsError pdu.rejectType pdu.rejectReason,
          responseInvokeId := pdu.invokeId })
  else if byteAt payload 0 = 0xa1 then
    match parseConfirmedResponseHeader payload with
    | none => .returned () self [Event.releaseReceiveBuffer]
    | some (invokeId, bufPos) =>
      dispatchResponse ext self invokeId (some payload) bufPos MMS_ERROR_NONE
        (fun s => { s with lastResponse := some payload, lastResponseBufPos := bufPos,
                           responseInvokeId := invokeId })
  else if byteAt payload 0 = 0xa0 then
    match BerDecoder_decodeLength payload 1 payload.length with
    | none => .returned () self [Event.releaseReceiveBuffer]
    | some (_, bufPos) =>
      confirmedRequestLoop ext payload payload.length bufPos env.invokeId self []
  else .returned () self []

/-- The function `mmsIsoCallback` (lines 877-1268). For the indications that
carry no payload (`ISO_IND_TICK`, `ISO_IND_CLOSED`,
`ISO_IND_ASSOCIATION_FAILED`) the argument `payload` is not looked at. -/
def mmsIsoCallback (ext : Externals) (env : CallbackEnv) (indication : IsoIndication)
    (self : MmsConnection) (payload : ByteBuffer) : Outcome Unit :=
  if indication = ISO_IND_TICK then tickBranch ext self env.currentTime
  else if indication = ISO_IND_CLOSED then
    .returned ()
      { self with connectionState := MMS_CON_IDLE, associationState := MMS_STATE_CLOSED }
      (if self.connectionLostHandler ≠ 0 then
        [Event.connectionLost self.connectionLostHandler self.connectionLostHandlerParameter]
       else [])
  else if indication = ISO_IND_ASSOCIATION_FAILED then
    .returned ()
      { self with connectionState := MMS_CON_ASSOCIATION_FAILED,
                  associationState := MMS_STATE_CLOSED } []
  else if payload.length < 1 then .returned () self [Event.releaseReceiveBuffer]
  else tagDispatch ext env indication self payload

/-! ## Session creation and the request paths -/

/-- The function `MmsConnection_create` (lines 1270-1312): a zeroed structure
with the default timeouts and a table of `OUTSTANDING_CALLS` zeroed slots. -/
def MmsConnection_create : MmsConnection :=
  { lastInvokeId := 0,
    outstandingCalls := List.replicate OUTSTANDING_CALLS MmsOutstandingCall.zero,
    outstandingCallsLock := false,
    requestTimeout := CONFIG_MMS_CONNECTION_DEFAULT_TIMEOUT,
    connectTimeout := CONFIG_MMS_CONNECTION_DEFAULT_CONNECT_TIMEOUT,
    associationState := MMS_STATE_CLOSED,
    connectionState := MMS_CON_IDLE,
    concludeState := CONCLUDE_STATE_IDLE,
    responseInvokeId := 0,
    lastResponse := none,
    lastResponseBufPos := 0,
    lastResponseError := MMS_ERROR_NONE,
    connectionLostHandler := 0,
    connectionLostHandlerParameter := 0,
    reportHandler := 0,
    reportHandlerParameter := 0 }

/-- The function `sendAsyncRequest` (lines 366-381); `now` is the clock value
that `addToOutstandingCalls` reads. -/
def sendAsyncRequest (self : MmsConnection) (invokeId : Nat) (message : ByteBuffer)
    (type : eMmsOutstandingCallType) (userCallback userParameter : Nat) (now : Nat) :
    Outcome MmsError :=
  (addToOutstandingCalls self invokeId type userCallback userParameter now).andThen
    fun added s =>
      if added = false then
        .returned MMS_ERROR_OUTSTANDING_CALL_LIMIT s [Event.releaseTransmitBuffer]
      else .returned MMS_ERROR_NONE s (sendMessage message)

/-- What `sendRequestAndWaitForResponse` hands back: the returned buffer
pointer (`none` is `NULL`) and the content of `*mmsError`. -/
structure SyncResponse where
  receivedMessage : Option ByteBuffer
  mmsError : MmsError
  deriving DecidableEq, Repr

/-- One iteration of the loop of `sendRequestAndWaitForResponse` together
with the exit of the function (lines 403-448): `currentTime` is the local of
that name and `self` the session as the thread finds it. `none` means that
the iteration ends in `Thread_sleep(10)` and the loop goes on; otherwise the
function leaves the loop, runs `removeFromOutstandingCalls` and returns. -/
def pollResponse (invokeId waitUntilTime currentTime : Nat) (self : MmsConnection) :
    Option (Outcome SyncResponse) :=
  if currentTime < waitUntilTime then
    if self.associationState = MMS_STATE_CLOSED then
      some ((removeFromOutstandingCalls self invokeId).andThen
        fun _ s => .returned ⟨none, MMS_ERROR_CONNECTION_LOST⟩ s [])
    else if self.responseInvokeId = invokeId then
      some ((removeFromOutstandingCalls self invokeId).andThen
        fun _ s =>
          .returned
            ⟨if self.lastResponseError ≠ MMS_ERROR_NONE then none else self.lastResponse,
             self.lastResponseError⟩ s [])
    else none
  else
    some ((removeFromOutstandingCalls self invokeId).andThen
      fun _ s => .returned ⟨none, MMS_ERROR_SERVICE_TIMEOUT⟩ s [])

/-- The polling loop of `sendRequestAndWaitForResponse` (lines 403-429) up to
the return. Every element of the schedule is what the thread finds after one
more `Thread_sleep(10)`: the new clock value and the session as the other
threads have left it. When the schedule ends while the loop is still polling,
the thread is still blocked in the loop. -/
def waitForResponse (invokeId waitUntilTime : Nat) :
    Nat → MmsConnection → List (Nat × MmsConnection) → Outcome SyncResponse
  | currentTime, self, [] =>
    match pollResponse invokeId waitUntilTime currentTime self with
    | some o => o
    | none => .blocked .pollingResponse self []
  | currentTime, self, (t, s) :: rest =>
    match pollResponse invokeId waitUntilTime currentTime self with
    | some o => o
    | none => waitForResponse invokeId waitUntilTime t s rest

/-- The function `sendRequestAndWaitForResponse` (lines 383-449). `now` is
the clock value read by `addToOutstandingCalls`, `currentTime` the one read
at line 393; `schedule` is explained at `waitForResponse`. -/
def sendRequestAndWaitForResponse (self : MmsConnection) (invokeId : Nat) (message : ByteBuffer)
    (now currentTime : Nat) (schedule : List (Nat × MmsConnection)) : Outcome SyncResponse :=
  (addToOutstandingCalls self invokeId MMS_CALL_TYPE_NONE 0 0 now).andThen
    fun added s =>
      if added = false then .returned ⟨none, MMS_ERROR_OUTSTANDING_CALL_LIMIT⟩ s []
      else
        (Outcome.returned () s (sendMessage message)).andThen
          fun _ s1 =>
            waitForResponse invokeId (currentTime + s1.requestTimeout) currentTime s1 schedule

/-- The body that the asynchronous services share (lines 1772-1797,
1869-1896, 1933-1961, 1998-2024, 2063-2090, 2130-2157, 2216-2243, 2281-2308,
2338-2365, 2396-2423, 2890-2917, 2997-3023, 3048-3075, 3101-3127); they differ
in the encoder and in the call type. `request` is the encoder applied to the
service arguments: it maps the invoke-id to the encoded request. The result is
the returned invoke-id and the content of `*mmsError`. -/
def asyncService (self : MmsConnection) (request : Nat → ByteBuffer)
    (type : eMmsOutstandingCallType) (handler parameter : Nat) (now : Nat) :
    Outcome (Nat × MmsError) :=
  if self.associationState ≠ MMS_STATE_CONNECTED then
    .returned (0, MMS_ERROR_CONNECTION_LOST) self []
  else
    (Outcome.returned () (getNextInvokeId self).2 [Event.allocateTransmitBuffer]).andThen
      fun _ s1 =>
        (sendAsyncRequest s1 (getNextInvokeId self).1 (request (getNextInvokeId self).1)
            type handler parameter now).andThen
          fun err s2 => .returned ((getNextInvokeId self).1, err) s2 []

/-- The function `MmsConnection_readVariableAsync` (lines 1772-1797). -/
def MmsConnection_readVariableAsync (self : MmsConnection) (request : Nat → ByteBuffer)
    (handler parameter : Nat) (now : Nat) : Outcome (Nat × MmsError) :=
  asyncService self request MMS_CALL_TYPE_READ_VARIABLE handler parameter now

/-- The function `setAssociationState` (lines 43-49). -/
def setAssociationState (self : MmsConnection) (newState : AssociationState) : MmsConnection :=
  { self with associationState := newState }

/-- The function `getAssociationState` (lines 51-61). -/
def getAssociationState (self : MmsConnection) : AssociationState := self.associationState

/-- The function `setConnectionState` (lines 63-69). -/
def setConnectionState (self : MmsConnection) (newState : ConnectionState) : MmsConnection :=
  { self with connectionState := newState }

/-- The function `getConnectionState` (lines 71-81). -/
def getConnectionState (self : MmsConnection) : ConnectionState := self.connectionState

/-- The function `setConcludeState` (lines 83-89). -/
def setConcludeState (self : MmsConnection) (newState : ConcludeState) : MmsConnection :=
  { self with concludeState := newState }

/-- The function `getConcludeState` (lines 91-101). -/
def getConcludeState (self : MmsConnection) : ConcludeState := self.concludeState

/-- The function `MmsConnection_identify` (lines 2513-2538), the pattern of
the synchronous services built on `sendRequestAndWaitForResponse`. `request`
is the encoder `mmsClient_createIdentifyRequest`. The result is the identity
handle (`none` is `NULL`) and the content of `*mmsError`. -/
def MmsConnection_identify (ext : Externals) (self : MmsConnection) (request : Nat → ByteBuffer)
    (now currentTime : Nat) (schedule : List (Nat × MmsConnection)) :
    Outcome (Option Nat × MmsError) :=
  if self.associationState ≠ MMS_STATE_CONNECTED then
    .returned (none, MMS_ERROR_CONNECTION_LOST) self []
  else
    (Outcome.returned () (getNextInvokeId self).2 [Event.allocateTransmitBuffer]).andThen
      fun _ s1 =>
        (sendRequestAndWaitForResponse s1 (getNextInvokeId self).1
            (request (getNextInvokeId self).1) now currentTime schedule).andThen
          fun r s2 =>
            .returned
              (if r.receivedMessage ≠ none then
                  ext.mmsClient_parseIdentifyResponse s2.lastResponse s2.lastResponseBufPos
                else none,
               r.mmsError)
              (releaseResponse s2).1 (releaseResponse s2).2

/-! ## Traces of the session -/

/-- The ids that `n` successive calls of `getNextInvokeId` return, first call
first. -/
def allocateInvokeIds : Nat → MmsConnection → List Nat
  | 0, _ => []
  | n + 1, self => (getNextInvokeId self).1 :: allocateInvokeIds n (getNextInvokeId self).2

/-- Collaborators that decode a read response to its last byte and nothing
else; used where a concrete session is run. -/
def sampleExternals : Externals :=
  { mmsClient_parseReadResponse := fun p => some (byteAt p (p.length - 1)),
    mmsClient_parseWriteResponse := fun _ _ => (MMS_ERROR_NONE, 0),
    mmsClient_parseWriteMultipleItemsResponse := fun _ _ => (MMS_ERROR_NONE, none),
    mmsClient_parseGetNamedVariableListAttributesResponse := fun _ => (none, false),
    mmsClient_parseDefineNamedVariableResponse := fun _ => true,
    mmsClient_parseIdentifyResponse := fun _ _ => none,
    mmsClient_parseStatusResponse := fun _ _ => true,
    mmsClient_parseGetNameListResponse := fun _ => ([], false),
    informationReports := fun _ => [],
    mmsClient_handleFileRequest := fun _ _ _ _ _ => [],
    DATA_ACCESS_ERROR_NO_RESPONSE := -2 }

/-- A callback environment with zeroed locals at clock value `currentTime`. -/
def sampleEnv (currentTime : Nat) : CallbackEnv :=
  { currentTime := currentTime, invokeId := 0, rejectType := 0, rejectReason := 0 }

/-- A created session whose association is up (`setAssociationState(self,
MMS_STATE_CONNECTED)`, line 1509). -/
def connectedSession : MmsConnection :=
  { MmsConnection_create with associationState := MMS_STATE_CONNECTED }

/-- The number of slots of the table that are in use. -/
def usedSlots (self : MmsConnection) : Nat :=
  self.outstandingCalls.countP (fun c => c.isUsed)

/-- The invoke-id that a confirmed-error, reject or confirmed-response PDU
carries as `mmsIsoCallback` reads it (lines 1004, 1047, 1095); `none` when the
payload is none of the three or does not parse. -/
def carriedInvokeId (env : CallbackEnv) (payload : ByteBuffer) : Option Nat :=
  if byteAt payload 0 = 0xa2 then
    (mmsMsg_parseConfirmedErrorPDU payload 0 payload.length env.invokeId ⟨0, 0⟩).map
      (fun pdu => pdu.invokeId)
  else if byteAt payload 0 = 0xa4 then
    (mmsMsg_parseRejectPDU payload 0 payload.length env.invokeId env.rejectType
      env.rejectReason).map (fun pdu => pdu.invokeId)
  else if byteAt payload 0 = 0xa1 then
    (parseConfirmedResponseHeader payload).map (fun r => r.1)
  else none

/-- The session after `n` asynchronous read requests issued at clock value
`now`, none of them answered. -/
def afterAsyncReads : Nat → MmsConnection → Nat → MmsConnection
  | 0, self, _ => self
  | n + 1, self, now =>
    afterAsyncReads n (MmsConnection_readVariableAsync self (fun i => [i]) 7 8 now).state now

/-- A confirmed-error PDU for invoke-id `1` with service error class `7`
(access), code `2`: `a2 0a  80 01 01  a2 05 a0 03 87 01 02`. -/
def sampleConfirmedError : ByteBuffer :=
  [0xa2, 0x0a, 0x80, 0x01, 0x01, 0xa2, 0x05, 0xa0, 0x03, 0x87, 0x01, 0x02]

/-- A connected session with one synchronous call outstanding: the state in
which `MmsConnection_identify`, issued at clock value `100`, polls for its
response (invoke-id `1`, slot `0`, type `MMS_CALL_TYPE_NONE`). -/
def syncCallPending : MmsConnection :=
  (MmsConnection_identify sampleExternals connectedSession (fun i => [i]) 100 100 []).state

/-- A confirmed-response PDU for invoke-id `2` with an empty read body:
`a1 05  02 01 02  a4 00`. -/
def sampleConfirmedResponse : ByteBuffer := [0xa1, 0x05, 0x02, 0x01, 0x02, 0xa4, 0x00]

/-- The session of `syncCallPending` after an asynchronous read has been issued
as well (invoke-id `2`, slot `1`). -/
def syncAndAsyncPending : MmsConnection :=
  (MmsConnection_readVariableAsync syncCallPending (fun i => [i]) 7 8 100).state

/-- The invoke-ids of the used slots, in table order. -/
def usedInvokeIds (calls : List MmsOutstandingCall) : List Nat :=
  (calls.filter (fun c => c.isUsed)).map (fun c => c.invokeId)

/-- No two used slots carry the same invoke-id. -/
def invokeIdsDistinct (calls : List MmsOutstandingCall) : Prop := (usedInvokeIds calls).Nodup

instance (calls : List MmsOutstandingCall) : Decidable (invokeIdsDistinct calls) :=
  inferInstanceAs (Decidable (usedInvokeIds calls).Nodup)

/-- The callback run on Data payloads one after the other, in list order. -/
def deliverAll (ext : Externals) (env : CallbackEnv) : MmsConnection → List ByteBuffer → Outcome Unit
  | self, [] => .returned () self []
  | self, p :: rest =>
    (mmsIsoCallback ext env ISO_IND_DATA self p).andThen fun _ s => deliverAll ext env s rest

/-- The invoke-id in the header of a confirmed-response PDU. -/
def responseInvokeIdOf (p : ByteBuffer) : Option Nat :=
  (parseConfirmedResponseHeader p).map (fun r => r.1)

/-- What the table `calls` answers to the confirmed-response `p`: the handler
call of the slot that `calls` holds for the invoke-id of `p`, on the payload
`p` with error `MMS_ERROR_NONE`, and the release of the receive buffer. -/
def responseEvents (ext : Externals) (calls : List MmsOutstandingCall) (p : ByteBuffer) :
    List Event :=
  match parseConfirmedResponseHeader p with
  | some (X, pos) =>
    match findOutstandingCall X calls with
    | some i =>
      handlerEvents ext (calls.getD i MmsOutstandingCall.zero) (some p) pos MMS_ERROR_NONE
        ++ [Event.releaseReceiveBuffer]
    | none => [Event.releaseReceiveBuffer]
  | none => [Event.releaseReceiveBuffer]

/-- A connected session with five asynchronous reads outstanding, issued back
to back: invoke-ids `1..5`, the read `k` with handler `10 * k` and user
parameter `10 * k + 1`. -/
def fiveAsyncReads : MmsConnection :=
  [1, 2, 3, 4, 5].foldl
    (fun s k =>
      (MmsConnection_readVariableAsync s (fun i => [i]) (10 * k) (10 * k + 1) 100).state)
    connectedSession

/-- A confirmed-response PDU for `invokeId` (below `128`) whose body is the
one-byte integer `value`: `a1 06  02 01 id  85 01 value`. -/
def readResponse (invokeId value : Nat) : ByteBuffer :=
  [0xa1, 0x06, 0x02, 0x01, invokeId, 0x85, 0x01, value]

/-- One event at the session: what the user threads and the transport thread
do to it, each as one atomic step. -/
inductive Step where
  /-- The association state changes (`setAssociationState`, called by connect). -/
  | setAssociationState (newState : AssociationState)
  /-- The connection state changes (`setConnectionState`, called by connect). -/
  | setConnectionState (newState : ConnectionState)
  /-- The conclude state changes (`setConcludeState`, called by conclude). -/
  | setConcludeState (newState : ConcludeState)
  /-- An asynchronous service is called (`asyncService`). -/
  | asyncRequest (message : ByteBuffer) (type : eMmsOutstandingCallType)
      (handler parameter now : Nat)
  /-- A synchronous service is called and runs until it polls for its response
  or returns at once: `getNextInvokeId`, then `sendRequestAndWaitForResponse`
  up to the first `Thread_sleep`. -/
  | syncRequest (message : ByteBuffer) (now currentTime : Nat)
  /-- A polling synchronous service leaves `sendRequestAndWaitForResponse`:
  `removeFromOutstandingCalls` for its invoke-id. -/
  | syncReturn (invokeId : Nat)
  /-- A synchronous service calls `releaseResponse`. -/
  | releaseResponse
  /-- The transport calls `mmsIsoCallback`. -/
  | indication (env : CallbackEnv) (indication : IsoIndication) (payload : ByteBuffer)
  deriving DecidableEq, Repr

/-- The session after one step. -/
def applyStep (ext : Externals) (self : MmsConnection) : Step → MmsConnection
  | .setAssociationState newState => setAssociationState self newState
  | .setConnectionState newState => setConnectionState self newState
  | .setConcludeState newState => setConcludeState self newState
  | .asyncRequest message type handler parameter now =>
    (asyncService self (fun _ => message) type handler parameter now).state
  | .syncRequest message now currentTime =>
    (sendRequestAndWaitForResponse (getNextInvokeId self).2 (getNextInvokeId self).1 message now
      currentTime []).state
  | .syncReturn invokeId => (removeFromOutstandingCalls self invokeId).state
  | .releaseResponse => (releaseResponse self).1
  | .indication env ind payload => (mmsIsoCallback ext env ind self payload).state

/-- The session after a sequence of steps. -/
def run (ext : Externals) : MmsConnection → List Step → MmsConnection
  | self, [] => self
  | self, step :: rest => run ext (applyStep ext self step) rest

/-- The number of service calls in a sequence of steps; each allocates at most
one invoke-id. -/
def allocations : List Step → Nat
  | [] => 0
  | .asyncRequest _ _ _ _ _ :: rest => allocations rest + 1
  | .syncRequest _ _ _ :: rest => allocations rest + 1
  | _ :: rest => allocations rest

/-- The step delivers a payload with the tag `0xa0` of a confirmed-request PDU
to the tag dispatch of `mmsIsoCallback`. -/
def Step.isConfirmedRequest : Step → Bool
  | .indication _ ind payload =>
    (ind = ISO_IND_DATA ∨ ind = ISO_IND_ASSOCIATION_SUCCESS) ∧ byteAt payload 0 = 0xa0
  | _ => false

/-- The table invariant behind the uniqueness of invoke-ids: the used slots
carry distinct invoke-ids, none above the counter. -/
def TableInv (self : MmsConnection) : Prop :=
  invokeIdsDistinct self.outstandingCalls ∧
    ∀ id ∈ usedInvokeIds self.outstandingCalls, id ≤ self.lastInvokeId

/-- From `s` to `s'` the counter is kept and used slots are at most freed. -/
def Shrinks (s s' : MmsConnection) : Prop :=
  s'.lastInvokeId = s.lastInvokeId ∧
    (usedInvokeIds s'.outstandingCalls).Sublist (usedInvokeIds s.outstandingCalls)

/-- A confirmed-request PDU that holds the invoke-id `0` and nothing else:
`a0 03  02 01 00`. -/
def sampleConfirmedRequest : ByteBuffer := [0xa0, 0x03, 0x02, 0x01, 0x00]

/-- An asynchronous read request as a step. -/
def readStep : Step := Step.asyncRequest [] MMS_CALL_TYPE_READ_VARIABLE 7 8 100

/-- The shared slot does not hold `MMS_ERROR_OUTSTANDING_CALL_LIMIT`. -/
def SlotErrorOk (self : MmsConnection) : Prop :=
  self.lastResponseError ≠ MMS_ERROR_OUTSTANDING_CALL_LIMIT

/-- The confirmed-error PDU that carries `invokeId` in four bytes and the
service error `errorClass` (below `128`), `errorCode` (one byte):
`a2 0d  80 04 i3 i2 i1 i0  a2 05 a0 03 (80+class) 01 code`. -/
def confirmedErrorPdu (invokeId errorClass errorCode : Nat) : ByteBuffer :=
  [0xa2, 0x0d, 0x80, 0x04, invokeId / 16777216 % 256, invokeId / 65536 % 256,
   invokeId / 256 % 256, invokeId % 256, 0xa2, 0x05, 0xa0, 0x03, 0x80 + errorClass, 0x01,
   errorCode]

/-! ## The error tables as the specification words them -/

/-- The named codes of service-error class `2` (definition), in the order of
the specification: codes `1..6`. -/
def definitionErrorCodes : List (Int × MmsError) :=
  [(1, MMS_ERROR_DEFINITION_OBJECT_UNDEFINED), (2, MMS_ERROR_DEFINITION_INVALID_ADDRESS),
   (3, MMS_ERROR_DEFINITION_TYPE_UNSUPPORTED), (4, MMS_ERROR_DEFINITION_TYPE_INCONSISTENT),
   (5, MMS_ERROR_DEFINITION_OBJECT_EXISTS),
   (6, MMS_ERROR_DEFINITION_OBJECT_ATTRIBUTE_INCONSISTENT)]

/-- The named codes of service-error class `7` (access): codes `1..4`. -/
def accessErrorCodes : List (Int × MmsError) :=
  [(1, MMS_ERROR_ACCESS_OBJECT_ACCESS_UNSUPPORTED), (2, MMS_ERROR_ACCESS_OBJECT_NON_EXISTENT),
   (3, MMS_ERROR_ACCESS_OBJECT_ACCESS_DENIED), (4, MMS_ERROR_ACCESS_OBJECT_INVALIDATED)]

/-- The named codes of service-error class `11` (file): codes `1..9`. -/
def fileErrorCodes : List (Int × MmsError) :=
  [(1, MMS_ERROR_FILE_FILENAME_AMBIGUOUS), (2, MMS_ERROR_FILE_FILE_BUSY),
   (3, MMS_ERROR_FILE_FILENAME_SYNTAX_ERROR), (4, MMS_ERROR_FILE_CONTENT_TYPE_INVALID),
   (5, MMS_ERROR_FILE_POSITION_INVALID), (6, MMS_ERROR_FILE_FILE_ACCESS_DENIED),
   (7, MMS_ERROR_FILE_FILE_NON_EXISTENT), (8, MMS_ERROR_FILE_DUPLICATE_FILENAME),
   (9, MMS_ERROR_FILE_INSUFFICIENT_SPACE_IN_FILESTORE)]

/-- The service-error table of the specification, by class: for a class with
named codes, the codes of the class and the error of every other code; for a
class without, its one error. A class that is not listed has no entry. -/
def serviceErrorClasses : List (Int × List (Int × MmsError) × MmsError) :=
  [(0, [], MMS_ERROR_VMDSTATE_OTHER), (1, [], MMS_ERROR_APPLICATION_REFERENCE_OTHER),
   (2, definitionErrorCodes, MMS_ERROR_DEFINITION_OTHER), (3, [], MMS_ERROR_RESOURCE_OTHER),
   (4, [], MMS_ERROR_SERVICE_OTHER), (5, [], MMS_ERROR_SERVICE_PREEMPT_OTHER),
   (6, [], MMS_ERROR_TIME_RESOLUTION_OTHER), (7, accessErrorCodes, MMS_ERROR_ACCESS_OTHER),
   (11, fileErrorCodes, MMS_ERROR_FILE_OTHER)]

/-- The error that the service-error table of the specification gives for
`(errorClass, errorCode)`: the entry of the code in the class, else the error
of the class, else `MMS_ERROR_OTHER`. -/
def serviceErrorTable (errorClass errorCode : Int) : MmsError :=
  match serviceErrorClasses.lookup errorClass with
  | some (codes, other) => (codes.lookup errorCode).getD other
  | none => MMS_ERROR_OTHER

/-- The reject table of the specification: the four named `(type, reason)`
pairs. -/
def rejectCodePairs : List ((Int × Int) × MmsError) :=
  [((1, 1), MMS_ERROR_REJECT_UNRECOGNIZED_SERVICE), ((5, 0), MMS_ERROR_REJECT_UNKNOWN_PDU_TYPE),
   ((1, 4), MMS_ERROR_REJECT_REQUEST_INVALID_ARGUMENT), ((5, 1), MMS_ERROR_REJECT_INVALID_PDU)]

/-- The error that the reject table of the specification gives for
`(rejectType, rejectReason)`: the entry of the pair, else
`MMS_ERROR_REJECT_OTHER`. -/
def rejectTable (rejectType rejectReason : Int) : MmsError :=
  (rejectCodePairs.lookup (rejectType, rejectReason)).getD MMS_ERROR_REJECT_OTHER

/-- The reject PDU that carries `invokeId` in four bytes, the reject type
`rejectType` (`1..11`) and the reject reason `rejectReason` in one byte:
`a4 09  80 04 i3 i2 i1 i0  (80+type) 01 reason`. -/
def rejectPdu (invokeId rejectType rejectReason : Nat) : ByteBuffer :=
  [0xa4, 0x09, 0x80, 0x04, invokeId / 16777216 % 256, invokeId / 65536 % 256,
   invokeId / 256 % 256, invokeId % 256, 0x80 + rejectType, 0x01, rejectReason]

/-! ## Connection establishment and release -/

/-- The test of one iteration of the loop of `waitForConnectResponse` (lines
1454-1461): `true` when the loop is left (deadline reached, or the connection
state is no longer `MMS_CON_WAITING`), `false` when the iteration ends in
`Thread_sleep(10)`. -/
def pollConnectionState (waitUntilTime currentTime : Nat) (self : MmsConnection) : Bool :=
  if currentTime < waitUntilTime then
    if getConnectionState self ≠ MMS_CON_WAITING then true else false
  else true

/-- The loop of `waitForConnectResponse` (lines 1454-1461). The schedule is
as in `waitForResponse`: what the thread finds after each `Thread_sleep(10)`.
The function changes nothing; it returns with the session as the thread found
it at the last test. -/
def waitForConnectResponseLoop (waitUntilTime : Nat) :
    Nat → MmsConnection → List (Nat × MmsConnection) → Outcome Unit
  | currentTime, self, [] =>
    if pollConnectionState waitUntilTime currentTime self then .returned () self []
    else .blocked .pollingConnectionState self []
  | currentTime, self, (t, s) :: rest =>
    if pollConnectionState waitUntilTime currentTime self then .returned () self []
    else waitForConnectResponseLoop waitUntilTime t s rest

/-- The function `waitForConnectResponse` (lines 1447-1462); `currentTime`
is the clock value read at line 1450. The deadline is counted with
`requestTimeout`. -/
def waitForConnectResponse (self : MmsConnection) (currentTime : Nat)
    (schedule : List (Nat × MmsConnection)) : Outcome Unit :=
  waitForConnectResponseLoop (currentTime + self.requestTimeout) currentTime self schedule

/-- The function `MmsConnection_connect` (lines 1464-1527). `initiateRequest`
is what `mmsClient_createInitiateRequest` encodes. `associated` is the session
as `IsoClientConnection_associate` returns it: what
`setConnectionState(self, MMS_CON_WAITING)` left, changed by the callbacks
that ran meanwhile; `currentTime` and `schedule` belong to
`waitForConnectResponse`. The TCP parameters and `parameters.maxPduSize` are
not part of the session model, nor is what `mmsClient_parseInitiateResponse`
stores in `parameters`. Lines 1504-1526 run on the session found at the end
of the wait. The result is the returned flag and the content of `*mmsError`. -/
def MmsConnection_connect (self : MmsConnection) (initiateRequest : ByteBuffer)
    (associated : MmsConnection) (currentTime : Nat) (schedule : List (Nat × MmsConnection)) :
    Outcome (Bool × MmsError) :=
  (Outcome.returned () (setConnectionState self MMS_CON_WAITING)
      [Event.allocateTransmitBuffer,
       Event.associate initiateRequest self.connectTimeout]).andThen
    fun _ _ =>
      (waitForConnectResponse associated currentTime schedule).andThen
        fun _ s =>
          (if getConnectionState s = MMS_CON_ASSOCIATED then
              Outcome.returned ()
                (setAssociationState (releaseResponse s).1 MMS_STATE_CONNECTED)
                (releaseResponse s).2
            else Outcome.returned () (setAssociationState s MMS_STATE_CLOSED) []).andThen
            fun _ s1 =>
              if getAssociationState (setConnectionState s1 MMS_CON_IDLE)
                  = MMS_STATE_CONNECTED then
                .returned (true, MMS_ERROR_NONE) (setConnectionState s1 MMS_CON_IDLE) []
              else
                .returned (false, MMS_ERROR_CONNECTION_REJECTED)
                  (setConnectionState s1 MMS_CON_IDLE) []

/-- The test of one iteration of the loop of
`sendConcludeRequestAndWaitForResponse` together with the exit of the function
(lines 1574-1597): `none` when the iteration ends in `Thread_sleep(1)`;
otherwise the session with which the function returns: unchanged after the
jump to `exit_function` (association closed) and after `success = true`, with
`lastResponseError = MMS_ERROR_SERVICE_TIMEOUT` when the deadline is reached. -/
def pollConcludeState (waitUntilTime currentTime : Nat) (self : MmsConnection) :
    Option MmsConnection :=
  if currentTime < waitUntilTime then
    if getAssociationState self = MMS_STATE_CLOSED then some self
    else if getConcludeState self ≠ CONCLUDE_STATE_REQUESTED then some self
    else none
  else some { self with lastResponseError := MMS_ERROR_SERVICE_TIMEOUT }

/-- The loop of `sendConcludeRequestAndWaitForResponse` (lines 1574-1588) up
to the return; the schedule holds what the thread finds after each
`Thread_sleep(1)`. -/
def waitForConcludeResponse (waitUntilTime : Nat) :
    Nat → MmsConnection → List (Nat × MmsConnection) → Outcome Unit
  | currentTime, self, [] =>
    match pollConcludeState waitUntilTime currentTime self with
    | some s => .returned () s []
    | none => .blocked .pollingConcludeState self []
  | currentTime, self, (t, s) :: rest =>
    match pollConcludeState waitUntilTime currentTime self with
    | some s1 => .returned () s1 []
    | none => waitForConcludeResponse waitUntilTime t s rest

/-- The function `sendConcludeRequestAndWaitForResponse` (lines 1556-1598).
`concludeMessage` is what `mmsClient_createConcludeRequest` encodes,
`startTime` the clock value read at line 1559. -/
def sendConcludeRequestAndWaitForResponse (self : MmsConnection) (concludeMessage : ByteBuffer)
    (startTime : Nat) (schedule : List (Nat × MmsConnection)) : Outcome Unit :=
  (Outcome.returned () (setConcludeState self CONCLUDE_STATE_REQUESTED)
      [Event.allocateTransmitBuffer, Event.sendMessage concludeMessage]).andThen
    fun _ s => waitForConcludeResponse (startTime + self.requestTimeout) startTime s schedule

/-- The content of `*mmsError` that `MmsConnection_conclude` computes in lines
1607-1624 from the session `found` when `sendConcludeRequestAndWaitForResponse`
has returned. -/
def concludeError (found : MmsConnection) : MmsError :=
  let afterWait :=
    if found.lastResponseError ≠ MMS_ERROR_NONE then found.lastResponseError
    else MMS_ERROR_NONE
  if getConcludeState found ≠ CONCLUDE_STATE_ACCEPTED then
    let afterClosed :=
      if getAssociationState found = MMS_STATE_CLOSED then MMS_ERROR_CONNECTION_LOST
      else afterWait
    if getConcludeState found = CONCLUDE_STATE_REJECTED then MMS_ERROR_CONCLUDE_REJECTED
    else afterClosed
  else afterWait

/-- The function `MmsConnection_conclude` (lines 1600-1630); the result is
the content of `*mmsError`. Lines 1612-1626 run on the session found when
`sendConcludeRequestAndWaitForResponse` has returned. -/
def MmsConnection_conclude (self : MmsConnection) (concludeMessage : ByteBuffer)
    (startTime : Nat) (schedule : List (Nat × MmsConnection)) : Outcome MmsError :=
  if getAssociationState self ≠ MMS_STATE_CONNECTED then
    .returned MMS_ERROR_CONNECTION_LOST self []
  else
    (sendConcludeRequestAndWaitForResponse self concludeMessage startTime schedule).andThen
      fun _ s =>
        .returned (concludeError s)
          { (releaseResponse s).1 with connectionLostHandler := 0 } (releaseResponse s).2

/-! ## Further public services -/

/-- The function `MmsConnection_getServerStatus` (lines 2540-2558); `request`
is the encoder `mmsClient_createStatusRequest` applied to the service
arguments. The result is the content of `*mmsError`, which
`sendRequestAndWaitForResponse` always writes. -/
def MmsConnection_getServerStatus (ext : Externals) (self : MmsConnection)
    (request : Nat → ByteBuffer) (now currentTime : Nat)
    (schedule : List (Nat × MmsConnection)) : Outcome MmsError :=
  (Outcome.returned () (getNextInvokeId self).2 [Event.allocateTransmitBuffer]).andThen
    fun _ s1 =>
      (sendRequestAndWaitForResponse s1 (getNextInvokeId self).1
          (request (getNextInvokeId self).1) now currentTime schedule).andThen
        fun r s2 =>
          .returned
            (if r.receivedMessage ≠ none then
                if ext.mmsClient_parseStatusResponse s2.lastResponse s2.lastResponseBufPos
                    = false then MMS_ERROR_PARSING_RESPONSE
                else r.mmsError
              else r.mmsError)
            (releaseResponse s2).1 (releaseResponse s2).2

/-- The function `MmsConnection_writeVariable` (lines 2867-2888); `request`
is the encoder `mmsClient_createWriteRequest` applied to the service
arguments, `DATA_ACCESS_ERROR_UNKNOWN` the constant of that name. The result
is the returned access error and the content of `*mmsError`. -/
def MmsConnection_writeVariable (ext : Externals) (DATA_ACCESS_ERROR_UNKNOWN : Int)
    (self : MmsConnection) (request : Nat → ByteBuffer) (now currentTime : Nat)
    (schedule : List (Nat × MmsConnection)) : Outcome (Int × MmsError) :=
  (Outcome.returned () (getNextInvokeId self).2 [Event.allocateTransmitBuffer]).andThen
    fun _ s1 =>
      (sendRequestAndWaitForResponse s1 (getNextInvokeId self).1
          (request (getNextInvokeId self).1) now currentTime schedule).andThen
        fun r s2 =>
          .returned
            (match r.receivedMessage with
              | some response =>
                ((ext.mmsClient_parseWriteResponse response s2.lastResponseBufPos).2,
                 (ext.mmsClient_parseWriteResponse response s2.lastResponseBufPos).1)
              | none => (DATA_ACCESS_ERROR_UNKNOWN, r.mmsError))
            (releaseResponse s2).1 (releaseResponse s2).2

/-- The function `MmsConnection_deleteNamedVariableList` (lines 2426-2453);
`request` is the encoder `mmsClient_createDeleteNamedVariableListRequest`
applied to the service arguments, `parseResponse` the decoder
`mmsClient_parseDeleteNamedVariableListResponse` (not among the sources). The
result is the returned flag and the content of `*mmsError`. -/
def MmsConnection_deleteNamedVariableList (parseResponse : Option ByteBuffer → Bool)
    (self : MmsConnection) (request : Nat → ByteBuffer) (now currentTime : Nat)
    (schedule : List (Nat × MmsConnection)) : Outcome (Bool × MmsError) :=
  if self.associationState ≠ MMS_STATE_CONNECTED then
    .returned (false, MMS_ERROR_CONNECTION_LOST) self []
  else
    (Outcome.returned () (getNextInvokeId self).2 [Event.allocateTransmitBuffer]).andThen
      fun _ s1 =>
        (sendRequestAndWaitForResponse s1 (getNextInvokeId self).1
            (request (getNextInvokeId self).1) now currentTime schedule).andThen
          fun r s2 =>
            .returned
              (if r.receivedMessage ≠ none then
                  if parseResponse s2.lastResponse then true else false
                else false,
               r.mmsError)
              (releaseResponse s2).1 (releaseResponse s2).2

/-- What a call of `readVariableHandler` (lines 1756-1770) stores for the
waiting thread: the error in `*err`, the value in `param2`; then it posts the
semaphore. `none` for an event that is not a call of the handler `handler`
with the parameter block `parameter`. -/
def readVariableHandler (handler parameter : Nat) : Event → Option (MmsError × Option Nat)
  | .userCallback callback _ userParameter err (.readVariable value) =>
    if callback = handler ∧ userParameter = parameter then some (err, value) else none
  | _ => none

/-- The function `MmsConnection_readVariable` (lines 1799-1831). `handler`
is the address of `readVariableHandler`, `parameter` that of the local
parameter block. `later` holds the events of the transport thread after the
request has been sent: the second `Semaphore_wait` (line 1818) returns at the
first call of the handler among them, and never when there is none. The
function does not touch the session after the request. The result is the
returned value (`none` is `NULL`) and the content of `*mmsError`. -/
def MmsConnection_readVariable (self : MmsConnection) (request : Nat → ByteBuffer)
    (handler parameter : Nat) (now : Nat) (later : List Event) :
    Outcome (Option Nat × MmsError) :=
  (MmsConnection_readVariableAsync self request handler parameter now).andThen
    fun r s =>
      if r.2 = MMS_ERROR_NONE then
        match later.findSome? (readVariableHandler handler parameter) with
        | some (err, value) => .returned (value, err) s []
        | none => .blocked .responseSemaphore s []
      else .returned (none, r.2) s []

/-- Collaborators whose decoders fail on every response body; used where a
concrete session is run. -/
def failingExternals : Externals :=
  { sampleExternals with
      mmsClient_parseReadResponse := fun _ => none,
      mmsClient_parseIdentifyResponse := fun _ _ => none,
      mmsClient_parseStatusResponse := fun _ _ => false,
      mmsClient_parseDefineNamedVariableResponse := fun _ => false }

/-- The conclude request as `mmsClient_createConcludeRequest` encodes it:
`8b 00`. -/
def sampleConcludeRequest : ByteBuffer := [0x8b, 0x00]

/-- The session in which `MmsConnection_conclude`, called on
`connectedSession`, polls for the answer: the conclude state is
`CONCLUDE_STATE_REQUESTED`. -/
def concludePending : MmsConnection :=
  setConcludeState connectedSession CONCLUDE_STATE_REQUESTED

/-- The session of `concludePending` after the transport thread has processed
the conclude-response+ `8c 00`. -/
def concludeAccepted : MmsConnection :=
  (mmsIsoCallback sampleExternals (sampleEnv 1) ISO_IND_DATA concludePending [0x8c, 0x00]).state

/-- The session of `concludePending` after the transport thread has processed
the conclude-response- `8d 00`. -/
def concludeRejected : MmsConnection :=
  (mmsIsoCallback sampleExternals (sampleEnv 1) ISO_IND_DATA concludePending [0x8d, 0x00]).state

/-- The session of `syncCallPending` after the transport has closed
(`ISO_IND_CLOSED`) at clock value `105`. -/
def syncCallClosed : MmsConnection :=
  (mmsIsoCallback sampleExternals (sampleEnv 105) ISO_IND_CLOSED syncCallPending []).state

/-- The session of `syncCallPending` after the transport thread has processed
a confirmed-response for invoke-id `1`. -/
def syncCallAnswered : MmsConnection :=
  (mmsIsoCallback sampleExternals (sampleEnv 105) ISO_IND_DATA syncCallPending
    (readResponse 1 22)).state

/-- The session in which `MmsConnection_readVariable`, called on
`connectedSession` at clock value `100` with handler `7` and parameter block
`8`, waits on its semaphore (invoke-id `1`, slot `0`). -/
def readVariablePending : MmsConnection :=
  (MmsConnection_readVariableAsync connectedSession (fun i => [i]) 7 8 100).state

/-- A confirmed-request PDU that holds the invoke-id `2` and nothing else:
`a0 03  02 01 02`. -/
def confirmedRequestTwo : ByteBuffer := [0xa0, 0x03, 0x02, 0x01, 0x02]

/-- A confirmed-error PDU without any field: `a2 00`. -/
def emptyConfirmedError : ByteBuffer := [0xa2, 0x00]

/-- A reject PDU without any field: `a4 00`. -/
def emptyReject : ByteBuffer := [0xa4, 0x00]

/-! ## BER fields, for statements about the parsers -/

/-- The buffer `buffer` holds the bytes of `content` from position `offset`
on. -/
def HoldsAt (buffer : ByteBuffer) (offset : Nat) (content : ByteBuffer) : Prop :=
  ∀ i, i < content.length → byteAt buffer (offset + i) = byteAt content i

/-- A BER field with a single-byte tag: the tag byte, the bytes that encode
the length, and the content. -/
structure BerField where
  tag : Nat
  lengthBytes : ByteBuffer
  content : ByteBuffer
  deriving DecidableEq, Repr

/-- The bytes of a field. -/
def BerField.bytes (f : BerField) : ByteBuffer := f.tag :: (f.lengthBytes ++ f.content)

/-- The length bytes of the field are a definite-length encoding of the
length of its content, as `BerDecoder_decodeLength` reads it. -/
def BerField.WellFormed (f : BerField) : Prop :=
  BerDecoder_decodeLength (f.lengthBytes ++ f.content) 0 (f.lengthBytes ++ f.content).length
    = some (f.content.length, f.lengthBytes.length)

instance (f : BerField) : Decidable f.WellFormed :=
  inferInstanceAs (Decidable (_ = _))

/-- The bytes of a sequence of fields, one after the other. -/
def fieldBytes : List BerField → ByteBuffer
  | [] => []
  | f :: rest => f.bytes ++ fieldBytes rest

/-- What a sequence of fields of a confirmed-error PDU does to the output
variables `invokeId` and `serviceError`, field by field: a field `0x80` gives
the invoke-id, a field `0xa2` is read by `parseServiceError` (on the field
alone), every other field is skipped. -/
def confirmedErrorFields : List BerField → Nat → MmsServiceError → Option (Nat × MmsServiceError)
  | [], invokeId, serviceError => some (invokeId, serviceError)
  | f :: rest, invokeId, serviceError =>
    if f.tag = 0x80 then
      confirmedErrorFields rest (BerDecoder_decodeUint32 f.content f.content.length 0)
        serviceError
    else if f.tag = 0xa2 then
      match parseServiceError f.content 0 f.content.length serviceError with
      | none => none
      | some (_, serviceError2) => confirmedErrorFields rest invokeId serviceError2
    else confirmedErrorFields rest invokeId serviceError

/-- What a sequence of fields of a reject PDU does to the output variables
`invokeId`, `rejectType` and `rejectReason`, field by field: a field `0x80`
gives the invoke-id, a field with a tag in `0x81..0x8b` the reject type and
reason, every other field is skipped. -/
def rejectFields : List BerField → Nat → Int → Int → Nat × Int × Int
  | [], invokeId, rejectType, rejectReason => (invokeId, rejectType, rejectReason)
  | f :: rest, invokeId, rejectType, rejectReason =>
    if f.tag = 0x80 then
      rejectFields rest (BerDecoder_decodeUint32 f.content f.content.length 0) rejectType
        rejectReason
    else if f.tag > 0x80 ∧ f.tag < 0x8c then
      rejectFields rest invokeId ((f.tag : Int) - 0x80)
        (BerDecoder_decodeInt32 f.content f.content.length 0)
    else rejectFields rest invokeId rejectType rejectReason

/-- The PDU with outer tag `tag`, length bytes `lengthBytes` and the fields
`fields` as content. -/
def pduOf (tag : Nat) (lengthBytes : ByteBuffer) (fields : List BerField) : BerField :=
  { tag := tag, lengthBytes := lengthBytes, content := fieldBytes fields }

/-- The sequence `fields` consists of the two fields `a` and `b`, in either
order, and of fields whose tag `known` does not hold for, anywhere before,
between and after them. -/
def Arranged (a b : BerField) (known : Nat → Prop) (fields : List BerField) : Prop :=
  ∃ before between after : List BerField,
    (∀ f ∈ before ++ between ++ after, ¬ known f.tag) ∧
      (fields = before ++ a :: (between ++ b :: after) ∨
        fields = before ++ b :: (between ++ a :: after))

/-! ## The get-name-list service -/

/-- What one synchronous request takes from its surroundings: the clock value
`now` read by `addToOutstandingCalls`, the clock value `currentTime` read at
line 393 and the schedule of `waitForResponse`. -/
structure Round where
  now : Nat
  currentTime : Nat
  schedule : List (Nat × MmsConnection)

/-- The function `mmsClient_getNameListSingleRequest` (lines 1640-1683).
`nameList` is the content of `*nameList` (`none` is `NULL`), `request` the
request encoder chosen by `associationSpecific`, `objectClass` and `domainId`,
applied to the invoke-id and to `continueAfter` (`none` is `NULL`). The
decoder `mmsClient_parseGetNameListResponse` is a collaborator: it yields the
names that it appends to `*nameList`, a list that it creates when there is
none, and the flag it returns. The result is the returned flag, the content
of `*nameList` and the content of `*mmsError`. -/
def mmsClient_getNameListSingleRequest (ext : Externals) (nameList : Option (List Nat))
    (self : MmsConnection) (request : Nat → Option Nat → ByteBuffer)
    (continueAfter : Option Nat) (round : Round) :
    Outcome (Bool × Option (List Nat) × MmsError) :=
  if getAssociationState self ≠ MMS_STATE_CONNECTED then
    .returned (false, nameList, MMS_ERROR_CONNECTION_LOST) self []
  else
    (Outcome.returned () (getNextInvokeId self).2 [Event.allocateTransmitBuffer]).andThen
      fun _ s1 =>
        (sendRequestAndWaitForResponse s1 (getNextInvokeId self).1
            (request (getNextInvokeId self).1 continueAfter) round.now round.currentTime
            round.schedule).andThen
          fun r s2 =>
            .returned
              (if r.receivedMessage ≠ none then
                  ((ext.mmsClient_parseGetNameListResponse s2.lastResponse).2,
                   some (nameList.getD []
                     ++ (ext.mmsClient_parseGetNameListResponse s2.lastResponse).1),
                   r.mmsError)
                else (false, nameList, r.mmsError))
              (releaseResponse s2).1 (releaseResponse s2).2

/-- The loop of `mmsClient_getNameList` (lines 1698-1708). The request number
`k` selects the round `env k`; `LinkedList_getLastElement(list)->data` is the
last name of the list, and `NULL` for a list without names. One unit of `fuel`
per iteration; `none` when the fuel is used up while the loop goes on. -/
def getNameListLoop (ext : Externals) (request : Nat → Option Nat → ByteBuffer)
    (env : Nat → Round) :
    Nat → Nat → Bool → Option (List Nat) → MmsError → MmsConnection → List Event →
      Option (Outcome (Option (List Nat) × MmsError))
  | 0, _, moreFollows, list, mmsError, self, events =>
    if moreFollows = true ∧ list ≠ none then none
    else some (.returned (list, mmsError) self events)
  | fuel + 1, k, moreFollows, list, mmsError, self, events =>
    if moreFollows = true ∧ list ≠ none then
      match mmsClient_getNameListSingleRequest ext list self request
          (list.getD []).getLast? (env k) with
      | .returned r s ev =>
        getNameListLoop ext request env fuel (k + 1) r.1 r.2.1 r.2.2 s (events ++ ev)
      | .blocked cause s ev => some (.blocked cause s (events ++ ev))
    else some (.returned (list, mmsError) self events)

/-- The function `mmsClient_getNameList` (lines 1685-1711): the first request
with `continueAfter = NULL`, then the loop. The result is the returned list
and the content of `*mmsError`. -/
def mmsClient_getNameList (ext : Externals) (self : MmsConnection)
    (request : Nat → Option Nat → ByteBuffer) (env : Nat → Round) (fuel : Nat) :
    Option (Outcome (Option (List Nat) × MmsError)) :=
  match mmsClient_getNameListSingleRequest ext none self request none (env 0) with
  | .returned r s ev => getNameListLoop ext request env fuel 1 r.1 r.2.1 r.2.2 s ev
  | .blocked cause s ev => some (.blocked cause s ev)

/-! ## A name-list server, for the statement about pagination -/

/-- The names of the server that follow the identifier `continueAfter`; all
names when there is none. -/
def namesAfter (names : List Nat) : Option Nat → List Nat
  | none => names
  | some c => (names.dropWhile (fun n => n ≠ c)).tail

/-- The answer of the server to a request: the next `pageSize continueAfter`
names that follow `continueAfter`, and more-follows exactly when names remain
after them. -/
def serverPage (names : List Nat) (pageSize : Option Nat → Nat) (continueAfter : Option Nat) :
    List Nat × Bool :=
  ((namesAfter names continueAfter).take (pageSize continueAfter),
   decide (pageSize continueAfter < (namesAfter names continueAfter).length))

/-- The round `round` brings the answer `(page, moreFollows)` to the request
that is issued on `self`: the request can be issued (association up, table
lock free, a free slot), and the first session at which the polling loop
decides is found before the deadline, with the association not closed, the
table lock free and the shared slot holding the invoke-id of the request, no
error and a response that the decoder reads as `(page, moreFollows)`. -/
def Answered (ext : Externals) (self : MmsConnection) (round : Round) (page : List Nat)
    (moreFollows : Bool) : Prop :=
  getAssociationState self = MMS_STATE_CONNECTED ∧
  ∃ pending pre t s rest,
    addToOutstandingCalls (getNextInvokeId self).2 (getNextInvokeId self).1 MMS_CALL_TYPE_NONE
        0 0 round.now = .returned true pending [] ∧
    (round.currentTime, pending) :: round.schedule = pre ++ (t, s) :: rest ∧
    (∀ obs ∈ pre,
      pollResponse (getNextInvokeId self).1 (round.currentTime + pending.requestTimeout)
        obs.1 obs.2 = none) ∧
    t < round.currentTime + pending.requestTimeout ∧
    s.associationState ≠ MMS_STATE_CLOSED ∧
    s.responseInvokeId = (getNextInvokeId self).1 ∧
    s.lastResponseError = MMS_ERROR_NONE ∧
    s.lastResponse ≠ none ∧
    s.outstandingCallsLock = false ∧
    ext.mmsClient_parseGetNameListResponse s.lastResponse = (page, moreFollows)

/-- The server with the names `names` answers the requests of the client from
request number `k` on, at most `n + 1` of them: the request with the
continue-after identifier that follows from `list` (its last name) is
answered in its round with the server's page for that identifier, and if more
names follow, so is the next request, issued on the session that this one
leaves. -/
def Served (ext : Externals) (request : Nat → Option Nat → ByteBuffer) (env : Nat → Round)
    (names : List Nat) (pageSize : Option Nat → Nat) :
    Nat → Nat → Option (List Nat) → MmsConnection → Prop
  | 0, k, list, self =>
    Answered ext self (env k) (serverPage names pageSize (list.getD []).getLast?).1
      (serverPage names pageSize (list.getD []).getLast?).2
  | n + 1, k, list, self =>
    Answered ext self (env k) (serverPage names pageSize (list.getD []).getLast?).1
      (serverPage names pageSize (list.getD []).getLast?).2 ∧
    ((serverPage names pageSize (list.getD []).getLast?).2 = true →
      Served ext request env names pageSize n (k + 1)
        (some (list.getD [] ++ (serverPage names pageSize (list.getD []).getLast?).1))
        (mmsClient_getNameListSingleRequest ext list self request (list.getD []).getLast?
          (env k)).state)

/-- The continue-after identifiers of the requests that fetch the names of
the server page by page: `continueAfter`, then the last name of each page as
long as more names follow; at most `n + 1` of them. -/
def continueAfters (names : List Nat) (pageSize : Option Nat → Nat) :
    Nat → Option Nat → List (Option Nat)
  | 0, continueAfter => [continueAfter]
  | n + 1, continueAfter =>
    continueAfter ::
      (if (serverPage names pageSize continueAfter).2 = true then
        continueAfters names pageSize n (serverPage names pageSize continueAfter).1.getLast?
       else [])

/-- The events of a sequence of answered synchronous requests, each given by
its invoke-id and its continue-after identifier: transmit buffer, send,
release of the response. -/
def requestEvents (request : Nat → Option Nat → ByteBuffer) :
    List (Nat × Option Nat) → List Event
  | [] => []
  | (invokeId, continueAfter) :: rest =>
    [Event.allocateTransmitBuffer, Event.sendMessage (request invokeId continueAfter),
     Event.releaseReceiveBuffer] ++ requestEvents request rest

/-- Collaborators for a concrete get-name-list session: the name-list decoder
reads a response `a1 len 02 01 id  names...  more` as the names (one byte
each) and the more-follows flag (the last byte). -/
def nameListExternals : Externals :=
  { sampleExternals with
      mmsClient_parseGetNameListResponse := fun response =>
        match response with
        | some buffer => ((buffer.drop 5).dropLast, decide (buffer.getLast? = some 1))
        | none => ([], false) }

/-- The response that `nameListExternals` decodes to `names` and
`moreFollows`, for the request `invokeId` (below `128`). -/
def nameListResponse (invokeId : Nat) (names : List Nat) (moreFollows : Bool) : ByteBuffer :=
  [0xa1, 4 + names.length, 0x02, 0x01, invokeId] ++ names ++ [if moreFollows then 1 else 0]

/-- A request encoder for a concrete session: the invoke-id and the
continue-after identifier (`0` for none). -/
def nameListRequest (invokeId : Nat) (continueAfter : Option Nat) : ByteBuffer :=
  [invokeId, continueAfter.getD 0]

/-- The round of the first request of a concrete session, issued on
`connectedSession` at clock value `100`: at the second test of the polling
loop the transport thread has processed the response with the names `11, 12`
and more-follows. -/
def nameListRound0 : Round :=
  { now := 100, currentTime := 100,
    schedule :=
      [(110, (mmsIsoCallback nameListExternals (sampleEnv 105) ISO_IND_DATA syncCallPending
        (nameListResponse 1 [11, 12] true)).state)] }

/-- The session that the first request of the concrete session leaves. -/
def nameListSession1 : MmsConnection :=
  (mmsClient_getNameListSingleRequest nameListExternals none connectedSession nameListRequest
    none nameListRound0).state

/-- The session in which the second request of the concrete session, issued at
clock value `200`, polls for its response (invoke-id `2`). -/
def nameListPending1 : MmsConnection :=
  (addToOutstandingCalls (getNextInvokeId nameListSession1).2 2 MMS_CALL_TYPE_NONE 0 0
    200).state

/-- The round of the second request: the response with the name `13` and no
more-follows. -/
def nameListRound1 : Round :=
  { now := 200, currentTime := 200,
    schedule :=
      [(210, (mmsIsoCallback nameListExternals (sampleEnv 205) ISO_IND_DATA nameListPending1
        (nameListResponse 2 [13] false)).state)] }

/-- The rounds of the concrete session. -/
def nameListEnv (k : Nat) : Round := if k = 0 then nameListRound0 else nameListRound1

/-- The session of `syncCallPending` after the transport thread has processed
the confirmed-error `sampleConfirmedError` for the synchronous call `1`: the
shared slot holds the invoke-id `1` and the mapped error. -/
def syncCallFailed : MmsConnection :=
  (mmsIsoCallback sampleExternals (sampleEnv 105) ISO_IND_DATA syncCallPending
    sampleConfirmedError).state

/-! ## Theorems -/

/-- Without wrap-around `n` allocations return `lastInvokeId + 1, ...,
lastInvokeId + n`. -/
theorem allocateInvokeIds_eq_range (n : Nat) (self : MmsConnection)
    (h : self.lastInvokeId + n < UINT32_RANGE) :
    allocateInvokeIds n self = List.range' (self.lastInvokeId + 1) n := by
  induction n generalizing self with
  | zero => rfl
  | succ k ih =>
    have hlt : (self.lastInvokeId + 1) % UINT32_RANGE = self.lastInvokeId + 1 :=
      Nat.mod_eq_of_lt (by omega)
    have hk : (getNextInvokeId self).2.lastInvokeId + k < UINT32_RANGE := by
      simp only [getNextInvokeId, hlt]; omega
    simp only [allocateInvokeIds, ih _ hk, List.range'_succ]
    simp only [getNextInvokeId, hlt]

/-- C1 (counterexample): at the counter value `2^32 - 1` the allocator
returns `0`, which is neither non-zero nor greater than the previous id. -/
theorem C1_wraps_to_zero :
    (getNextInvokeId { MmsConnection_create with lastInvokeId := 4294967295 }).1 = 0 ∧
    ¬ (4294967295 < (getNextInvokeId { MmsConnection_create with lastInvokeId := 4294967295 }).1) := by
  decide

/-- C1 (amended): while the counter is below `2^32 - 1` the allocator returns
the counter plus one, a non-zero id strictly above the id of the previous call
(the counter), and stores it as the new counter; so the first `n < 2^32`
allocations of a created session return `1, ..., n`, which are strictly
increasing, never `0` and never repeated. -/
theorem C1_invoke_ids_increase (self : MmsConnection) (n : Nat)
    (hcounter : self.lastInvokeId < UINT32_RANGE - 1) (hn : n < UINT32_RANGE) :
    ((getNextInvokeId self).1 = self.lastInvokeId + 1 ∧
      (getNextInvokeId self).1 ≠ 0 ∧
      self.lastInvokeId < (getNextInvokeId self).1 ∧
      (getNextInvokeId self).2.lastInvokeId = (getNextInvokeId self).1) ∧
    (allocateInvokeIds n MmsConnection_create = List.range' 1 n ∧
      (allocateInvokeIds n MmsConnection_create).Pairwise (fun a b => a < b) ∧
      (∀ id ∈ allocateInvokeIds n MmsConnection_create, id ≠ 0) ∧
      (allocateInvokeIds n MmsConnection_create).Nodup) := by
  have hlt : (self.lastInvokeId + 1) % UINT32_RANGE = self.lastInvokeId + 1 :=
    Nat.mod_eq_of_lt (by unfold UINT32_RANGE at *; omega)
  have hseq : allocateInvokeIds n MmsConnection_create = List.range' 1 n := by
    have h0 := allocateInvokeIds_eq_range n MmsConnection_create
      (by simpa [MmsConnection_create] using hn)
    simpa [MmsConnection_create] using h0
  refine ⟨⟨?_, ?_, ?_, ?_⟩, hseq, ?_, ?_, ?_⟩
  · simp only [getNextInvokeId, hlt]
  · simp only [getNextInvokeId, hlt]; omega
  · simp only [getNextInvokeId, hlt]; omega
  · simp only [getNextInvokeId]
  · rw [hseq]; exact List.pairwise_lt_range' 1 n
  · intro id hid
    rw [hseq, List.mem_range'_1] at hid
    omega
  · rw [hseq]; exact List.nodup_range' 1 n

/-- C1 (witness): a created session and three allocations. -/
theorem C1_invoke_ids_increase_witness :
    (MmsConnection_create.lastInvokeId < UINT32_RANGE - 1 ∧ 3 < UINT32_RANGE) ∧
    (getNextInvokeId MmsConnection_create).1 = 1 ∧
    allocateInvokeIds 3 MmsConnection_create = [1, 2, 3] := by
  have h := C1_invoke_ids_increase MmsConnection_create 3 (by decide) (by decide)
  exact ⟨by decide, h.1.1, h.2.1⟩

/-! ### Table lemmas -/

/-- The insert finds no slot exactly when every slot is in use. -/
theorem insertOutstandingCall_eq_none (entry : MmsOutstandingCall) (calls : List MmsOutstandingCall) :
    insertOutstandingCall entry calls = none ↔ ∀ c ∈ calls, c.isUsed = true := by
  induction calls with
  | nil => simp [insertOutstandingCall]
  | cons c rest ih =>
    by_cases hc : c.isUsed = false
    · simp [insertOutstandingCall, hc]
    · have hc' : c.isUsed = true := by simpa using hc
      simp [insertOutstandingCall, hc', ih]

/-- Every slot is in use exactly when the number of used slots is the length
of the table. -/
theorem usedSlots_eq_length (self : MmsConnection) :
    usedSlots self = self.outstandingCalls.length ↔ ∀ c ∈ self.outstandingCalls, c.isUsed = true := by
  unfold usedSlots
  rw [List.countP_eq_length]

/-- No service-error maps to `MMS_ERROR_NONE`. -/
theorem convertServiceErrorToMmsError_ne_none (serviceError : MmsServiceError) :
    convertServiceErrorToMmsError serviceError ≠ MMS_ERROR_NONE := by
  unfold convertServiceErrorToMmsError
  split <;> first | (intro h; cases h) | (split <;> (intro h; cases h))

/-- The error that the polling loop returns is `MMS_ERROR_CONNECTION_LOST`,
`MMS_ERROR_SERVICE_TIMEOUT` or the slot error of a session it has observed. -/
theorem waitForResponse_error (invokeId waitUntilTime : Nat) (schedule : List (Nat × MmsConnection))
    (currentTime : Nat) (self : MmsConnection) (r : SyncResponse) (s' : MmsConnection)
    (ev : List Event)
    (h : waitForResponse invokeId waitUntilTime currentTime self schedule = .returned r s' ev) :
    r.mmsError = MMS_ERROR_CONNECTION_LOST ∨ r.mmsError = MMS_ERROR_SERVICE_TIMEOUT ∨
      r.mmsError = self.lastResponseError ∨ ∃ o ∈ schedule, r.mmsError = o.2.lastResponseError := by
  induction schedule generalizing currentTime self with
  | nil =>
    simp only [waitForResponse, pollResponse, removeFromOutstandingCalls, Outcome.andThen] at h
    split_ifs at h <;> simp at h <;> (obtain ⟨rfl, -, -⟩ := h; simp)
  | cons o rest ih =>
    obtain ⟨t, s⟩ := o
    simp only [waitForResponse, pollResponse, removeFromOutstandingCalls, Outcome.andThen] at h
    split_ifs at h <;> simp at h <;>
      first
        | (obtain ⟨rfl, -, -⟩ := h; simp)
        | (rcases ih t s h with h1 | h1 | h1 | ⟨o, ho, h1⟩
           · exact Or.inl h1
           · exact Or.inr (Or.inl h1)
           · exact Or.inr (Or.inr (Or.inr ⟨(t, s), by simp, h1⟩))
           · exact Or.inr (Or.inr (Or.inr ⟨o, by simp [ho], h1⟩)))

/-- A sequence returns exactly when both parts return. -/
theorem Outcome.andThen_eq_returned {α β : Type} (o : Outcome α)
    (k : α → MmsConnection → Outcome β) (w : β) (s : MmsConnection) (ev : List Event) :
    o.andThen k = .returned w s ev ↔
      ∃ v s1 e1 e2, o = .returned v s1 e1 ∧ k v s1 = .returned w s e2 ∧ ev = e1 ++ e2 := by
  cases o with
  | blocked c s1 e1 => simp [Outcome.andThen]
  | returned v s1 e1 =>
    cases hk : k v s1 with
    | blocked c s2 e2 => simp [Outcome.andThen, hk]
    | returned w2 s2 e2 =>
      constructor
      · intro h
        simp only [Outcome.andThen, hk, Outcome.returned.injEq] at h
        obtain ⟨rfl, rfl, rfl⟩ := h
        exact ⟨v, s1, e1, e2, rfl, hk, rfl⟩
      · rintro ⟨v', s1', e1', e2', h1, h2, rfl⟩
        simp only [Outcome.returned.injEq] at h1
        obtain ⟨rfl, rfl, rfl⟩ := h1
        rw [hk] at h2
        simp only [Outcome.returned.injEq] at h2
        obtain ⟨rfl, rfl, rfl⟩ := h2
        simp only [Outcome.andThen, hk]

/-! ### C3: the outstanding-call limit -/

/-- C3: with the table lock free and a table of `OUTSTANDING_CALLS` slots, an
asynchronous request returns `MMS_ERROR_OUTSTANDING_CALL_LIMIT` exactly when
all ten slots are in use, and then the session is unchanged and the transmit
buffer is released instead of sent; a synchronous request issued with all ten
slots in use returns `MMS_ERROR_OUTSTANDING_CALL_LIMIT` at once with the session
unchanged and nothing sent, and (the shared slot never holding that error) it
returns that error in no other case. -/
theorem C3_outstanding_call_limit (self : MmsConnection) (invokeId : Nat) (message : ByteBuffer)
    (type : eMmsOutstandingCallType) (userCallback userParameter now currentTime : Nat)
    (schedule : List (Nat × MmsConnection))
    (hlock : self.outstandingCallsLock = false)
    (hlen : self.outstandingCalls.length = OUTSTANDING_CALLS)
    (herr : self.lastResponseError ≠ MMS_ERROR_OUTSTANDING_CALL_LIMIT)
    (hsched : ∀ o ∈ schedule, o.2.lastResponseError ≠ MMS_ERROR_OUTSTANDING_CALL_LIMIT) :
    (∃ err s' ev,
      sendAsyncRequest self invokeId message type userCallback userParameter now
        = .returned err s' ev ∧
      (err = MMS_ERROR_OUTSTANDING_CALL_LIMIT ↔ usedSlots self = OUTSTANDING_CALLS) ∧
      (usedSlots self = OUTSTANDING_CALLS → s' = self ∧ ev = [Event.releaseTransmitBuffer])) ∧
    (usedSlots self = OUTSTANDING_CALLS →
      sendRequestAndWaitForResponse self invokeId message now currentTime schedule
        = .returned ⟨none, MMS_ERROR_OUTSTANDING_CALL_LIMIT⟩ self []) ∧
    (∀ r s' ev,
      sendRequestAndWaitForResponse self invokeId message now currentTime schedule
        = .returned r s' ev →
      r.mmsError = MMS_ERROR_OUTSTANDING_CALL_LIMIT → usedSlots self = OUTSTANDING_CALLS) := by
  have hfull : usedSlots self = OUTSTANDING_CALLS ↔ ∀ c ∈ self.outstandingCalls, c.isUsed = true := by
    rw [← hlen]; exact usedSlots_eq_length self
  refine ⟨?_, ?_, ?_⟩
  · cases hins : insertOutstandingCall
        { isUsed := true, invokeId := invokeId, timeout := now + self.requestTimeout,
          type := type, userCallback := userCallback, userParameter := userParameter }
        self.outstandingCalls with
    | none =>
      have hall := (insertOutstandingCall_eq_none _ _).1 hins
      refine ⟨MMS_ERROR_OUTSTANDING_CALL_LIMIT, self, [Event.releaseTransmitBuffer], ?_, ?_, ?_⟩
      · simp [sendAsyncRequest, addToOutstandingCalls, hlock, hins, Outcome.andThen]
      · exact ⟨fun _ => hfull.2 hall, fun _ => rfl⟩
      · intro _; exact ⟨rfl, rfl⟩
    | some calls =>
      have hnot : ¬ ∀ c ∈ self.outstandingCalls, c.isUsed = true := by
        intro hall
        rw [(insertOutstandingCall_eq_none _ _).2 hall] at hins
        cases hins
      refine ⟨MMS_ERROR_NONE, { self with outstandingCalls := calls }, sendMessage message,
        ?_, ?_, ?_⟩
      · simp [sendAsyncRequest, addToOutstandingCalls, hlock, hins, Outcome.andThen]
      · simp [hfull, hnot]
      · intro h; exact absurd (hfull.1 h) hnot
  · intro h
    have hins := (insertOutstandingCall_eq_none
      { isUsed := true, invokeId := invokeId, timeout := now + self.requestTimeout,
        type := MMS_CALL_TYPE_NONE, userCallback := 0, userParameter := 0 }
      self.outstandingCalls).2 (hfull.1 h)
    simp [sendRequestAndWaitForResponse, addToOutstandingCalls, hlock, hins, Outcome.andThen]
  · intro r s' ev hret hr
    by_contra hnotfull
    cases hins : insertOutstandingCall
        { isUsed := true, invokeId := invokeId, timeout := now + self.requestTimeout,
          type := MMS_CALL_TYPE_NONE, userCallback := 0, userParameter := 0 }
        self.outstandingCalls with
    | none => exact hnotfull (hfull.2 ((insertOutstandingCall_eq_none _ _).1 hins))
    | some calls =>
      unfold sendRequestAndWaitForResponse at hret
      rw [Outcome.andThen_eq_returned] at hret
      obtain ⟨added, s1, e1, e2, hadd, hk, -⟩ := hret
      simp only [addToOutstandingCalls, hlock, hins, Bool.false_eq_true, if_false,
        Outcome.returned.injEq] at hadd
      obtain ⟨rfl, rfl, rfl⟩ := hadd
      simp only [Bool.true_eq_false, if_false] at hk
      rw [Outcome.andThen_eq_returned] at hk
      obtain ⟨u, s2, e3, e4, hsend, hw, -⟩ := hk
      simp only [Outcome.returned.injEq] at hsend
      obtain ⟨-, rfl, -⟩ := hsend
      rcases waitForResponse_error _ _ _ _ _ _ _ _ hw with h1 | h1 | h1 | ⟨o, ho, h1⟩
      · rw [h1] at hr; cases hr
      · rw [h1] at hr; cases hr
      · rw [h1] at hr; exact herr hr
      · rw [h1] at hr; exact hsched o ho hr

/-- C3 (witness): ten unanswered asynchronous reads fill the table; the
eleventh request, asynchronous or synchronous, fails with the limit error. -/
theorem C3_outstanding_call_limit_witness :
    usedSlots (afterAsyncReads 10 connectedSession 100) = OUTSTANDING_CALLS ∧
    sendAsyncRequest (afterAsyncReads 10 connectedSession 100) 11 [11]
        MMS_CALL_TYPE_READ_VARIABLE 7 8 100
      = .returned MMS_ERROR_OUTSTANDING_CALL_LIMIT (afterAsyncReads 10 connectedSession 100)
          [Event.releaseTransmitBuffer] ∧
    sendRequestAndWaitForResponse (afterAsyncReads 10 connectedSession 100) 11 [11] 100 100 []
      = .returned ⟨none, MMS_ERROR_OUTSTANDING_CALL_LIMIT⟩
          (afterAsyncReads 10 connectedSession 100) [] := by
  have hfull : usedSlots (afterAsyncReads 10 connectedSession 100) = OUTSTANDING_CALLS := by decide
  have h := C3_outstanding_call_limit (afterAsyncReads 10 connectedSession 100) 11 [11]
    MMS_CALL_TYPE_READ_VARIABLE 7 8 100 100 [] (by decide) (by decide) (by decide)
    (by intro o ho; cases ho)
  refine ⟨hfull, ?_, h.2.1 hfull⟩
  obtain ⟨err, s', ev, heq, hiff, hsame⟩ := h.1
  obtain ⟨rfl, rfl⟩ := hsame hfull
  rw [heq, hiff.2 hfull]

/-! ### C9: a response with an unknown invoke-id -/

/-- A payload that carries an invoke-id is not empty. -/
theorem carriedInvokeId_length (env : CallbackEnv) (payload : ByteBuffer) (X : Nat)
    (h : carriedInvokeId env payload = some X) : ¬ payload.length < 1 := by
  intro hlen
  cases payload with
  | nil => simp [carriedInvokeId, byteAt] at h
  | cons b rest => simp at hlen

/-- C9: when a confirmed-error, reject or confirmed-response PDU parses and
its invoke-id is carried by no used slot, `mmsIsoCallback` returns with the
whole session state unchanged (table, shared slot, the three state variables,
invoke-id counter), calls no handler and releases the receive buffer exactly
once. -/
theorem C9_unknown_invoke_id (ext : Externals) (env : CallbackEnv) (self : MmsConnection)
    (payload : ByteBuffer) (X : Nat)
    (hlock : self.outstandingCallsLock = false)
    (hid : carriedInvokeId env payload = some X)
    (hunknown : findOutstandingCall X self.outstandingCalls = none) :
    mmsIsoCallback ext env ISO_IND_DATA self payload
      = .returned () self [Event.releaseReceiveBuffer] := by
  have hne := carriedInvokeId_length env payload X hid
  unfold carriedInvokeId at hid
  by_cases h2 : byteAt payload 0 = 0xa2
  · simp only [h2, if_true] at hid
    cases hp : mmsMsg_parseConfirmedErrorPDU payload 0 payload.length env.invokeId ⟨0, 0⟩ with
    | none => simp [hp] at hid
    | some pdu =>
      simp only [hp, Option.map_some', Option.some.injEq] at hid
      simp [mmsIsoCallback, tagDispatch, hne, h2, hp, hid, dispatchResponse, checkForOutstandingCall, hlock,
        hunknown, Outcome.andThen]
  · by_cases h4 : byteAt payload 0 = 0xa4
    · simp only [h4, if_true] at hid
      simp only [show ¬ (0xa4 : Nat) = 0xa2 by decide, if_false] at hid
      cases hp : mmsMsg_parseRejectPDU payload 0 payload.length env.invokeId env.rejectType
          env.rejectReason with
      | none => simp [hp] at hid
      | some pdu =>
        simp only [hp, Option.map_some', Option.some.injEq] at hid
        simp [mmsIsoCallback, tagDispatch, hne, h4, hp, hid, dispatchResponse, checkForOutstandingCall, hlock,
          hunknown, Outcome.andThen]
    · by_cases h1 : byteAt payload 0 = 0xa1
      · simp only [h1, if_true] at hid
        simp only [show ¬ (0xa1 : Nat) = 0xa2 by decide, show ¬ (0xa1 : Nat) = 0xa4 by decide,
          if_false] at hid
        cases hp : parseConfirmedResponseHeader payload with
        | none => simp [hp] at hid
        | some r =>
          obtain ⟨id, pos⟩ := r
          simp only [hp, Option.map_some', Option.some.injEq] at hid
          simp [mmsIsoCallback, tagDispatch, hne, h1, hp, hid, dispatchResponse, checkForOutstandingCall,
            hlock, hunknown, Outcome.andThen]
      · simp [h2, h4, h1] at hid

/-- C9 (witness): a confirmed-error PDU for invoke-id `1` reaches a connected
session with no call outstanding. -/
theorem C9_unknown_invoke_id_witness :
    carriedInvokeId (sampleEnv 0) sampleConfirmedError = some 1 ∧
    findOutstandingCall 1 connectedSession.outstandingCalls = none ∧
    mmsIsoCallback sampleExternals (sampleEnv 0) ISO_IND_DATA connectedSession sampleConfirmedError
      = .returned () connectedSession [Event.releaseReceiveBuffer] :=
  ⟨by decide, by decide,
   C9_unknown_invoke_id sampleExternals (sampleEnv 0) connectedSession sampleConfirmedError 1
     (by decide) (by decide) (by decide)⟩

/-! ### C10: a confirmed-error for a synchronous call -/

/-- C10 (counterexample): the synchronous call `1` is outstanding (deadline
`5100`), the shared slot is empty, and the confirmed-error PDU for `1` with
class `7`, code `2` is processed: the slot holds `1` and
`MMS_ERROR_ACCESS_OBJECT_NON_EXISTENT`. When the caller wakes from its sleep
at the deadline, the loop condition is tested first and the wait returns
`MMS_ERROR_SERVICE_TIMEOUT`; when the transport has closed after the error was
stored, the association is tested before the slot and the wait returns
`MMS_ERROR_CONNECTION_LOST`. In neither run does it return the stored
error. -/
theorem C10_stored_error_not_returned :
    findOutstandingCall 1 syncCallPending.outstandingCalls = some 0 ∧
    (slotAt syncCallPending 0).type = MMS_CALL_TYPE_NONE ∧
    syncCallPending.responseInvokeId = 0 ∧
    syncCallFailed.responseInvokeId = 1 ∧
    syncCallFailed.lastResponseError = MMS_ERROR_ACCESS_OBJECT_NON_EXISTENT ∧
    (sendRequestAndWaitForResponse (getNextInvokeId connectedSession).2 1 [1] 100 100
        [(5100, syncCallFailed)]).returnedValue = some ⟨none, MMS_ERROR_SERVICE_TIMEOUT⟩ ∧
    (sendRequestAndWaitForResponse (getNextInvokeId connectedSession).2 1 [1] 100 100
        [(110, (mmsIsoCallback sampleExternals (sampleEnv 108) ISO_IND_CLOSED syncCallFailed
          []).state)]).returnedValue = some ⟨none, MMS_ERROR_CONNECTION_LOST⟩ := by
  refine ⟨by decide, by decide, by decide, by decide, by decide, by decide, by decide⟩

/-- C10: let a confirmed-error PDU parse to invoke-id `X` and service error
`(class, code)`, let the first used slot carrying `X` be that of a synchronous
call, and let the shared slot be empty. Then `mmsIsoCallback` returns having
stored `X` and the mapped error in the shared slot (nothing else changes, no
event); the waiting caller of `X`, polling that session before its deadline
with the association up, leaves the loop and returns the mapped error with no
response message; and class `7`, code `2` is mapped to
`MMS_ERROR_ACCESS_OBJECT_NON_EXISTENT`. -/
theorem C10_confirmed_error_sync (ext : Externals) (env : CallbackEnv) (self : MmsConnection)
    (payload : ByteBuffer) (pdu : ConfirmedErrorPDU) (i currentTime waitUntilTime : Nat)
    (schedule : List (Nat × MmsConnection))
    (hlock : self.outstandingCallsLock = false)
    (hparse : mmsMsg_parseConfirmedErrorPDU payload 0 payload.length env.invokeId ⟨0, 0⟩
      = some pdu)
    (hcall : findOutstandingCall pdu.invokeId self.outstandingCalls = some i)
    (hsync : (slotAt self i).type = MMS_CALL_TYPE_NONE)
    (hempty : self.responseInvokeId = 0)
    (hassoc : self.associationState ≠ MMS_STATE_CLOSED)
    (htime : currentTime < waitUntilTime) :
    mmsIsoCallback ext env ISO_IND_DATA self payload
      = .returned ()
          { self with lastResponseError := convertServiceErrorToMmsError pdu.serviceError,
                      responseInvokeId := pdu.invokeId } [] ∧
    waitForResponse pdu.invokeId waitUntilTime currentTime
        { self with lastResponseError := convertServiceErrorToMmsError pdu.serviceError,
                    responseInvokeId := pdu.invokeId } schedule
      = .returned ⟨none, convertServiceErrorToMmsError pdu.serviceError⟩
          { self with lastResponseError := convertServiceErrorToMmsError pdu.serviceError,
                      responseInvokeId := pdu.invokeId,
                      outstandingCalls :=
                        removeOutstandingCall pdu.invokeId self.outstandingCalls } [] ∧
    (pdu.serviceError = ⟨7, 2⟩ →
      convertServiceErrorToMmsError pdu.serviceError = MMS_ERROR_ACCESS_OBJECT_NON_EXISTENT) := by
  have htag : byteAt payload 0 = 0xa2 := by
    by_contra h
    simp [mmsMsg_parseConfirmedErrorPDU, h] at hparse
  have hne : ¬ payload.length < 1 := by
    intro hlen
    cases payload with
    | nil => simp [byteAt] at htag
    | cons b rest => simp at hlen
  have hnone := convertServiceErrorToMmsError_ne_none pdu.serviceError
  refine ⟨?_, ?_, ?_⟩
  · simp [mmsIsoCallback, tagDispatch, hne, htag, hparse, dispatchResponse, checkForOutstandingCall, hlock,
      hcall, hsync, waitUntilLastResponseHasBeenProcessed, getResponseInvokeId, hempty,
      Outcome.andThen]
  · cases schedule <;>
      simp [waitForResponse, pollResponse, htime, hassoc, removeFromOutstandingCalls, hlock,
        hnone, Outcome.andThen]
  · intro h
    rw [h]
    rfl

/-- C10 (witness): the sample confirmed-error (class `7`, code `2`) for the
pending synchronous call `1`. -/
theorem C10_confirmed_error_sync_witness :
    mmsMsg_parseConfirmedErrorPDU sampleConfirmedError 0 sampleConfirmedError.length 0 ⟨0, 0⟩
      = some ⟨12, 1, ⟨7, 2⟩⟩ ∧
    (mmsIsoCallback sampleExternals (sampleEnv 0) ISO_IND_DATA syncCallPending
        sampleConfirmedError).state.responseInvokeId = 1 ∧
    (mmsIsoCallback sampleExternals (sampleEnv 0) ISO_IND_DATA syncCallPending
        sampleConfirmedError).state.lastResponseError = MMS_ERROR_ACCESS_OBJECT_NON_EXISTENT ∧
    ∃ s, waitForResponse 1 5100 110
        { syncCallPending with lastResponseError := MMS_ERROR_ACCESS_OBJECT_NON_EXISTENT,
                               responseInvokeId := 1 } []
      = .returned ⟨none, MMS_ERROR_ACCESS_OBJECT_NON_EXISTENT⟩ s [] := by
  have h := C10_confirmed_error_sync sampleExternals (sampleEnv 0) syncCallPending
    sampleConfirmedError ⟨12, 1, ⟨7, 2⟩⟩ 0 110 5100 [] (by decide) (by decide) (by decide)
    (by decide) (by decide) (by decide) (by decide)
  refine ⟨by decide, ?_, ?_, ?_⟩
  · rw [h.1]; rfl
  · rw [h.1]; rfl
  · exact ⟨_, h.2.1⟩

/-! ### C5: the timeout sweep and the table lock -/

/-- The Tick branch on an expired asynchronous call: the handler is called
while the table lock is held, and the `Semaphore_wait` of
`removeFromOutstandingCalls` (line 339, reached from line 872) then waits for
the lock that the same thread took at line 892; lines 901 and 907 are never
reached. -/
theorem tickBranch_expired_async_blocks (ext : Externals) (self : MmsConnection)
    (currentTime i : Nat)
    (hlock : self.outstandingCallsLock = false)
    (hexp : findExpiredCall currentTime self.outstandingCalls = some i)
    (hasync : (slotAt self i).type ≠ MMS_CALL_TYPE_NONE) :
    tickBranch ext self currentTime
      = .blocked .outstandingCallsLock { self with outstandingCallsLock := true }
          (handlerEvents ext (slotAt self i) none 0 MMS_ERROR_SERVICE_TIMEOUT) := by
  have hslot : slotAt { self with outstandingCallsLock := true } i = slotAt self i := rfl
  simp [tickBranch, hlock, hexp, hslot, hasync, handleAsyncResponse, removeFromOutstandingCalls,
    Outcome.andThen]

/-- C5 (failing input): one asynchronous read (invoke-id `1`, deadline `5100`)
and a Tick at clock value `6000`. The handler is called once with
`MMS_ERROR_SERVICE_TIMEOUT`, after which the callback does not return: it
blocks on the table lock it holds, and the slot of the call is still in use. -/
theorem C5_tick_timeout_keeps_slot :
    mmsIsoCallback sampleExternals (sampleEnv 6000) ISO_IND_TICK
        (afterAsyncReads 1 connectedSession 100) []
      = .blocked .outstandingCallsLock
          { afterAsyncReads 1 connectedSession 100 with outstandingCallsLock := true }
          [Event.userCallback 7 1 8 MMS_ERROR_SERVICE_TIMEOUT (HandlerResult.readVariable none)] ∧
    (slotAt { afterAsyncReads 1 connectedSession 100 with outstandingCallsLock := true } 0).isUsed
      = true ∧
    (slotAt (afterAsyncReads 1 connectedSession 100) 0).invokeId = 1 := by
  decide

/-! ### C6: the shared response slot -/

/-- C6 (failing input): a synchronous call `1` and an asynchronous call `2`
are outstanding. The confirmed-error for `1` is stored in the shared slot;
before the caller of `1` has polled, the confirmed-response for `2` arrives:
`handleAsyncResponse` ends in `releaseResponse` (line 874), which empties the
slot. The caller of `1` then finds no response and runs into its timeout. -/
theorem C6_async_response_clears_slot :
    (mmsIsoCallback sampleExternals (sampleEnv 0) ISO_IND_DATA syncAndAsyncPending
        sampleConfirmedError).state.responseInvokeId = 1 ∧
    (mmsIsoCallback sampleExternals (sampleEnv 0) ISO_IND_DATA syncAndAsyncPending
        sampleConfirmedError).state.lastResponseError = MMS_ERROR_ACCESS_OBJECT_NON_EXISTENT ∧
    (mmsIsoCallback sampleExternals (sampleEnv 0) ISO_IND_DATA
        (mmsIsoCallback sampleExternals (sampleEnv 0) ISO_IND_DATA syncAndAsyncPending
          sampleConfirmedError).state
        sampleConfirmedResponse).state.responseInvokeId = 0 ∧
    (mmsIsoCallback sampleExternals (sampleEnv 0) ISO_IND_DATA
        (mmsIsoCallback sampleExternals (sampleEnv 0) ISO_IND_DATA syncAndAsyncPending
          sampleConfirmedError).state
        sampleConfirmedResponse).state.lastResponseError = MMS_ERROR_NONE ∧
    (waitForResponse 1 5100 110
        (mmsIsoCallback sampleExternals (sampleEnv 0) ISO_IND_DATA
          (mmsIsoCallback sampleExternals (sampleEnv 0) ISO_IND_DATA syncAndAsyncPending
            sampleConfirmedError).state
          sampleConfirmedResponse).state
        [(5100,
          (mmsIsoCallback sampleExternals (sampleEnv 0) ISO_IND_DATA
            (mmsIsoCallback sampleExternals (sampleEnv 0) ISO_IND_DATA syncAndAsyncPending
              sampleConfirmedError).state
            sampleConfirmedResponse).state)]).returnedValue
      = some ⟨none, MMS_ERROR_SERVICE_TIMEOUT⟩ := by
  decide

/-! ### C7: the receive buffer -/

/-- C7 (failing input): a Data payload whose first byte is none of the known
tags (here `0x00`) falls through the whole `if`/`else if` chain (lines
954-1251) and the callback returns without releasing the receive buffer. In
the confirmed-request branch a nested tag that is neither extended nor `0x02`
releases the buffer at line 1239 and once more at `exit_with_error` (line
1263), and a request that holds an invoke-id only is not released at all. -/
theorem C7_receive_buffer_release_missed (ext : Externals) (env : CallbackEnv)
    (self : MmsConnection) :
    mmsIsoCallback ext env ISO_IND_DATA self [0x00] = .returned () self [] ∧
    mmsIsoCallback ext env ISO_IND_DATA self [0xa0, 0x02, 0x05, 0x00]
      = .returned () self [Event.releaseReceiveBuffer, Event.releaseReceiveBuffer] ∧
    (mmsIsoCallback ext env ISO_IND_DATA self [0xa0, 0x03, 0x02, 0x01, 0x05]).trace = [] := by
  refine ⟨?_, ?_, ?_⟩
  · simp [mmsIsoCallback, tagDispatch, byteAt]
  · simp [mmsIsoCallback, tagDispatch, byteAt, BerDecoder_decodeLength, confirmedRequestLoop]
  · simp [mmsIsoCallback, tagDispatch, byteAt, BerDecoder_decodeLength, confirmedRequestLoop, Outcome.trace]

/-! ### C8: the transmit buffer -/

/-- C8 (failing input): a synchronous service (`MmsConnection_identify`) is
called with all ten slots in use. The transmit buffer is acquired (line 2523),
`sendRequestAndWaitForResponse` returns at line 388 without sending and
without `IsoClientConnection_releaseTransmitBuffer`, and the service returns
`MMS_ERROR_OUTSTANDING_CALL_LIMIT`: the buffer is neither sent nor released.
The asynchronous sibling releases it (line 373). -/
theorem C8_sync_limit_keeps_transmit_buffer :
    (MmsConnection_identify sampleExternals (afterAsyncReads 10 connectedSession 100)
        (fun i => [i]) 100 100 []).returnedValue
      = some (none, MMS_ERROR_OUTSTANDING_CALL_LIMIT) ∧
    (MmsConnection_identify sampleExternals (afterAsyncReads 10 connectedSession 100)
        (fun i => [i]) 100 100 []).trace
      = [Event.allocateTransmitBuffer, Event.releaseReceiveBuffer] ∧
    (MmsConnection_readVariableAsync (afterAsyncReads 10 connectedSession 100)
        (fun i => [i]) 7 8 100).trace
      = [Event.allocateTransmitBuffer, Event.releaseTransmitBuffer] := by
  decide

/-! ### C2: correlation by invoke-id -/

/-- The handler calls do not look at `isUsed`. -/
theorem handlerEvents_isUsed (ext : Externals) (c : MmsOutstandingCall) (b : Bool)
    (response : Option ByteBuffer) (bufPos : Nat) (err : MmsError) :
    handlerEvents ext { c with isUsed := b } response bufPos err
      = handlerEvents ext c response bufPos err := rfl

/-- The slot found carries the invoke-id and is in use. -/
theorem findOutstandingCall_some (X : Nat) (calls : List MmsOutstandingCall) (i : Nat)
    (h : findOutstandingCall X calls = some i) :
    (calls.getD i MmsOutstandingCall.zero).isUsed = true ∧
      (calls.getD i MmsOutstandingCall.zero).invokeId = X := by
  induction calls generalizing i with
  | nil => simp [findOutstandingCall] at h
  | cons c rest ih =>
    by_cases hc : c.isUsed = true ∧ c.invokeId = X
    · simp [findOutstandingCall, hc] at h
      subst h
      simpa using hc
    · simp only [findOutstandingCall, hc, if_false, Option.map_eq_some'] at h
      obtain ⟨j, hj, rfl⟩ := h
      simpa using ih j hj

/-- With distinct invoke-ids the slot found is the only used slot with that
invoke-id. -/
theorem findOutstandingCall_unique (X : Nat) (calls : List MmsOutstandingCall) (i : Nat)
    (c : MmsOutstandingCall) (hd : invokeIdsDistinct calls)
    (h : findOutstandingCall X calls = some i)
    (hc : c ∈ calls) (hused : c.isUsed = true) (hid : c.invokeId = X) :
    calls.getD i MmsOutstandingCall.zero = c := by
  induction calls generalizing i with
  | nil => simp at hc
  | cons d rest ih =>
    by_cases hdx : d.isUsed = true ∧ d.invokeId = X
    · simp [findOutstandingCall, hdx] at h
      subst h
      rcases List.mem_cons.1 hc with rfl | hrest
      · simp
      · exfalso
        have hmem : X ∈ usedInvokeIds rest := by
          simp only [usedInvokeIds, List.mem_map, List.mem_filter]
          exact ⟨c, ⟨hrest, by simpa using hused⟩, hid⟩
        simp [invokeIdsDistinct, usedInvokeIds, List.filter_cons, hdx.1] at hd
        simp only [usedInvokeIds, List.mem_map, List.mem_filter] at hmem
        obtain ⟨e, ⟨he, heu⟩, hei⟩ := hmem
        exact hd.1 e he (by simpa using heu) (by rw [hei, hdx.2])
    · simp only [findOutstandingCall, hdx, if_false, Option.map_eq_some'] at h
      obtain ⟨j, hj, rfl⟩ := h
      have hrest : c ∈ rest := by
        rcases List.mem_cons.1 hc with rfl | hrest
        · exact absurd ⟨hused, hid⟩ hdx
        · exact hrest
      have hd' : invokeIdsDistinct rest := by
        unfold invokeIdsDistinct usedInvokeIds at hd ⊢
        by_cases hu : d.isUsed = true
        · simp [List.filter_cons, hu] at hd
          exact hd.2
        · simpa [List.filter_cons, hu] using hd
      simpa using ih j hd' hj hrest

/-- Removing the call `X` does not move the slot of a call `Y ≠ X`. -/
theorem findOutstandingCall_remove (X Y : Nat) (calls : List MmsOutstandingCall) (hne : Y ≠ X) :
    findOutstandingCall Y (removeOutstandingCall X calls) = findOutstandingCall Y calls := by
  induction calls with
  | nil => rfl
  | cons c rest ih =>
    by_cases hx : c.isUsed = true ∧ c.invokeId = X
    · have hy : ¬ (c.isUsed = true ∧ c.invokeId = Y) := fun h => hne (h.2.symm.trans hx.2)
      have hxy : ¬ X = Y := fun h => hne h.symm
      simp [removeOutstandingCall, findOutstandingCall, hx, hxy]
    · simp [removeOutstandingCall, findOutstandingCall, hx, ih]

/-- Removing a call changes `isUsed` of one slot and nothing else. -/
theorem removeOutstandingCall_getD (X : Nat) (calls : List MmsOutstandingCall) (j : Nat) :
    (removeOutstandingCall X calls).getD j MmsOutstandingCall.zero
        = calls.getD j MmsOutstandingCall.zero ∨
      (removeOutstandingCall X calls).getD j MmsOutstandingCall.zero
        = { calls.getD j MmsOutstandingCall.zero with isUsed := false } := by
  induction calls generalizing j with
  | nil => left; rfl
  | cons c rest ih =>
    by_cases hx : c.isUsed = true ∧ c.invokeId = X
    · cases j with
      | zero => right; simp [removeOutstandingCall, hx]
      | succ k => left; simp [removeOutstandingCall, hx]
    · cases j with
      | zero => left; simp [removeOutstandingCall, hx]
      | succ k => simpa [removeOutstandingCall, hx] using ih k

/-- The answer of the table to a response for `Y ≠ X` is the same before and
after the call `X` has been removed. -/
theorem responseEvents_remove (ext : Externals) (calls : List MmsOutstandingCall) (X : Nat)
    (p : ByteBuffer) (hne : responseInvokeIdOf p ≠ some X) :
    responseEvents ext (removeOutstandingCall X calls) p = responseEvents ext calls p := by
  unfold responseEvents
  cases hp : parseConfirmedResponseHeader p with
  | none => rfl
  | some r =>
    obtain ⟨Y, pos⟩ := r
    have hYX : Y ≠ X := by
      intro h
      apply hne
      simp [responseInvokeIdOf, hp, h]
    simp only [findOutstandingCall_remove X Y calls hYX]
    cases hf : findOutstandingCall Y calls with
    | none => rfl
    | some i =>
      simp only
      rcases removeOutstandingCall_getD X calls i with h | h
      · rw [h]
      · rw [h, handlerEvents_isUsed]

/-- One confirmed-response for an outstanding asynchronous call: the table
answers, the call is removed, the shared slot is reset. -/
theorem mmsIsoCallback_confirmed_response (ext : Externals) (env : CallbackEnv)
    (self : MmsConnection) (p : ByteBuffer) (X pos i : Nat)
    (hlock : self.outstandingCallsLock = false)
    (htag : byteAt p 0 = 0xa1)
    (hp : parseConfirmedResponseHeader p = some (X, pos))
    (hfind : findOutstandingCall X self.outstandingCalls = some i)
    (hasync : (slotAt self i).type ≠ MMS_CALL_TYPE_NONE) :
    mmsIsoCallback ext env ISO_IND_DATA self p
      = .returned ()
          { self with outstandingCalls := removeOutstandingCall X self.outstandingCalls,
                      responseInvokeId := 0, lastResponseError := MMS_ERROR_NONE }
          (responseEvents ext self.outstandingCalls p) := by
  have hne : ¬ p.length < 1 := by
    intro hlen
    cases p with
    | nil => simp [byteAt] at htag
    | cons b rest => simp at hlen
  have hid : (slotAt self i).invokeId = X := (findOutstandingCall_some X _ i hfind).2
  simp only [slotAt, List.getD_eq_getElem?_getD] at hasync hid
  simp [mmsIsoCallback, tagDispatch, hne, htag, hp, dispatchResponse, checkForOutstandingCall, hlock, hfind,
    hasync, handleAsyncResponse, removeFromOutstandingCalls, releaseResponse, hid,
    Outcome.andThen, responseEvents, slotAt]

/-- On a response the handler of an asynchronous call is called exactly once,
with the callback, invoke-id and parameter of the slot. -/
theorem handlerEvents_response (ext : Externals) (c : MmsOutstandingCall) (p : ByteBuffer)
    (pos : Nat) (hasync : c.type ≠ MMS_CALL_TYPE_NONE) :
    ∃ err result, handlerEvents ext c (some p) pos MMS_ERROR_NONE
      = [Event.userCallback c.userCallback c.invokeId c.userParameter err result] := by
  unfold handlerEvents
  cases ht : c.type with
  | MMS_CALL_TYPE_NONE => exact absurd ht hasync
  | MMS_CALL_TYPE_READ_VARIABLE =>
    exact ⟨MMS_ERROR_NONE, HandlerResult.readVariable (ext.mmsClient_parseReadResponse p),
      by simp⟩
  | MMS_CALL_TYPE_WRITE_VARIABLE =>
    exact ⟨(ext.mmsClient_parseWriteResponse p pos).1,
      HandlerResult.writeVariable (ext.mmsClient_parseWriteResponse p pos).2, by simp⟩
  | MMS_CALL_TYPE_WRITE_MULTIPLE_VARIABLES =>
    exact ⟨(ext.mmsClient_parseWriteMultipleItemsResponse p pos).1,
      HandlerResult.writeMultipleVariables
        (ext.mmsClient_parseWriteMultipleItemsResponse p pos).2, by simp⟩
  | MMS_CALL_TYPE_READ_NVL_DIRECTORY =>
    exact ⟨if (ext.mmsClient_parseGetNamedVariableListAttributesResponse p).1 = none
        then MMS_ERROR_PARSING_RESPONSE else MMS_ERROR_NONE,
      HandlerResult.readNVLDirectory
        (ext.mmsClient_parseGetNamedVariableListAttributesResponse p).1
        (ext.mmsClient_parseGetNamedVariableListAttributesResponse p).2, by simp⟩
  | MMS_CALL_TYPE_DEFINE_NVL =>
    by_cases hd : ext.mmsClient_parseDefineNamedVariableResponse (some p) = false
    · exact ⟨MMS_ERROR_PARSING_RESPONSE, HandlerResult.genericService false, by simp [hd]⟩
    · exact ⟨MMS_ERROR_NONE, HandlerResult.genericService true, by simp [hd]⟩

/-- Responses for distinct outstanding asynchronous calls, delivered in any
order: each is answered by the table the sequence started from. -/
theorem deliverAll_events (ext : Externals) (env : CallbackEnv) (responses : List ByteBuffer)
    (self : MmsConnection)
    (hlock : self.outstandingCallsLock = false)
    (hresp : ∀ p ∈ responses, byteAt p 0 = 0xa1 ∧
      ∃ X pos i, parseConfirmedResponseHeader p = some (X, pos) ∧
        findOutstandingCall X self.outstandingCalls = some i ∧
        (slotAt self i).type ≠ MMS_CALL_TYPE_NONE)
    (honce : (responses.map responseInvokeIdOf).Nodup) :
    ∃ s', deliverAll ext env self responses
      = .returned () s' (responses.flatMap (responseEvents ext self.outstandingCalls)) := by
  induction responses generalizing self with
  | nil => exact ⟨self, rfl⟩
  | cons p rest ih =>
    obtain ⟨htag, X, pos, i, hp, hfind, hasync⟩ := hresp p (List.mem_cons_self p rest)
    have hstep := mmsIsoCallback_confirmed_response ext env self p X pos i hlock htag hp hfind
      hasync
    have hpid : responseInvokeIdOf p = some X := by simp [responseInvokeIdOf, hp]
    rw [List.map_cons, List.nodup_cons] at honce
    have hother : ∀ q ∈ rest, responseInvokeIdOf q ≠ some X := by
      intro q hq hqx
      exact honce.1 (by rw [hpid, ← hqx]; exact List.mem_map_of_mem _ hq)
    obtain ⟨s', hs'⟩ := ih
      { self with outstandingCalls := removeOutstandingCall X self.outstandingCalls,
                  responseInvokeId := 0, lastResponseError := MMS_ERROR_NONE }
      hlock
      (by
        intro q hq
        obtain ⟨hqtag, Y, qpos, j, hqp, hqfind, hqasync⟩ := hresp q (List.mem_cons_of_mem p hq)
        have hYX : Y ≠ X := by
          intro h
          exact hother q hq (by simp [responseInvokeIdOf, hqp, h])
        refine ⟨hqtag, Y, qpos, j, hqp, ?_, ?_⟩
        · simpa using (findOutstandingCall_remove X Y self.outstandingCalls hYX).trans hqfind
        · simp only [slotAt] at hqasync ⊢
          rcases removeOutstandingCall_getD X self.outstandingCalls j with h | h
          · rw [h]; exact hqasync
          · rw [h]; exact hqasync)
      honce.2
    refine ⟨s', ?_⟩
    have hcongr : rest.flatMap (responseEvents ext (removeOutstandingCall X self.outstandingCalls))
        = rest.flatMap (responseEvents ext self.outstandingCalls) := by
      apply List.flatMap_congr
      intro q hq
      exact responseEvents_remove ext self.outstandingCalls X q (hother q hq)
    simp only [deliverAll, hstep, Outcome.andThen, hs', List.flatMap_cons, hcongr]

/-- C2: let the used slots carry pairwise distinct invoke-ids and let
`responses` be confirmed-response PDUs, in any order, each for a different
outstanding asynchronous call. Then the callback returns on every one of
them, and the events it emits are, response by response, the answer of the
table the sequence started from: for the response `p` and the used slot `c`
that carries the invoke-id of `p`, one call of the handler registered in `c`,
with the invoke-id and user parameter of `c` and the result decoded from the
payload `p`, followed by the release of the receive buffer. The order of
`responses` does not enter. -/
theorem C2_responses_matched_by_invoke_id (ext : Externals) (env : CallbackEnv)
    (self : MmsConnection) (responses : List ByteBuffer)
    (hlock : self.outstandingCallsLock = false)
    (hdistinct : invokeIdsDistinct self.outstandingCalls)
    (hresp : ∀ p ∈ responses, byteAt p 0 = 0xa1 ∧
      ∃ X pos i, parseConfirmedResponseHeader p = some (X, pos) ∧
        findOutstandingCall X self.outstandingCalls = some i ∧
        (slotAt self i).type ≠ MMS_CALL_TYPE_NONE)
    (honce : (responses.map responseInvokeIdOf).Nodup) :
    (∃ s', deliverAll ext env self responses
      = .returned () s' (responses.flatMap (responseEvents ext self.outstandingCalls))) ∧
    (∀ p ∈ responses, ∀ c ∈ self.outstandingCalls, c.isUsed = true →
      ∀ pos, parseConfirmedResponseHeader p = some (c.invokeId, pos) →
        responseEvents ext self.outstandingCalls p
          = handlerEvents ext c (some p) pos MMS_ERROR_NONE ++ [Event.releaseReceiveBuffer] ∧
        ∃ err result, handlerEvents ext c (some p) pos MMS_ERROR_NONE
          = [Event.userCallback c.userCallback c.invokeId c.userParameter err result]) := by
  refine ⟨deliverAll_events ext env responses self hlock hresp honce, ?_⟩
  intro p hp c hc hused pos hhead
  obtain ⟨-, X, pos', i, hp', hfind, hasync⟩ := hresp p hp
  rw [hhead] at hp'
  simp only [Option.some.injEq, Prod.mk.injEq] at hp'
  obtain ⟨rfl, rfl⟩ := hp'
  have hslot := findOutstandingCall_unique c.invokeId self.outstandingCalls i c hdistinct hfind hc
    hused rfl
  have hasync' : c.type ≠ MMS_CALL_TYPE_NONE := by
    simp only [slotAt, hslot] at hasync
    exact hasync
  refine ⟨?_, handlerEvents_response ext c p pos hasync'⟩
  simp only [responseEvents, hhead, hfind, hslot]

/-- C2 (witness): five asynchronous reads, answered in reverse order; every
handler receives its own invoke-id and parameter and the value of the response
that carries its invoke-id. -/
theorem C2_responses_matched_by_invoke_id_witness :
    invokeIdsDistinct fiveAsyncReads.outstandingCalls ∧
    (deliverAll sampleExternals (sampleEnv 0) fiveAsyncReads
        [readResponse 5 55, readResponse 4 44, readResponse 3 33, readResponse 2 22,
         readResponse 1 11]).trace
      = [Event.userCallback 50 5 51 MMS_ERROR_NONE (HandlerResult.readVariable (some 55)),
         Event.releaseReceiveBuffer,
         Event.userCallback 40 4 41 MMS_ERROR_NONE (HandlerResult.readVariable (some 44)),
         Event.releaseReceiveBuffer,
         Event.userCallback 30 3 31 MMS_ERROR_NONE (HandlerResult.readVariable (some 33)),
         Event.releaseReceiveBuffer,
         Event.userCallback 20 2 21 MMS_ERROR_NONE (HandlerResult.readVariable (some 22)),
         Event.releaseReceiveBuffer,
         Event.userCallback 10 1 11 MMS_ERROR_NONE (HandlerResult.readVariable (some 11)),
         Event.releaseReceiveBuffer] := by
  have h := C2_responses_matched_by_invoke_id sampleExternals (sampleEnv 0) fiveAsyncReads
    [readResponse 5 55, readResponse 4 44, readResponse 3 33, readResponse 2 22,
     readResponse 1 11]
    (by decide) (by decide)
    (by
      intro p hp
      simp only [List.mem_cons, List.mem_singleton, List.not_mem_nil, or_false] at hp
      rcases hp with rfl | rfl | rfl | rfl | rfl
      · exact ⟨by decide, 5, 5, 4, by decide, by decide, by decide⟩
      · exact ⟨by decide, 4, 5, 3, by decide, by decide, by decide⟩
      · exact ⟨by decide, 3, 5, 2, by decide, by decide, by decide⟩
      · exact ⟨by decide, 2, 5, 1, by decide, by decide, by decide⟩
      · exact ⟨by decide, 1, 5, 0, by decide, by decide, by decide⟩)
    (by decide)
  obtain ⟨s', hs'⟩ := h.1
  refine ⟨by decide, ?_⟩
  rw [hs']
  simp only [Outcome.trace]
  decide

/-! ### C4: uniqueness of the invoke-ids in the table -/

/-- The used invoke-ids of a table, slot by slot. -/
theorem usedInvokeIds_cons (c : MmsOutstandingCall) (rest : List MmsOutstandingCall) :
    usedInvokeIds (c :: rest)
      = if c.isUsed = true then c.invokeId :: usedInvokeIds rest else usedInvokeIds rest := by
  unfold usedInvokeIds
  by_cases h : c.isUsed = true <;> simp [List.filter_cons, h]

/-- Removing a call frees at most one slot. -/
theorem usedInvokeIds_remove (X : Nat) (calls : List MmsOutstandingCall) :
    (usedInvokeIds (removeOutstandingCall X calls)).Sublist (usedInvokeIds calls) := by
  induction calls with
  | nil => exact List.Sublist.refl _
  | cons c rest ih =>
    by_cases hx : c.isUsed = true ∧ c.invokeId = X
    · simp only [removeOutstandingCall, hx, and_self, if_true, usedInvokeIds_cons]
      simp
    · simp only [removeOutstandingCall, hx, if_false, usedInvokeIds_cons]
      by_cases hu : c.isUsed = true
      · simp only [hu, if_true]; exact List.Sublist.cons₂ _ ih
      · simp only [hu, if_false]; exact ih

/-- Clearing a slot frees at most one slot. -/
theorem usedInvokeIds_clearSlot (calls : List MmsOutstandingCall) (i : Nat) :
    (usedInvokeIds (clearSlot calls i)).Sublist (usedInvokeIds calls) := by
  induction calls generalizing i with
  | nil => exact List.Sublist.refl _
  | cons c rest ih =>
    cases i with
    | zero =>
      simp only [clearSlot, usedInvokeIds_cons]
      by_cases hu : c.isUsed = true <;> simp [hu]
    | succ k =>
      simp only [clearSlot, usedInvokeIds_cons]
      by_cases hu : c.isUsed = true
      · simp only [hu, if_true]; exact List.Sublist.cons₂ _ (ih k)
      · simp only [hu, if_false]; exact ih k

/-- An insert adds the new invoke-id to the used ones. -/
theorem usedInvokeIds_insert (e : MmsOutstandingCall) (calls calls' : List MmsOutstandingCall)
    (he : e.isUsed = true) (h : insertOutstandingCall e calls = some calls') :
    (usedInvokeIds calls').Perm (e.invokeId :: usedInvokeIds calls) := by
  induction calls generalizing calls' with
  | nil => simp [insertOutstandingCall] at h
  | cons c rest ih =>
    by_cases hc : c.isUsed = false
    · simp only [insertOutstandingCall, hc, if_true, Option.some.injEq] at h
      subst h
      simp [usedInvokeIds_cons, he, hc]
    · have hc' : c.isUsed = true := by simpa using hc
      cases hr : insertOutstandingCall e rest with
      | none => simp [insertOutstandingCall, hc', hr] at h
      | some r =>
        simp only [insertOutstandingCall, hc', hr, Bool.true_eq_false, if_false, Option.map_some',
          Option.some.injEq] at h
        subst h
        simp only [usedInvokeIds_cons, hc', if_true]
        exact ((ih r hr).cons c.invokeId).trans (List.Perm.swap _ _ _)

/-- Nothing shrinks to itself. -/
theorem Shrinks.refl (s : MmsConnection) : Shrinks s s := ⟨rfl, List.Sublist.refl _⟩

/-- Shrinking composes. -/
theorem Shrinks.trans {s1 s2 s3 : MmsConnection} (h12 : Shrinks s1 s2) (h23 : Shrinks s2 s3) :
    Shrinks s1 s3 := ⟨h23.1.trans h12.1, h23.2.trans h12.2⟩

/-- A change that leaves counter and table alone. -/
theorem Shrinks.of_eq {s s' : MmsConnection} (h1 : s'.lastInvokeId = s.lastInvokeId)
    (h2 : s'.outstandingCalls = s.outstandingCalls) : Shrinks s s' :=
  ⟨h1, by rw [h2]⟩

/-- The invariant survives shrinking. -/
theorem TableInv.shrinks {s s' : MmsConnection} (h : TableInv s) (hs : Shrinks s s') :
    TableInv s' :=
  ⟨List.Nodup.sublist hs.2 h.1, fun id hid => by rw [hs.1]; exact h.2 id (hs.2.subset hid)⟩

/-- Shrinking through a sequence. -/
theorem Outcome.andThen_shrinks {α β : Type} (s : MmsConnection) (o : Outcome α)
    (k : α → MmsConnection → Outcome β) (ho : Shrinks s o.state)
    (hk : ∀ v s1, Shrinks s1 (k v s1).state) : Shrinks s (o.andThen k).state := by
  cases o with
  | blocked c s1 e1 => exact ho
  | returned v s1 e1 =>
    have h := hk v s1
    cases hkv : k v s1 with
    | blocked c s2 e2 =>
      rw [hkv] at h
      simpa [Outcome.andThen, hkv, Outcome.state] using ho.trans h
    | returned w s2 e2 =>
      rw [hkv] at h
      simpa [Outcome.andThen, hkv, Outcome.state] using ho.trans h

/-- The function `removeFromOutstandingCalls` shrinks. -/
theorem removeFromOutstandingCalls_shrinks (s : MmsConnection) (invokeId : Nat) :
    Shrinks s (removeFromOutstandingCalls s invokeId).state := by
  unfold removeFromOutstandingCalls
  by_cases hl : s.outstandingCallsLock = true
  · simp only [hl, if_true, Outcome.state]; exact Shrinks.refl s
  · simp only [hl, Bool.false_eq_true, if_false, Outcome.state]
    exact ⟨rfl, usedInvokeIds_remove invokeId s.outstandingCalls⟩

/-- The function `handleAsyncResponse` shrinks. -/
theorem handleAsyncResponse_shrinks (ext : Externals) (s : MmsConnection)
    (response : Option ByteBuffer) (bufPos i : Nat) (err : MmsError) :
    Shrinks s (handleAsyncResponse ext s response bufPos i err).state := by
  unfold handleAsyncResponse
  apply Outcome.andThen_shrinks
  · exact Shrinks.refl s
  · intro _ s1
    apply Outcome.andThen_shrinks
    · exact removeFromOutstandingCalls_shrinks s1 _
    · intro _ s2
      exact Shrinks.of_eq rfl rfl

/-- The dispatch of a response shrinks when the store leaves counter and table
alone. -/
theorem dispatchResponse_shrinks (ext : Externals) (s : MmsConnection) (invokeId : Nat)
    (response : Option ByteBuffer) (bufPos : Nat) (err : MmsError)
    (store : MmsConnection → MmsConnection)
    (hstore : ∀ t, (store t).lastInvokeId = t.lastInvokeId ∧
      (store t).outstandingCalls = t.outstandingCalls) :
    Shrinks s (dispatchResponse ext s invokeId response bufPos err store).state := by
  unfold dispatchResponse
  apply Outcome.andThen_shrinks
  · unfold checkForOutstandingCall
    split <;> exact Shrinks.refl s
  · intro call s1
    cases call with
    | none => exact Shrinks.refl s1
    | some i =>
      simp only
      split
      · exact handleAsyncResponse_shrinks ext s1 response bufPos i err
      · apply Outcome.andThen_shrinks
        · unfold waitUntilLastResponseHasBeenProcessed
          split <;> exact Shrinks.refl s1
        · intro _ s2
          exact Shrinks.of_eq (hstore s2).1 (hstore s2).2

/-- The Tick branch shrinks. -/
theorem tickBranch_shrinks (ext : Externals) (s : MmsConnection) (currentTime : Nat) :
    Shrinks s (tickBranch ext s currentTime).state := by
  unfold tickBranch
  split
  · exact Shrinks.refl s
  · simp only
    split
    · exact Shrinks.of_eq rfl rfl
    · rename_i i _
      have hlocked : Shrinks s { s with outstandingCallsLock := true } := Shrinks.of_eq rfl rfl
      refine hlocked.trans ?_
      apply Outcome.andThen_shrinks
      · split
        · exact handleAsyncResponse_shrinks ext _ none 0 i MMS_ERROR_SERVICE_TIMEOUT
        · exact Shrinks.refl _
      · intro _ s1
        exact ⟨rfl, usedInvokeIds_clearSlot s1.outstandingCalls i⟩

/-- The tag dispatch shrinks on every payload that is not a confirmed-request
PDU. -/
theorem tagDispatch_shrinks (ext : Externals) (env : CallbackEnv) (ind : IsoIndication)
    (s : MmsConnection) (payload : ByteBuffer) (h : byteAt payload 0 ≠ 0xa0) :
    Shrinks s (tagDispatch ext env ind s payload).state := by
  unfold tagDispatch
  by_cases h1 : byteAt payload 0 = 0xa9
  · rw [if_pos h1]; exact Shrinks.of_eq rfl rfl
  rw [if_neg h1]
  by_cases h2 : byteAt payload 0 = 0xa3
  · rw [if_pos h2]; exact Shrinks.refl s
  rw [if_neg h2]
  by_cases h3 : byteAt payload 0 = 0x8b
  · rw [if_pos h3]; exact Shrinks.of_eq rfl rfl
  rw [if_neg h3]
  by_cases h4 : byteAt payload 0 = 0x8c
  · rw [if_pos h4]; exact Shrinks.of_eq rfl rfl
  rw [if_neg h4]
  by_cases h5 : byteAt payload 0 = 0x8d
  · rw [if_pos h5]; exact Shrinks.of_eq rfl rfl
  rw [if_neg h5]
  by_cases h6 : byteAt payload 0 = 0xa2
  · rw [if_pos h6]
    cases mmsMsg_parseConfirmedErrorPDU payload 0 payload.length env.invokeId ⟨0, 0⟩ with
    | none => exact Shrinks.refl s
    | some pdu => exact dispatchResponse_shrinks _ _ _ _ _ _ _ (fun t => ⟨rfl, rfl⟩)
  rw [if_neg h6]
  by_cases h7 : byteAt payload 0 = 0xa4
  · rw [if_pos h7]
    cases mmsMsg_parseRejectPDU payload 0 payload.length env.invokeId env.rejectType
        env.rejectReason with
    | none => exact Shrinks.refl s
    | some pdu => exact dispatchResponse_shrinks _ _ _ _ _ _ _ (fun t => ⟨rfl, rfl⟩)
  rw [if_neg h7]
  by_cases h8 : byteAt payload 0 = 0xa1
  · rw [if_pos h8]
    cases parseConfirmedResponseHeader payload with
    | none => exact Shrinks.refl s
    | some r => exact dispatchResponse_shrinks _ _ _ _ _ _ _ (fun t => ⟨rfl, rfl⟩)
  rw [if_neg h8, if_neg h]
  exact Shrinks.refl s

/-- The callback shrinks on every indication that is not a confirmed-request
PDU. -/
theorem mmsIsoCallback_shrinks (ext : Externals) (env : CallbackEnv) (ind : IsoIndication)
    (s : MmsConnection) (payload : ByteBuffer)
    (h : ¬ ((ind = ISO_IND_DATA ∨ ind = ISO_IND_ASSOCIATION_SUCCESS) ∧ byteAt payload 0 = 0xa0)) :
    Shrinks s (mmsIsoCallback ext env ind s payload).state := by
  unfold mmsIsoCallback
  by_cases ht : ind = ISO_IND_TICK
  · rw [if_pos ht]; exact tickBranch_shrinks ext s env.currentTime
  rw [if_neg ht]
  by_cases hc : ind = ISO_IND_CLOSED
  · rw [if_pos hc]; exact Shrinks.of_eq rfl rfl
  rw [if_neg hc]
  by_cases hf : ind = ISO_IND_ASSOCIATION_FAILED
  · rw [if_pos hf]; exact Shrinks.of_eq rfl rfl
  rw [if_neg hf]
  by_cases hl : payload.length < 1
  · rw [if_pos hl]; exact Shrinks.refl s
  rw [if_neg hl]
  apply tagDispatch_shrinks
  intro htag
  apply h
  refine ⟨?_, htag⟩
  cases ind
  · exact Or.inr rfl
  · exact absurd rfl hf
  · exact absurd rfl hc
  · exact Or.inl rfl
  · exact absurd rfl ht

/-- The state after a sequence. -/
theorem Outcome.andThen_state {α β : Type} (o : Outcome α) (k : α → MmsConnection → Outcome β) :
    (o.andThen k).state
      = match o with
        | .returned v s _ => (k v s).state
        | .blocked _ s _ => s := by
  cases o with
  | blocked c s e => rfl
  | returned v s e =>
    cases hk : k v s <;> simp [Outcome.andThen, hk, Outcome.state]

/-- The state after a sequence whose first part returned. -/
theorem Outcome.andThen_state_returned {α β : Type} (v : α) (s : MmsConnection) (e : List Event)
    (k : α → MmsConnection → Outcome β) :
    ((Outcome.returned v s e).andThen k).state = (k v s).state := by
  rw [Outcome.andThen_state]

/-- A continuation that keeps the state does not change the state of the
sequence. -/
theorem Outcome.andThen_state_of_keeps {α β : Type} (o : Outcome α)
    (k : α → MmsConnection → Outcome β) (hk : ∀ v t, (k v t).state = t) :
    (o.andThen k).state = o.state := by
  cases o with
  | blocked c s e => rfl
  | returned v s e =>
    rw [Outcome.andThen_state_returned, hk]
    rfl

/-- The insert keeps the counter. -/
theorem addToOutstandingCalls_lastInvokeId (s : MmsConnection) (invokeId : Nat)
    (type : eMmsOutstandingCallType) (userCallback userParameter now : Nat) :
    (addToOutstandingCalls s invokeId type userCallback userParameter now).state.lastInvokeId
      = s.lastInvokeId := by
  unfold addToOutstandingCalls
  split
  · rfl
  · split <;> rfl

/-- An insert of an invoke-id above all used ones, not above the counter,
keeps the table invariant. -/
theorem addToOutstandingCalls_inv (s : MmsConnection) (invokeId : Nat)
    (type : eMmsOutstandingCallType) (userCallback userParameter now : Nat)
    (hd : invokeIdsDistinct s.outstandingCalls)
    (hlt : ∀ x ∈ usedInvokeIds s.outstandingCalls, x < invokeId)
    (hle : invokeId ≤ s.lastInvokeId) :
    TableInv (addToOutstandingCalls s invokeId type userCallback userParameter now).state := by
  have hs : TableInv s := ⟨hd, fun x hx => (Nat.le_of_lt (hlt x hx)).trans hle⟩
  unfold addToOutstandingCalls
  split
  · exact hs
  · split
    · rename_i calls hins
      have hperm := usedInvokeIds_insert _ _ _ rfl hins
      refine ⟨?_, ?_⟩
      · show (usedInvokeIds calls).Nodup
        rw [hperm.nodup_iff, List.nodup_cons]
        exact ⟨fun hmem => Nat.lt_irrefl _ (hlt _ hmem), hd⟩
      · intro x hx
        have hx' : x ∈ invokeId :: usedInvokeIds s.outstandingCalls := hperm.subset hx
        rcases List.mem_cons.1 hx' with rfl | hx''
        · exact hle
        · exact (Nat.le_of_lt (hlt x hx'')).trans hle
    · exact hs

/-- The increment of the counter below the wrap. -/
theorem getNextInvokeId_eq (s : MmsConnection) (hw : s.lastInvokeId + 1 < UINT32_RANGE) :
    (getNextInvokeId s).1 = s.lastInvokeId + 1 ∧
      (getNextInvokeId s).2 = { s with lastInvokeId := s.lastInvokeId + 1 } := by
  simp [getNextInvokeId, Nat.mod_eq_of_lt hw]

/-- An asynchronous service below the wrap keeps the table invariant. -/
theorem asyncService_inv (s : MmsConnection) (request : Nat → ByteBuffer)
    (type : eMmsOutstandingCallType) (handler parameter now : Nat)
    (h : TableInv s) (hw : s.lastInvokeId + 1 < UINT32_RANGE) :
    TableInv (asyncService s request type handler parameter now).state ∧
      (asyncService s request type handler parameter now).state.lastInvokeId
        ≤ s.lastInvokeId + 1 := by
  unfold asyncService
  split
  · exact ⟨h, Nat.le_succ _⟩
  · obtain ⟨hid, hst⟩ := getNextInvokeId_eq s hw
    have hstate : ∀ (t : MmsConnection) (i : Nat) (m : ByteBuffer),
        (sendAsyncRequest t i m type handler parameter now).state
          = (addToOutstandingCalls t i type handler parameter now).state := by
      intro t i m
      unfold sendAsyncRequest
      rw [Outcome.andThen_state]
      cases addToOutstandingCalls t i type handler parameter now with
      | blocked c t1 e1 => rfl
      | returned v t1 e1 => cases v <;> rfl
    rw [Outcome.andThen_state_returned,
      Outcome.andThen_state_of_keeps _
        (fun err s2 => Outcome.returned ((getNextInvokeId s).1, err) s2 []) (fun _ _ => rfl),
      hstate, hid, hst]
    refine ⟨?_, ?_⟩
    · apply addToOutstandingCalls_inv
      · exact h.1
      · intro x hx
        exact Nat.lt_succ_of_le (h.2 x hx)
      · exact Nat.le_refl _
    · rw [addToOutstandingCalls_lastInvokeId]

/-- The polling loop without schedule shrinks. -/
theorem waitForResponse_nil_shrinks (invokeId waitUntilTime currentTime : Nat)
    (t : MmsConnection) :
    Shrinks t (waitForResponse invokeId waitUntilTime currentTime t []).state := by
  unfold waitForResponse pollResponse
  split_ifs
  all_goals
    first
      | exact Shrinks.refl t
      | (apply Outcome.andThen_shrinks
         · exact removeFromOutstandingCalls_shrinks t invokeId
         · intro _ s1; exact Shrinks.refl s1)

/-- A synchronous request up to its first sleep shrinks the state that the
insert leaves. -/
theorem sendRequestAndWaitForResponse_nil_shrinks (s : MmsConnection) (invokeId : Nat)
    (message : ByteBuffer) (now currentTime : Nat) :
    Shrinks (addToOutstandingCalls s invokeId MMS_CALL_TYPE_NONE 0 0 now).state
      (sendRequestAndWaitForResponse s invokeId message now currentTime []).state := by
  unfold sendRequestAndWaitForResponse
  rw [Outcome.andThen_state]
  cases addToOutstandingCalls s invokeId MMS_CALL_TYPE_NONE 0 0 now with
  | blocked c t1 e1 => exact Shrinks.refl _
  | returned v t1 e1 =>
    cases v with
    | false => exact Shrinks.refl _
    | true =>
      simp only [Bool.true_eq_false, if_false]
      rw [Outcome.andThen_state_returned]
      exact waitForResponse_nil_shrinks _ _ _ _

/-- One step that is no confirmed-request PDU, below the wrap of the counter,
keeps the table invariant and raises the counter by at most its allocation. -/
theorem applyStep_inv (ext : Externals) (s : MmsConnection) (step : Step)
    (h : TableInv s) (hnc : step.isConfirmedRequest = false)
    (hw : s.lastInvokeId + allocations [step] < UINT32_RANGE) :
    TableInv (applyStep ext s step) ∧
      (applyStep ext s step).lastInvokeId ≤ s.lastInvokeId + allocations [step] := by
  cases step with
  | setAssociationState newState => exact ⟨h, Nat.le_refl _⟩
  | setConnectionState newState => exact ⟨h, Nat.le_refl _⟩
  | setConcludeState newState => exact ⟨h, Nat.le_refl _⟩
  | asyncRequest message type handler parameter now =>
    exact asyncService_inv s _ type handler parameter now h hw
  | syncRequest message now currentTime =>
    have hw' : s.lastInvokeId + 1 < UINT32_RANGE := hw
    obtain ⟨hid, hst⟩ := getNextInvokeId_eq s hw'
    have hadd : TableInv (addToOutstandingCalls (getNextInvokeId s).2 (getNextInvokeId s).1
        MMS_CALL_TYPE_NONE 0 0 now).state := by
      apply addToOutstandingCalls_inv
      · rw [hst]; exact h.1
      · intro x hx
        rw [hst] at hx
        rw [hid]
        exact Nat.lt_succ_of_le (h.2 x hx)
      · rw [hid, hst]
    have hsh := sendRequestAndWaitForResponse_nil_shrinks (getNextInvokeId s).2
      (getNextInvokeId s).1 message now currentTime
    refine ⟨hadd.shrinks hsh, ?_⟩
    show (sendRequestAndWaitForResponse _ _ _ _ _ _).state.lastInvokeId ≤ _
    rw [hsh.1, addToOutstandingCalls_lastInvokeId, hst]
    exact Nat.le_refl _
  | syncReturn invokeId =>
    have hsh := removeFromOutstandingCalls_shrinks s invokeId
    exact ⟨h.shrinks hsh, by show (removeFromOutstandingCalls s invokeId).state.lastInvokeId ≤ _
                             rw [hsh.1]; exact Nat.le_refl _⟩
  | releaseResponse => exact ⟨h, Nat.le_refl _⟩
  | indication env ind payload =>
    have hsh := mmsIsoCallback_shrinks ext env ind s payload (by simpa [Step.isConfirmedRequest] using hnc)
    exact ⟨h.shrinks hsh, by show (mmsIsoCallback ext env ind s payload).state.lastInvokeId ≤ _
                             rw [hsh.1]; exact Nat.le_refl _⟩

/-- The allocations of a sequence, step by step. -/
theorem allocations_cons (step : Step) (rest : List Step) :
    allocations (step :: rest) = allocations [step] + allocations rest := by
  cases step <;> simp [allocations, Nat.add_comm]

/-- A sequence without confirmed-request PDU, below the wrap of the counter,
keeps the table invariant. -/
theorem run_inv (ext : Externals) (steps : List Step) (s : MmsConnection)
    (h : TableInv s) (hnc : ∀ step ∈ steps, step.isConfirmedRequest = false)
    (hw : s.lastInvokeId + allocations steps < UINT32_RANGE) :
    TableInv (run ext s steps) := by
  induction steps generalizing s with
  | nil => exact h
  | cons step rest ih =>
    rw [allocations_cons] at hw
    obtain ⟨hinv, hle⟩ := applyStep_inv ext s step h (hnc step (List.mem_cons_self _ _))
      (by omega)
    exact ih (applyStep ext s step) hinv (fun st hst => hnc st (List.mem_cons_of_mem _ hst))
      (by omega)

/-- C4 (amended): in every state reached from a created session by a sequence
of service calls, returns of synchronous calls, releases, changes of the three
state variables and indications (Ticks included) that contains no
confirmed-request PDU (tag `0xa0`) and fewer than `2^32` service calls, no two
used slots carry the same invoke-id. -/
theorem C4_invoke_ids_distinct (ext : Externals) (steps : List Step)
    (hnc : ∀ step ∈ steps, step.isConfirmedRequest = false)
    (hw : allocations steps < UINT32_RANGE) :
    invokeIdsDistinct (run ext MmsConnection_create steps).outstandingCalls := by
  have h0 : TableInv MmsConnection_create := by
    refine ⟨by decide, ?_⟩
    intro id hid
    have hnil : usedInvokeIds MmsConnection_create.outstandingCalls = [] := by decide
    rw [hnil] at hid
    cases hid
  exact (run_inv ext steps MmsConnection_create h0 hnc
    (by simpa [MmsConnection_create] using hw)).1

/-- C4 (witness): two asynchronous calls and a synchronous call, a response
and a Tick in between; the used slots carry the invoke-ids `3` and `2`. -/
theorem C4_invoke_ids_distinct_witness :
    invokeIdsDistinct (run sampleExternals MmsConnection_create
      [Step.setAssociationState MMS_STATE_CONNECTED,
       Step.asyncRequest [1] MMS_CALL_TYPE_READ_VARIABLE 10 11 100,
       Step.syncRequest [2] 100 100,
       Step.indication (sampleEnv 0) ISO_IND_DATA (readResponse 1 11),
       Step.indication (sampleEnv 150) ISO_IND_TICK [],
       Step.asyncRequest [3] MMS_CALL_TYPE_WRITE_VARIABLE 30 31 200]).outstandingCalls ∧
    usedInvokeIds (run sampleExternals MmsConnection_create
      [Step.setAssociationState MMS_STATE_CONNECTED,
       Step.asyncRequest [1] MMS_CALL_TYPE_READ_VARIABLE 10 11 100,
       Step.syncRequest [2] 100 100,
       Step.indication (sampleEnv 0) ISO_IND_DATA (readResponse 1 11),
       Step.indication (sampleEnv 150) ISO_IND_TICK [],
       Step.asyncRequest [3] MMS_CALL_TYPE_WRITE_VARIABLE 30 31 200]).outstandingCalls
      = [3, 2] :=
  ⟨C4_invoke_ids_distinct sampleExternals _ (by decide) (by decide), by decide⟩

/-- Sequences compose. -/
theorem run_append (ext : Externals) (s : MmsConnection) (a b : List Step) :
    run ext s (a ++ b) = run ext (run ext s a) b := by
  induction a generalizing s with
  | nil => rfl
  | cons step rest ih => exact ih (applyStep ext s step)

/-- With a full table every further asynchronous request consumes an
invoke-id and changes nothing else. -/
theorem run_replicate_readStep (ext : Externals) (n : Nat) (s : MmsConnection)
    (hlock : s.outstandingCallsLock = false)
    (hassoc : s.associationState = MMS_STATE_CONNECTED)
    (hfull : ∀ c ∈ s.outstandingCalls, c.isUsed = true)
    (hlast : s.lastInvokeId < UINT32_RANGE) :
    run ext s (List.replicate n readStep)
      = { s with lastInvokeId := (s.lastInvokeId + n) % UINT32_RANGE } := by
  induction n generalizing s with
  | zero =>
    simp only [List.replicate, run, Nat.add_zero, Nat.mod_eq_of_lt hlast]
  | succ k ih =>
    have hstep : applyStep ext s readStep
        = { s with lastInvokeId := (s.lastInvokeId + 1) % UINT32_RANGE } := by
      have hins := (insertOutstandingCall_eq_none
        { isUsed := true, invokeId := (s.lastInvokeId + 1) % UINT32_RANGE,
          timeout := 100 + s.requestTimeout, type := MMS_CALL_TYPE_READ_VARIABLE,
          userCallback := 7, userParameter := 8 } s.outstandingCalls).2 hfull
      simp [applyStep, readStep, asyncService, hassoc, sendAsyncRequest, addToOutstandingCalls,
        getNextInvokeId, hlock, hins, Outcome.andThen, Outcome.state]
    have hmod : (s.lastInvokeId + 1) % UINT32_RANGE < UINT32_RANGE :=
      Nat.mod_lt _ (by decide)
    rw [List.replicate_succ, run, hstep,
      ih { s with lastInvokeId := (s.lastInvokeId + 1) % UINT32_RANGE } hlock hassoc hfull hmod]
    have harith : ((s.lastInvokeId + 1) % UINT32_RANGE + k) % UINT32_RANGE
        = (s.lastInvokeId + (k + 1)) % UINT32_RANGE := by
      unfold UINT32_RANGE
      omega
    simp only [harith]

/-- C4 (counterexample): uniqueness fails in two ways. A confirmed-request PDU
writes its invoke-id into the counter (line 1231): after a request with
invoke-id `1`, such a PDU with invoke-id `0` makes the next request reuse
`1` while the first is still outstanding. And without any such PDU the counter
wraps: with ten calls outstanding and `2^32` requests issued in all, the call
`2` is answered and the next request receives the invoke-id `1` again. -/
theorem C4_duplicate_invoke_ids :
    ¬ invokeIdsDistinct (run sampleExternals MmsConnection_create
        [Step.setAssociationState MMS_STATE_CONNECTED, readStep,
         Step.indication (sampleEnv 0) ISO_IND_DATA sampleConfirmedRequest,
         readStep]).outstandingCalls ∧
    ¬ invokeIdsDistinct (run sampleExternals MmsConnection_create
        ((Step.setAssociationState MMS_STATE_CONNECTED :: List.replicate 10 readStep)
          ++ (List.replicate 4294967286 readStep
          ++ [Step.indication (sampleEnv 0) ISO_IND_DATA (readResponse 2 22),
              readStep]))).outstandingCalls := by
  refine ⟨by decide, ?_⟩
  rw [run_append, run_append]
  rw [run_replicate_readStep sampleExternals 4294967286 _ (by decide) (by decide) (by decide)
    (by decide)]
  decide

/-! ### The error in the shared slot -/

/-- A property of the state carries through a sequence. -/
theorem Outcome.andThen_pred {α β : Type} (P : MmsConnection → Prop) (o : Outcome α)
    (k : α → MmsConnection → Outcome β) (ho : P o.state)
    (hk : ∀ v s1, P s1 → P (k v s1).state) : P (o.andThen k).state := by
  cases o with
  | blocked c s1 e1 => exact ho
  | returned v s1 e1 =>
    rw [Outcome.andThen_state_returned]
    exact hk v s1 ho

/-- No service-error maps to `MMS_ERROR_OUTSTANDING_CALL_LIMIT`. -/
theorem convertServiceErrorToMmsError_ne_limit (serviceError : MmsServiceError) :
    convertServiceErrorToMmsError serviceError ≠ MMS_ERROR_OUTSTANDING_CALL_LIMIT := by
  unfold convertServiceErrorToMmsError
  split <;> first | (intro h; cases h) | (split <;> (intro h; cases h))

/-- No reject maps to `MMS_ERROR_OUTSTANDING_CALL_LIMIT`. -/
theorem convertRejectCodesToMmsError_ne_limit (rejectType rejectReason : Int) :
    convertRejectCodesToMmsError rejectType rejectReason ≠ MMS_ERROR_OUTSTANDING_CALL_LIMIT := by
  unfold convertRejectCodesToMmsError
  split_ifs <;> (intro h; cases h)

/-- The function `removeFromOutstandingCalls` leaves the slot error alone. -/
theorem removeFromOutstandingCalls_slotError (s : MmsConnection) (invokeId : Nat)
    (h : SlotErrorOk s) : SlotErrorOk (removeFromOutstandingCalls s invokeId).state := by
  unfold removeFromOutstandingCalls
  split <;> exact h

/-- The function `handleAsyncResponse` leaves an admissible slot error. -/
theorem handleAsyncResponse_slotError (ext : Externals) (s : MmsConnection)
    (response : Option ByteBuffer) (bufPos i : Nat) (err : MmsError) (h : SlotErrorOk s) :
    SlotErrorOk (handleAsyncResponse ext s response bufPos i err).state := by
  unfold handleAsyncResponse
  apply Outcome.andThen_pred SlotErrorOk
  · exact h
  · intro _ s1 h1
    apply Outcome.andThen_pred SlotErrorOk
    · exact removeFromOutstandingCalls_slotError s1 _ h1
    · intro _ s2 _ hc
      cases hc

/-- The dispatch of a response leaves an admissible slot error when the store
does. -/
theorem dispatchResponse_slotError (ext : Externals) (s : MmsConnection) (invokeId : Nat)
    (response : Option ByteBuffer) (bufPos : Nat) (err : MmsError)
    (store : MmsConnection → MmsConnection)
    (hstore : ∀ t, SlotErrorOk t → SlotErrorOk (store t)) (h : SlotErrorOk s) :
    SlotErrorOk (dispatchResponse ext s invokeId response bufPos err store).state := by
  unfold dispatchResponse
  apply Outcome.andThen_pred SlotErrorOk
  · unfold checkForOutstandingCall
    split <;> exact h
  · intro call s1 h1
    cases call with
    | none => exact h1
    | some i =>
      simp only
      split
      · exact handleAsyncResponse_slotError ext s1 response bufPos i err h1
      · apply Outcome.andThen_pred SlotErrorOk
        · unfold waitUntilLastResponseHasBeenProcessed
          split <;> exact h1
        · intro _ s2 h2
          exact hstore s2 h2

/-- The Tick branch leaves an admissible slot error. -/
theorem tickBranch_slotError (ext : Externals) (s : MmsConnection) (currentTime : Nat)
    (h : SlotErrorOk s) : SlotErrorOk (tickBranch ext s currentTime).state := by
  unfold tickBranch
  split
  · exact h
  · simp only
    split
    · exact h
    · rename_i i _
      apply Outcome.andThen_pred SlotErrorOk
      · split
        · exact handleAsyncResponse_slotError ext _ none 0 i MMS_ERROR_SERVICE_TIMEOUT h
        · exact h
      · intro _ s1 h1
        exact h1

/-- The confirmed-request loop leaves the slot error alone. -/
theorem confirmedRequestLoop_slotError (ext : Externals) (buf : ByteBuffer) (fuel bufPos : Nat)
    (invokeId : Nat) (s : MmsConnection) (events : List Event) (h : SlotErrorOk s) :
    SlotErrorOk (confirmedRequestLoop ext buf fuel bufPos invokeId s events).state := by
  induction fuel generalizing bufPos invokeId s events with
  | zero => exact h
  | succ k ih =>
    unfold confirmedRequestLoop
    split
    · simp only
      split
      · exact h
      · split
        · split
          · exact ih _ _ _ _ h
          · exact ih _ _ _ _ h
        · split
          · exact ih _ _ _ _ h
          · exact h
    · exact h

/-- The tag dispatch leaves an admissible slot error. -/
theorem tagDispatch_slotError (ext : Externals) (env : CallbackEnv) (ind : IsoIndication)
    (s : MmsConnection) (payload : ByteBuffer) (h : SlotErrorOk s) :
    SlotErrorOk (tagDispatch ext env ind s payload).state := by
  unfold tagDispatch
  by_cases h1 : byteAt payload 0 = 0xa9
  · rw [if_pos h1]; exact h
  rw [if_neg h1]
  by_cases h2 : byteAt payload 0 = 0xa3
  · rw [if_pos h2]; exact h
  rw [if_neg h2]
  by_cases h3 : byteAt payload 0 = 0x8b
  · rw [if_pos h3]; exact h
  rw [if_neg h3]
  by_cases h4 : byteAt payload 0 = 0x8c
  · rw [if_pos h4]; exact h
  rw [if_neg h4]
  by_cases h5 : byteAt payload 0 = 0x8d
  · rw [if_pos h5]; exact h
  rw [if_neg h5]
  by_cases h6 : byteAt payload 0 = 0xa2
  · rw [if_pos h6]
    cases mmsMsg_parseConfirmedErrorPDU payload 0 payload.length env.invokeId ⟨0, 0⟩ with
    | none => exact h
    | some pdu =>
      exact dispatchResponse_slotError _ _ _ _ _ _ _
        (fun t _ => convertServiceErrorToMmsError_ne_limit pdu.serviceError) h
  rw [if_neg h6]
  by_cases h7 : byteAt payload 0 = 0xa4
  · rw [if_pos h7]
    cases mmsMsg_parseRejectPDU payload 0 payload.length env.invokeId env.rejectType
        env.rejectReason with
    | none => exact h
    | some pdu =>
      exact dispatchResponse_slotError _ _ _ _ _ _ _
        (fun t _ => convertRejectCodesToMmsError_ne_limit pdu.rejectType pdu.rejectReason) h
  rw [if_neg h7]
  by_cases h8 : byteAt payload 0 = 0xa1
  · rw [if_pos h8]
    cases parseConfirmedResponseHeader payload with
    | none => exact h
    | some r => exact dispatchResponse_slotError _ _ _ _ _ _ _ (fun t ht => ht) h
  rw [if_neg h8]
  by_cases h9 : byteAt payload 0 = 0xa0
  · rw [if_pos h9]
    cases BerDecoder_decodeLength payload 1 payload.length with
    | none => exact h
    | some r => exact confirmedRequestLoop_slotError _ _ _ _ _ _ _ h
  rw [if_neg h9]
  exact h

/-- No run of the callback stores `MMS_ERROR_OUTSTANDING_CALL_LIMIT` in the
shared slot. -/
theorem mmsIsoCallback_slotError (ext : Externals) (env : CallbackEnv) (ind : IsoIndication)
    (s : MmsConnection) (payload : ByteBuffer) (h : SlotErrorOk s) :
    SlotErrorOk (mmsIsoCallback ext env ind s payload).state := by
  unfold mmsIsoCallback
  by_cases ht : ind = ISO_IND_TICK
  · rw [if_pos ht]; exact tickBranch_slotError ext s env.currentTime h
  rw [if_neg ht]
  by_cases hc : ind = ISO_IND_CLOSED
  · rw [if_pos hc]; exact h
  rw [if_neg hc]
  by_cases hf : ind = ISO_IND_ASSOCIATION_FAILED
  · rw [if_pos hf]; exact h
  rw [if_neg hf]
  by_cases hl : payload.length < 1
  · rw [if_pos hl]; exact h
  rw [if_neg hl]
  exact tagDispatch_slotError ext env ind s payload h

/-- In every state reached from a created session the shared slot does not
hold `MMS_ERROR_OUTSTANDING_CALL_LIMIT`. -/
theorem run_slotError (ext : Externals) (steps : List Step) (s : MmsConnection)
    (h : SlotErrorOk s) : SlotErrorOk (run ext s steps) := by
  induction steps generalizing s with
  | nil => exact h
  | cons step rest ih =>
    apply ih
    cases step with
    | setAssociationState newState => exact h
    | setConnectionState newState => exact h
    | setConcludeState newState => exact h
    | asyncRequest message type handler parameter now =>
      show SlotErrorOk (asyncService s _ type handler parameter now).state
      unfold asyncService
      split
      · exact h
      · apply Outcome.andThen_pred SlotErrorOk
        · exact h
        · intro _ s1 h1
          apply Outcome.andThen_pred SlotErrorOk
          · unfold sendAsyncRequest
            apply Outcome.andThen_pred SlotErrorOk
            · unfold addToOutstandingCalls
              split
              · exact h1
              · split <;> exact h1
            · intro added s2 h2
              split <;> exact h2
          · intro _ s2 h2
            exact h2
    | syncRequest message now currentTime =>
      show SlotErrorOk (sendRequestAndWaitForResponse _ _ _ _ _ _).state
      unfold sendRequestAndWaitForResponse
      apply Outcome.andThen_pred SlotErrorOk
      · unfold addToOutstandingCalls
        split
        · exact h
        · split <;> exact h
      · intro added s1 h1
        split
        · exact h1
        · apply Outcome.andThen_pred SlotErrorOk
          · exact h1
          · intro _ s2 h2
            unfold waitForResponse pollResponse
            split_ifs
            all_goals
              first
                | exact h2
                | (apply Outcome.andThen_pred SlotErrorOk
                   · exact removeFromOutstandingCalls_slotError s2 _ h2
                   · intro _ s3 h3; exact h3)
    | syncReturn invokeId => exact removeFromOutstandingCalls_slotError s invokeId h
    | releaseResponse =>
      intro hc
      cases hc
    | indication env ind payload => exact mmsIsoCallback_slotError ext env ind s payload h

/-! ### The parser loops never run out of fuel -/

/-- The bytes of a long-form length end `n` positions further. -/
theorem decodeLengthBytes_pos (buffer : ByteBuffer) (maxBufPos n bufPos acc length pos : Nat)
    (h : decodeLengthBytes buffer maxBufPos n bufPos acc = some (length, pos)) :
    pos = bufPos + n := by
  induction n generalizing bufPos acc with
  | zero =>
    simp only [decodeLengthBytes, Option.some.injEq, Prod.mk.injEq] at h
    omega
  | succ k ih =>
    unfold decodeLengthBytes at h
    split at h
    · cases h
    · have := ih _ _ h
      omega

/-- A decoded length consumes at least one byte and its content ends inside
the buffer. -/
theorem BerDecoder_decodeLength_pos (buffer : ByteBuffer) (bufPos maxBufPos length pos : Nat)
    (h : BerDecoder_decodeLength buffer bufPos maxBufPos = some (length, pos)) :
    bufPos < pos ∧ pos + length ≤ maxBufPos := by
  unfold BerDecoder_decodeLength at h
  split at h
  · cases h
  · simp only at h
    split at h
    · split at h
      · cases h
      · simp only [Option.some.injEq, Prod.mk.injEq] at h
        omega
    · split at h
      · cases h
      · split at h
        · cases h
        · rename_i l p hd
          have hp := decodeLengthBytes_pos _ _ _ _ _ _ _ hd
          split at h
          · cases h
          · simp only [Option.some.injEq, Prod.mk.injEq] at h
            omega

/-- The loop of `parseServiceError` never moves backwards. -/
theorem parseServiceErrorLoop_pos (buffer : ByteBuffer) (endPos fuel bufPos : Nat)
    (error : MmsServiceError) (pos : Nat) (error' : MmsServiceError)
    (h : parseServiceErrorLoop buffer endPos fuel bufPos error = some (pos, error')) :
    bufPos ≤ pos := by
  induction fuel generalizing bufPos error with
  | zero =>
    unfold parseServiceErrorLoop at h
    split at h
    · cases h
    · simp only [Option.some.injEq, Prod.mk.injEq] at h
      omega
  | succ k ih =>
    unfold parseServiceErrorLoop at h
    split at h
    · simp only at h
      split at h
      · cases h
      · rename_i length p hd
        have h1 := BerDecoder_decodeLength_pos _ _ _ _ _ hd
        split at h
        · split at h
          · cases h
          · rename_i length2 p2 hd2
            have h2 := BerDecoder_decodeLength_pos _ _ _ _ _ hd2
            have := ih _ _ h
            omega
        · have := ih _ _ h
          omega
    · simp only [Option.some.injEq, Prod.mk.injEq] at h
      omega

/-- With `endPos - bufPos` units of fuel the loop of `parseServiceError` has
all the fuel it can use: one more unit changes nothing. -/
theorem parseServiceErrorLoop_fuel (buffer : ByteBuffer) (endPos fuel bufPos : Nat)
    (error : MmsServiceError) (h : endPos ≤ bufPos + fuel) :
    parseServiceErrorLoop buffer endPos (fuel + 1) bufPos error
      = parseServiceErrorLoop buffer endPos fuel bufPos error := by
  induction fuel generalizing bufPos error with
  | zero =>
    have hn : ¬ bufPos < endPos := by omega
    simp [parseServiceErrorLoop, hn]
  | succ k ih =>
    rw [parseServiceErrorLoop, parseServiceErrorLoop.eq_def buffer endPos (k + 1)]
    by_cases hlt : bufPos < endPos
    · simp only [hlt, if_true]
      cases hd : BerDecoder_decodeLength buffer (bufPos + 1) endPos with
      | none => rfl
      | some r =>
        obtain ⟨length, p⟩ := r
        have h1 := BerDecoder_decodeLength_pos _ _ _ _ _ hd
        simp only
        by_cases htag : byteAt buffer bufPos = 0xa0
        · simp only [htag, if_true]
          cases hd2 : BerDecoder_decodeLength buffer (p + 1) endPos with
          | none => rfl
          | some r2 =>
            obtain ⟨length2, p2⟩ := r2
            have h2 := BerDecoder_decodeLength_pos _ _ _ _ _ hd2
            simp only
            exact ih _ _ (by omega)
        · simp only [htag, if_false]
          exact ih _ _ (by omega)
    · simp only [hlt, if_false]

/-- The fuel that `parseServiceError` passes is enough for every further
unit to change nothing. -/
theorem parseServiceErrorLoop_fuel_add (buffer : ByteBuffer) (endPos fuel bufPos extra : Nat)
    (error : MmsServiceError) (h : endPos ≤ bufPos + fuel) :
    parseServiceErrorLoop buffer endPos (fuel + extra) bufPos error
      = parseServiceErrorLoop buffer endPos fuel bufPos error := by
  induction extra with
  | zero => rfl
  | succ k ih =>
    rw [← Nat.add_assoc, parseServiceErrorLoop_fuel _ _ _ _ _ (by omega), ih]

/-- With `endPos - bufPos` units of fuel the loop of
`mmsMsg_parseConfirmedErrorPDU` has all the fuel it can use. -/
theorem parseConfirmedErrorLoop_fuel (buffer : ByteBuffer) (maxBufPos endPos fuel bufPos : Nat)
    (invokeId : Nat) (serviceError : MmsServiceError) (h : endPos ≤ bufPos + fuel) :
    parseConfirmedErrorLoop buffer maxBufPos endPos (fuel + 1) bufPos invokeId serviceError
      = parseConfirmedErrorLoop buffer maxBufPos endPos fuel bufPos invokeId serviceError := by
  induction fuel generalizing bufPos invokeId serviceError with
  | zero =>
    have hn : ¬ bufPos < endPos := by omega
    simp [parseConfirmedErrorLoop, hn]
  | succ k ih =>
    rw [parseConfirmedErrorLoop, parseConfirmedErrorLoop.eq_def buffer maxBufPos endPos (k + 1)]
    by_cases hlt : bufPos < endPos
    · simp only [hlt, if_true]
      cases hd : BerDecoder_decodeLength buffer (bufPos + 1) maxBufPos with
      | none => rfl
      | some r =>
        obtain ⟨length, p⟩ := r
        have h1 := BerDecoder_decodeLength_pos _ _ _ _ _ hd
        simp only
        by_cases h80 : byteAt buffer bufPos = 0x80
        · simp only [h80, if_true]
          exact ih _ _ _ (by omega)
        · simp only [h80, if_false]
          by_cases ha2 : byteAt buffer bufPos = 0xa2
          · simp only [ha2, if_true]
            cases hs : parseServiceError buffer p length serviceError with
            | none => rfl
            | some r2 =>
              obtain ⟨p2, se2⟩ := r2
              have h2 := parseServiceErrorLoop_pos _ _ _ _ _ _ _ hs
              simp only
              exact ih _ _ _ (by omega)
          · simp only [ha2, if_false]
            exact ih _ _ _ (by omega)
    · simp only [hlt, if_false]

/-- With `endPos - bufPos` units of fuel the loop of `mmsMsg_parseRejectPDU`
has all the fuel it can use. -/
theorem parseRejectLoop_fuel (buffer : ByteBuffer) (maxBufPos endPos fuel bufPos : Nat)
    (invokeId : Nat) (rejectType rejectReason : Int) (h : endPos ≤ bufPos + fuel) :
    parseRejectLoop buffer maxBufPos endPos (fuel + 1) bufPos invokeId rejectType rejectReason
      = parseRejectLoop buffer maxBufPos endPos fuel bufPos invokeId rejectType rejectReason := by
  induction fuel generalizing bufPos invokeId rejectType rejectReason with
  | zero =>
    have hn : ¬ bufPos < endPos := by omega
    simp [parseRejectLoop, hn]
  | succ k ih =>
    rw [parseRejectLoop, parseRejectLoop.eq_def buffer maxBufPos endPos (k + 1)]
    by_cases hlt : bufPos < endPos
    · simp only [hlt, if_true]
      cases hd : BerDecoder_decodeLength buffer (bufPos + 1) maxBufPos with
      | none => rfl
      | some r =>
        obtain ⟨length, p⟩ := r
        have h1 := BerDecoder_decodeLength_pos _ _ _ _ _ hd
        simp only
        by_cases h80 : byteAt buffer bufPos = 0x80
        · simp only [h80, if_true]
          exact ih _ _ _ _ (by omega)
        · simp only [h80, if_false]
          by_cases hr : byteAt buffer bufPos > 0x80 ∧ byteAt buffer bufPos < 0x8c
          · simp only [hr, and_self, if_true]
            exact ih _ _ _ _ (by omega)
          · simp only [hr, if_false]
            exact ih _ _ _ _ (by omega)
    · simp only [hlt, if_false]

/-- With `buf.length - bufPos` units of fuel the loop of the confirmed-request
branch has all the fuel it can use. -/
theorem confirmedRequestLoop_fuel (ext : Externals) (buf : ByteBuffer) (fuel bufPos : Nat)
    (invokeId : Nat) (self : MmsConnection) (events : List Event)
    (h : buf.length ≤ bufPos + fuel) :
    confirmedRequestLoop ext buf (fuel + 1) bufPos invokeId self events
      = confirmedRequestLoop ext buf fuel bufPos invokeId self events := by
  induction fuel generalizing bufPos invokeId self events with
  | zero =>
    have hn : ¬ bufPos < buf.length := by omega
    simp [confirmedRequestLoop, hn]
  | succ k ih =>
    rw [confirmedRequestLoop, confirmedRequestLoop.eq_def ext buf (k + 1)]
    by_cases hlt : bufPos < buf.length
    · simp only [hlt, if_true]
      cases hd : BerDecoder_decodeLength buf
          (if (decide (byteAt buf bufPos % 32 = 31)) = true then bufPos + 2 else bufPos + 1)
          buf.length with
      | none => rfl
      | some r =>
        obtain ⟨length, p⟩ := r
        have h1 := BerDecoder_decodeLength_pos _ _ _ _ _ hd
        have hp : bufPos + 1 < p := by
          split at h1 <;> omega
        simp only
        split
        · split
          · exact ih _ _ _ _ (by omega)
          · exact ih _ _ _ _ (by omega)
        · split
          · exact ih _ _ _ _ (by omega)
          · rfl
    · simp only [hlt, if_false]

/-! ### A standard encoding of the confirmed-error PDU -/

/-- For every invoke-id and every service error of one byte each, the PDU
`confirmedErrorPdu` parses to exactly these values, whatever the output
variables held before. -/
theorem confirmedErrorPdu_parses (invokeId errorClass errorCode before : Nat)
    (errorBefore : MmsServiceError)
    (hid : invokeId < UINT32_RANGE) (_hclass : errorClass < 128) (hcode : errorCode < 256) :
    mmsMsg_parseConfirmedErrorPDU (confirmedErrorPdu invokeId errorClass errorCode) 0
        (confirmedErrorPdu invokeId errorClass errorCode).length before errorBefore
      = some ⟨15, invokeId, ⟨errorClass, errorCode⟩⟩ := by
  unfold UINT32_RANGE at hid
  have h1 : (((invokeId / 16777216 % 256 % 4294967296 * 256 + invokeId / 65536 % 256)
      % 4294967296 * 256 + invokeId / 256 % 256) % 4294967296 * 256 + invokeId % 256)
      % 4294967296 = invokeId := by omega
  have h2 : errorCode % 4294967296 = errorCode := by omega
  have h3 : errorCode % 4294967296 < 2147483648 := by omega
  simp [mmsMsg_parseConfirmedErrorPDU, confirmedErrorPdu, byteAt, BerDecoder_decodeLength,
    parseConfirmedErrorLoop, parseServiceError, parseServiceErrorLoop, BerDecoder_decodeUint32,
    toInt32, UINT32_RANGE, h1, h2, h3]
  omega

/-! ### C12: the service-error table -/

/-- C12: for every service-error `(class, code)` the function
`convertServiceErrorToMmsError` returns the error that the table of the
specification gives: the one error of the classes `0, 1, 3, 4, 5, 6` whatever
the code, the named codes of the classes `2` (codes `1..6`), `7` (codes
`1..4`) and `11` (codes `1..9`) with the `Other` error of the class for any
other code, and `MMS_ERROR_OTHER` for every other class. -/
theorem C12_service_error_table (serviceError : MmsServiceError) :
    convertServiceErrorToMmsError serviceError
      = serviceErrorTable serviceError.errorClass serviceError.errorCode := by
  obtain ⟨errorClass, errorCode⟩ := serviceError
  unfold convertServiceErrorToMmsError
  split
  all_goals try (split)
  all_goals
    simp_all [serviceErrorTable, serviceErrorClasses, definitionErrorCodes, accessErrorCodes,
      fileErrorCodes, List.lookup, beq_false_of_ne]

/-! ### C13: the reject table -/

/-- C13: for every pair of integers `(type, reason)` the function
`convertRejectCodesToMmsError` returns the error that the reject table of the
specification gives: the entry of `(1,1)`, `(5,0)`, `(1,4)` or `(5,1)`, and
`MMS_ERROR_REJECT_OTHER` for every other pair. -/
theorem C13_reject_table (rejectType rejectReason : Int) :
    convertRejectCodesToMmsError rejectType rejectReason = rejectTable rejectType rejectReason ∧
    convertRejectCodesToMmsError 1 1 = MMS_ERROR_REJECT_UNRECOGNIZED_SERVICE ∧
    convertRejectCodesToMmsError 5 0 = MMS_ERROR_REJECT_UNKNOWN_PDU_TYPE ∧
    convertRejectCodesToMmsError 1 4 = MMS_ERROR_REJECT_REQUEST_INVALID_ARGUMENT ∧
    convertRejectCodesToMmsError 5 1 = MMS_ERROR_REJECT_INVALID_PDU ∧
    ((rejectType, rejectReason) ∉ [((1 : Int), (1 : Int)), (5, 0), (1, 4), (5, 1)] →
      convertRejectCodesToMmsError rejectType rejectReason = MMS_ERROR_REJECT_OTHER) := by
  refine ⟨?_, rfl, rfl, rfl, rfl, ?_⟩
  · unfold convertRejectCodesToMmsError rejectTable rejectCodePairs
    split_ifs with h1 h2 h3 h4
    · obtain ⟨rfl, rfl⟩ := h1; rfl
    · obtain ⟨rfl, rfl⟩ := h2; rfl
    · obtain ⟨rfl, rfl⟩ := h3; rfl
    · obtain ⟨rfl, rfl⟩ := h4; rfl
    · have e1 : ((rejectType, rejectReason) == ((1 : Int), (1 : Int))) = false :=
        beq_false_of_ne fun h => h1 (by simpa using h)
      have e2 : ((rejectType, rejectReason) == ((5 : Int), (0 : Int))) = false :=
        beq_false_of_ne fun h => h2 (by simpa using h)
      have e3 : ((rejectType, rejectReason) == ((1 : Int), (4 : Int))) = false :=
        beq_false_of_ne fun h => h3 (by simpa using h)
      have e4 : ((rejectType, rejectReason) == ((5 : Int), (1 : Int))) = false :=
        beq_false_of_ne fun h => h4 (by simpa using h)
      simp only [List.lookup, e1, e2, e3, e4, Option.getD_none]
  · intro h
    simp only [List.mem_cons, Prod.mk.injEq, List.mem_singleton, not_or, List.not_mem_nil,
      or_false] at h
    simp [convertRejectCodesToMmsError, h]

/-! ### C11: a reject for an asynchronous call -/

/-- The reject mapping never yields `MMS_ERROR_NONE`. -/
theorem convertRejectCodesToMmsError_ne_none (rejectType rejectReason : Int) :
    convertRejectCodesToMmsError rejectType rejectReason ≠ MMS_ERROR_NONE := by
  unfold convertRejectCodesToMmsError
  split_ifs <;> decide

/-- The slot found for `X` is the one that `removeOutstandingCall` frees. -/
theorem removeOutstandingCall_found (X : Nat) (calls : List MmsOutstandingCall) (i : Nat)
    (h : findOutstandingCall X calls = some i) :
    (removeOutstandingCall X calls).getD i MmsOutstandingCall.zero
      = { calls.getD i MmsOutstandingCall.zero with isUsed := false } := by
  induction calls generalizing i with
  | nil => simp [findOutstandingCall] at h
  | cons c rest ih =>
    by_cases hc : c.isUsed = true ∧ c.invokeId = X
    · simp [findOutstandingCall, hc] at h
      subst h
      simp [removeOutstandingCall, hc]
    · simp only [findOutstandingCall, hc, if_false, Option.map_eq_some'] at h
      obtain ⟨j, hj, rfl⟩ := h
      simpa [removeOutstandingCall, hc] using ih j hj

/-- With an error other than `MMS_ERROR_NONE` the handler of an asynchronous
call is called exactly once, with the invoke-id, the user parameter and that
error. -/
theorem handlerEvents_error (ext : Externals) (call : MmsOutstandingCall) (err : MmsError)
    (hasync : call.type ≠ MMS_CALL_TYPE_NONE) (herr : err ≠ MMS_ERROR_NONE) :
    ∃ result, handlerEvents ext call none 0 err
      = [Event.userCallback call.userCallback call.invokeId call.userParameter err result] := by
  unfold handlerEvents
  cases ht : call.type with
  | MMS_CALL_TYPE_NONE => exact absurd ht hasync
  | MMS_CALL_TYPE_READ_VARIABLE => exact ⟨HandlerResult.readVariable none, by simp [herr]⟩
  | MMS_CALL_TYPE_WRITE_VARIABLE =>
    exact ⟨HandlerResult.writeVariable ext.DATA_ACCESS_ERROR_NO_RESPONSE, by simp [herr]⟩
  | MMS_CALL_TYPE_WRITE_MULTIPLE_VARIABLES =>
    exact ⟨HandlerResult.writeMultipleVariables none, by simp [herr]⟩
  | MMS_CALL_TYPE_READ_NVL_DIRECTORY =>
    exact ⟨HandlerResult.readNVLDirectory none false, by simp [herr]⟩
  | MMS_CALL_TYPE_DEFINE_NVL => exact ⟨HandlerResult.genericService false, by simp [herr]⟩

/-- For every invoke-id, every reject type in `1..11` and every reject reason
of one byte below `128`, the PDU `rejectPdu` parses to exactly these values,
whatever the output variables held before. -/
theorem rejectPdu_parses (invokeId rejectType rejectReason before : Nat)
    (typeBefore reasonBefore : Int)
    (hid : invokeId < UINT32_RANGE) (h1 : 1 ≤ rejectType) (h11 : rejectType ≤ 11)
    (hreason : rejectReason < 128) :
    mmsMsg_parseRejectPDU (rejectPdu invokeId rejectType rejectReason) 0
        (rejectPdu invokeId rejectType rejectReason).length before typeBefore reasonBefore
      = some ⟨11, invokeId, rejectType, rejectReason⟩ := by
  unfold UINT32_RANGE at hid
  have e1 : (((invokeId / 16777216 % 256 % 4294967296 * 256 + invokeId / 65536 % 256)
      % 4294967296 * 256 + invokeId / 256 % 256) % 4294967296 * 256 + invokeId % 256)
      % 4294967296 = invokeId := by omega
  have e2 : rejectReason % 4294967296 = rejectReason := by omega
  have e3 : rejectReason % 4294967296 < 2147483648 := by omega
  have e4 : ¬ (128 + rejectType = 128) := by omega
  have e5 : 128 < 128 + rejectType ∧ 128 + rejectType < 140 := by omega
  have e6 : ¬ (128 ≤ rejectReason) := by omega
  simp [mmsMsg_parseRejectPDU, rejectPdu, byteAt, BerDecoder_decodeLength, parseRejectLoop,
    BerDecoder_decodeUint32, BerDecoder_decodeInt32, toInt32, UINT32_RANGE, e1, e2, e3, e4, e5,
    e6]
  omega

/-- C11: let a reject PDU parse to invoke-id `X`, reject type and reject
reason, and let the first used slot carrying `X` be that of an asynchronous
call. Then `mmsIsoCallback` returns after exactly one handler call, that of
the slot, with invoke-id `X`, the user parameter of the slot and the error of
the reject mapping, followed by the release of the receive buffer; the call is
removed from the table and its slot is free afterwards; and reject type `1`,
reason `1` completes the call with `MMS_ERROR_REJECT_UNRECOGNIZED_SERVICE`.
The PDU `rejectPdu X type reason` with type in `1..11` parses to these
values. -/
theorem C11_reject_async_call (ext : Externals) (env : CallbackEnv) (self : MmsConnection)
    (payload : ByteBuffer) (pdu : RejectPDU) (i : Nat)
    (hlock : self.outstandingCallsLock = false)
    (hparse : mmsMsg_parseRejectPDU payload 0 payload.length env.invokeId env.rejectType
      env.rejectReason = some pdu)
    (hcall : findOutstandingCall pdu.invokeId self.outstandingCalls = some i)
    (hasync : (slotAt self i).type ≠ MMS_CALL_TYPE_NONE) :
    (∃ result, mmsIsoCallback ext env ISO_IND_DATA self payload
      = .returned ()
          { self with
              outstandingCalls := removeOutstandingCall pdu.invokeId self.outstandingCalls,
              responseInvokeId := 0, lastResponseError := MMS_ERROR_NONE }
          [Event.userCallback (slotAt self i).userCallback pdu.invokeId
              (slotAt self i).userParameter
              (convertRejectCodesToMmsError pdu.rejectType pdu.rejectReason) result,
            Event.releaseReceiveBuffer]) ∧
    ((removeOutstandingCall pdu.invokeId self.outstandingCalls).getD i
        MmsOutstandingCall.zero).isUsed = false ∧
    (pdu.rejectType = 1 ∧ pdu.rejectReason = 1 →
      convertRejectCodesToMmsError pdu.rejectType pdu.rejectReason
        = MMS_ERROR_REJECT_UNRECOGNIZED_SERVICE) ∧
    (∀ X rejectType rejectReason : Nat, X < UINT32_RANGE → 1 ≤ rejectType → rejectType ≤ 11 →
      rejectReason < 128 →
      mmsMsg_parseRejectPDU (rejectPdu X rejectType rejectReason) 0
          (rejectPdu X rejectType rejectReason).length env.invokeId env.rejectType
          env.rejectReason
        = some ⟨11, X, rejectType, rejectReason⟩) := by
  have htag : byteAt payload 0 = 0xa4 := by
    by_contra h
    simp [mmsMsg_parseRejectPDU, h] at hparse
  have hne : ¬ payload.length < 1 := by
    intro hlen
    cases payload with
    | nil => simp [byteAt] at htag
    | cons b rest => simp at hlen
  have hnone := convertRejectCodesToMmsError_ne_none pdu.rejectType pdu.rejectReason
  have hslot := findOutstandingCall_some pdu.invokeId self.outstandingCalls i hcall
  obtain ⟨result, hresult⟩ := handlerEvents_error ext (slotAt self i)
    (convertRejectCodesToMmsError pdu.rejectType pdu.rejectReason) hasync hnone
  refine ⟨⟨result, ?_⟩, ?_, ?_, ?_⟩
  · have hid : (slotAt self i).invokeId = pdu.invokeId := hslot.2
    rw [hid] at hresult
    simp [mmsIsoCallback, tagDispatch, hne, htag, hparse, dispatchResponse,
      checkForOutstandingCall, hlock, hcall, hasync, handleAsyncResponse, hresult, hid,
      removeFromOutstandingCalls, releaseResponse, Outcome.andThen]
  · rw [removeOutstandingCall_found pdu.invokeId self.outstandingCalls i hcall]
  · rintro ⟨h1, h2⟩
    rw [h1, h2]
    rfl
  · intro X rejectType rejectReason hX h1 h11 hreason
    exact rejectPdu_parses X rejectType rejectReason env.invokeId env.rejectType
      env.rejectReason hX h1 h11 hreason

/-- C11 (witness): the reject `(1, 1)` for the first of five outstanding
asynchronous reads. -/
theorem C11_reject_async_call_witness :
    mmsIsoCallback sampleExternals (sampleEnv 0) ISO_IND_DATA fiveAsyncReads (rejectPdu 1 1 1)
      = .returned ()
          { fiveAsyncReads with
              outstandingCalls := removeOutstandingCall 1 fiveAsyncReads.outstandingCalls,
              responseInvokeId := 0, lastResponseError := MMS_ERROR_NONE }
          [Event.userCallback 10 1 11 MMS_ERROR_REJECT_UNRECOGNIZED_SERVICE
              (HandlerResult.readVariable none),
            Event.releaseReceiveBuffer] ∧
    ((removeOutstandingCall 1 fiveAsyncReads.outstandingCalls).getD 0
        MmsOutstandingCall.zero).isUsed = false := by
  have h := C11_reject_async_call sampleExternals (sampleEnv 0) fiveAsyncReads (rejectPdu 1 1 1)
    ⟨11, 1, 1, 1⟩ 0 (by decide) (by decide) (by decide) (by decide)
  exact ⟨by decide, h.2.1⟩

/-! ### C17: the result of connect -/

/-- The wait for the initiate response returns as soon as one test of the
loop succeeds, with the session of that test. -/
theorem waitForConnectResponseLoop_returns (waitUntilTime : Nat)
    (schedule : List (Nat × MmsConnection)) (currentTime : Nat) (self : MmsConnection)
    (h : ∃ obs ∈ (currentTime, self) :: schedule,
      pollConnectionState waitUntilTime obs.1 obs.2 = true) :
    ∃ obs ∈ (currentTime, self) :: schedule,
      pollConnectionState waitUntilTime obs.1 obs.2 = true ∧
      waitForConnectResponseLoop waitUntilTime currentTime self schedule
        = .returned () obs.2 [] := by
  induction schedule generalizing currentTime self with
  | nil =>
    obtain ⟨obs, hmem, hp⟩ := h
    simp only [List.mem_singleton] at hmem
    subst hmem
    exact ⟨(currentTime, self), by simp, hp, by simp [waitForConnectResponseLoop, hp]⟩
  | cons o rest ih =>
    obtain ⟨t, s⟩ := o
    by_cases hp : pollConnectionState waitUntilTime currentTime self = true
    · exact ⟨(currentTime, self), by simp, hp, by simp [waitForConnectResponseLoop, hp]⟩
    · have hrest : ∃ obs ∈ (t, s) :: rest,
          pollConnectionState waitUntilTime obs.1 obs.2 = true := by
        obtain ⟨obs, hmem, hobs⟩ := h
        rcases List.mem_cons.1 hmem with rfl | hmem
        · exact absurd hobs hp
        · exact ⟨obs, hmem, hobs⟩
      obtain ⟨obs, hmem, hobs, hret⟩ := ih t s hrest
      refine ⟨obs, List.mem_cons_of_mem _ hmem, hobs, ?_⟩
      simp only [waitForConnectResponseLoop, hp, Bool.false_eq_true, if_false]
      exact hret

/-- C17: when the clock passes the deadline or the connection state leaves
`MMS_CON_WAITING` within the schedule, `waitForConnectResponse` returns with
a session `s`, and `MmsConnection_connect` returns: if the connection state of
`s` is `MMS_CON_ASSOCIATED`, with `true`, `MMS_ERROR_NONE` and association
state `MMS_STATE_CONNECTED` (the shared slot released); in every other case
with `false`, `MMS_ERROR_CONNECTION_REJECTED` and association state
`MMS_STATE_CLOSED`; in both cases with connection state `MMS_CON_IDLE`. -/
theorem C17_connect_result (self : MmsConnection) (initiateRequest : ByteBuffer)
    (associated : MmsConnection) (currentTime : Nat) (schedule : List (Nat × MmsConnection))
    (hends : ∃ obs ∈ (currentTime, associated) :: schedule,
      pollConnectionState (currentTime + associated.requestTimeout) obs.1 obs.2 = true) :
    ∃ s, waitForConnectResponse associated currentTime schedule = .returned () s [] ∧
      (getConnectionState s = MMS_CON_ASSOCIATED →
        MmsConnection_connect self initiateRequest associated currentTime schedule
          = .returned (true, MMS_ERROR_NONE)
              { s with responseInvokeId := 0, lastResponseError := MMS_ERROR_NONE,
                       associationState := MMS_STATE_CONNECTED,
                       connectionState := MMS_CON_IDLE }
              [Event.allocateTransmitBuffer,
               Event.associate initiateRequest self.connectTimeout,
               Event.releaseReceiveBuffer]) ∧
      (getConnectionState s ≠ MMS_CON_ASSOCIATED →
        MmsConnection_connect self initiateRequest associated currentTime schedule
          = .returned (false, MMS_ERROR_CONNECTION_REJECTED)
              { s with associationState := MMS_STATE_CLOSED,
                       connectionState := MMS_CON_IDLE }
              [Event.allocateTransmitBuffer,
               Event.associate initiateRequest self.connectTimeout]) := by
  obtain ⟨obs, -, -, hret⟩ := waitForConnectResponseLoop_returns _ schedule currentTime
    associated hends
  refine ⟨obs.2, hret, ?_, ?_⟩
  · intro h
    simp [MmsConnection_connect, waitForConnectResponse, hret, h, Outcome.andThen,
      releaseResponse, setAssociationState, setConnectionState, getAssociationState]
  · intro h
    simp [MmsConnection_connect, waitForConnectResponse, hret, h, Outcome.andThen,
      setAssociationState, setConnectionState, getAssociationState]

/-- C17 (witness): the initiate response has arrived when the transport
returns from `associate`: connect returns `true` with the association up. -/
theorem C17_connect_result_witness :
    MmsConnection_connect MmsConnection_create [0xa8, 0x00]
        (mmsIsoCallback sampleExternals (sampleEnv 0) ISO_IND_ASSOCIATION_SUCCESS
          (setConnectionState MmsConnection_create MMS_CON_WAITING) [0xa9, 0x00]).state 0 []
      = .returned (true, MMS_ERROR_NONE)
          { MmsConnection_create with lastResponse := some [0xa9, 0x00],
                                      associationState := MMS_STATE_CONNECTED }
          [Event.allocateTransmitBuffer, Event.associate [0xa8, 0x00] 10000,
           Event.releaseReceiveBuffer] := by
  obtain ⟨s, hs, h1, -⟩ := C17_connect_result MmsConnection_create [0xa8, 0x00]
    (mmsIsoCallback sampleExternals (sampleEnv 0) ISO_IND_ASSOCIATION_SUCCESS
      (setConnectionState MmsConnection_create MMS_CON_WAITING) [0xa9, 0x00]).state 0 []
    ⟨_, List.mem_cons_self _ _, by decide⟩
  have hs1 : waitForConnectResponse
      (mmsIsoCallback sampleExternals (sampleEnv 0) ISO_IND_ASSOCIATION_SUCCESS
        (setConnectionState MmsConnection_create MMS_CON_WAITING) [0xa9, 0x00]).state 0 []
      = .returned ()
          (mmsIsoCallback sampleExternals (sampleEnv 0) ISO_IND_ASSOCIATION_SUCCESS
            (setConnectionState MmsConnection_create MMS_CON_WAITING) [0xa9, 0x00]).state
          [] := by decide
  rw [hs1] at hs
  simp only [Outcome.returned.injEq, true_and, and_true] at hs
  subst hs
  rw [h1 (by decide)]
  decide

/-- Without an answer until the deadline connect returns `false` with
`MMS_ERROR_CONNECTION_REJECTED`, association closed and connection idle. -/
theorem connect_without_answer :
    MmsConnection_connect MmsConnection_create [0xa8, 0x00]
        (setConnectionState MmsConnection_create MMS_CON_WAITING) 0
        [(5000, setConnectionState MmsConnection_create MMS_CON_WAITING)]
      = .returned (false, MMS_ERROR_CONNECTION_REJECTED) MmsConnection_create
          [Event.allocateTransmitBuffer, Event.associate [0xa8, 0x00] 10000] := by
  decide

/-! ### C18: the error of conclude -/

/-- The wait for the conclude answer returns as soon as one test of the loop
leaves it, with the session that this test yields. -/
theorem waitForConcludeResponse_returns (waitUntilTime : Nat)
    (schedule : List (Nat × MmsConnection)) (currentTime : Nat) (self : MmsConnection)
    (h : ∃ obs ∈ (currentTime, self) :: schedule,
      (pollConcludeState waitUntilTime obs.1 obs.2).isSome = true) :
    ∃ obs ∈ (currentTime, self) :: schedule, ∃ s,
      pollConcludeState waitUntilTime obs.1 obs.2 = some s ∧
      waitForConcludeResponse waitUntilTime currentTime self schedule = .returned () s [] := by
  induction schedule generalizing currentTime self with
  | nil =>
    obtain ⟨obs, hmem, hp⟩ := h
    simp only [List.mem_singleton] at hmem
    subst hmem
    obtain ⟨s, hs⟩ := Option.isSome_iff_exists.1 hp
    exact ⟨(currentTime, self), by simp, s, hs, by simp [waitForConcludeResponse, hs]⟩
  | cons o rest ih =>
    obtain ⟨t, s⟩ := o
    cases hp : pollConcludeState waitUntilTime currentTime self with
    | some s1 =>
      exact ⟨(currentTime, self), by simp, s1, hp, by simp [waitForConcludeResponse, hp]⟩
    | none =>
      have hrest : ∃ obs ∈ (t, s) :: rest,
          (pollConcludeState waitUntilTime obs.1 obs.2).isSome = true := by
        obtain ⟨obs, hmem, hobs⟩ := h
        rcases List.mem_cons.1 hmem with rfl | hmem
        · simp [hp] at hobs
        · exact ⟨obs, hmem, hobs⟩
      obtain ⟨obs, hmem, s1, hobs, hret⟩ := ih t s hrest
      refine ⟨obs, List.mem_cons_of_mem _ hmem, s1, hobs, ?_⟩
      simp only [waitForConcludeResponse, hp]
      exact hret

/-- The test of the conclude loop changes nothing but the slot error. -/
theorem pollConcludeState_states (waitUntilTime currentTime : Nat) (self s : MmsConnection)
    (h : pollConcludeState waitUntilTime currentTime self = some s) :
    s.concludeState = self.concludeState ∧ s.associationState = self.associationState ∧
      (currentTime < waitUntilTime → s = self) ∧
      (¬ currentTime < waitUntilTime → s.lastResponseError = MMS_ERROR_SERVICE_TIMEOUT) := by
  unfold pollConcludeState at h
  split_ifs at h with h1 h2 h3 <;> simp at h <;> subst h <;> simp [h1]

/-- C18 (counterexample): the conclude-response+ is processed during the last
sleep of the wait; the loop is left by the deadline and conclude returns
`MMS_ERROR_SERVICE_TIMEOUT` although the conclude state on return is
`CONCLUDE_STATE_ACCEPTED`. -/
theorem C18_accepted_after_deadline :
    ∃ s, MmsConnection_conclude connectedSession sampleConcludeRequest 0
        [(5000, concludeAccepted)]
      = .returned MMS_ERROR_SERVICE_TIMEOUT s
          [Event.allocateTransmitBuffer, Event.sendMessage sampleConcludeRequest,
           Event.releaseReceiveBuffer] ∧
      getConcludeState s = CONCLUDE_STATE_ACCEPTED := by
  refine ⟨{ concludeAccepted with connectionLostHandler := 0 }, by decide, by decide⟩

/-- C18: conclude called with the association up, with a schedule in which
the wait ends, returns; with `s` the session with which the wait returned
(its conclude and association state are those on return of conclude), the
error is `MMS_ERROR_CONCLUDE_REJECTED` when the conclude state is
`CONCLUDE_STATE_REJECTED`; `MMS_ERROR_CONNECTION_LOST` when it is neither
accepted nor rejected and the association is closed; and when it is
`CONCLUDE_STATE_ACCEPTED` the error is the slot error of `s`, which is
`MMS_ERROR_SERVICE_TIMEOUT` when the wait ended by the deadline, so
`MMS_ERROR_NONE` only if the slot held no error and the deadline did not
end the wait. -/
theorem C18_conclude_error (self : MmsConnection) (concludeMessage : ByteBuffer)
    (startTime : Nat) (schedule : List (Nat × MmsConnection))
    (hassoc : getAssociationState self = MMS_STATE_CONNECTED)
    (hends : ∃ obs ∈ (startTime, setConcludeState self CONCLUDE_STATE_REQUESTED) :: schedule,
      (pollConcludeState (startTime + self.requestTimeout) obs.1 obs.2).isSome = true) :
    ∃ obs ∈ (startTime, setConcludeState self CONCLUDE_STATE_REQUESTED) :: schedule, ∃ s,
      pollConcludeState (startTime + self.requestTimeout) obs.1 obs.2 = some s ∧
      MmsConnection_conclude self concludeMessage startTime schedule
        = .returned (concludeError s)
            { s with responseInvokeId := 0, lastResponseError := MMS_ERROR_NONE,
                     connectionLostHandler := 0 }
            [Event.allocateTransmitBuffer, Event.sendMessage concludeMessage,
             Event.releaseReceiveBuffer] ∧
      (getConcludeState s = CONCLUDE_STATE_REJECTED →
        concludeError s = MMS_ERROR_CONCLUDE_REJECTED) ∧
      (getConcludeState s ≠ CONCLUDE_STATE_ACCEPTED →
        getConcludeState s ≠ CONCLUDE_STATE_REJECTED →
        getAssociationState s = MMS_STATE_CLOSED →
        concludeError s = MMS_ERROR_CONNECTION_LOST) ∧
      (getConcludeState s = CONCLUDE_STATE_ACCEPTED →
        concludeError s = s.lastResponseError ∧
        (obs.1 < startTime + self.requestTimeout →
          concludeError s = obs.2.lastResponseError) ∧
        (¬ obs.1 < startTime + self.requestTimeout →
          concludeError s = MMS_ERROR_SERVICE_TIMEOUT)) := by
  obtain ⟨obs, hmem, s, hpoll, hret⟩ := waitForConcludeResponse_returns _ schedule startTime
    (setConcludeState self CONCLUDE_STATE_REQUESTED) hends
  have hstates := pollConcludeState_states _ _ _ _ hpoll
  have hne : ¬ getAssociationState self ≠ MMS_STATE_CONNECTED := by simp [hassoc]
  refine ⟨obs, hmem, s, hpoll, ?_, ?_, ?_, ?_⟩
  · simp [MmsConnection_conclude, hne, sendConcludeRequestAndWaitForResponse, hret,
      Outcome.andThen, releaseResponse]
  · intro h
    simp [concludeError, h]
  · intro h1 h2 h3
    simp [concludeError, h1, h2, h3]
  · intro h
    have hacc : concludeError s = s.lastResponseError := by
      unfold concludeError
      simp only [h, ne_eq, not_true_eq_false, if_false]
      split_ifs with h0
      · exact h0.symm
      · rfl
    refine ⟨hacc, ?_, ?_⟩
    · intro ht
      rw [hacc, hstates.2.2.1 ht]
    · intro ht
      rw [hacc, hstates.2.2.2 ht]

/-- C18 (witness): the conclude-response+ processed before the deadline;
conclude returns `MMS_ERROR_NONE`. -/
theorem C18_conclude_error_witness :
    (∃ s, MmsConnection_conclude connectedSession sampleConcludeRequest 0
        [(1, concludeAccepted)]
      = .returned (concludeError s)
          { s with responseInvokeId := 0, lastResponseError := MMS_ERROR_NONE,
                   connectionLostHandler := 0 }
          [Event.allocateTransmitBuffer, Event.sendMessage sampleConcludeRequest,
           Event.releaseReceiveBuffer]) ∧
    (MmsConnection_conclude connectedSession sampleConcludeRequest 0
        [(1, concludeAccepted)]).returnedValue = some MMS_ERROR_NONE := by
  obtain ⟨obs, -, s, -, hret, -, -, -⟩ := C18_conclude_error connectedSession
    sampleConcludeRequest 0 [(1, concludeAccepted)] (by decide)
    ⟨(1, concludeAccepted), by simp, by decide⟩
  exact ⟨⟨s, hret⟩, by decide⟩

/-! ### C19: conclude without an association -/

/-- C19: `MmsConnection_conclude` called while the association state is not
`MMS_STATE_CONNECTED` returns `MMS_ERROR_CONNECTION_LOST` with no event (no
transmit buffer, nothing sent) and the session unchanged: conclude state,
shared response slot and connection-lost handler are as before. -/
theorem C19_conclude_not_connected (self : MmsConnection) (concludeMessage : ByteBuffer)
    (startTime : Nat) (schedule : List (Nat × MmsConnection))
    (hassoc : getAssociationState self ≠ MMS_STATE_CONNECTED) :
    MmsConnection_conclude self concludeMessage startTime schedule
      = .returned MMS_ERROR_CONNECTION_LOST self [] := by
  simp [MmsConnection_conclude, hassoc]

/-- C19 (witness): conclude on a session that has just been created. -/
theorem C19_conclude_not_connected_witness :
    MmsConnection_conclude { MmsConnection_create with connectionLostHandler := 5 }
        sampleConcludeRequest 0 []
      = .returned MMS_ERROR_CONNECTION_LOST
          { MmsConnection_create with connectionLostHandler := 5 } [] :=
  C19_conclude_not_connected { MmsConnection_create with connectionLostHandler := 5 }
    sampleConcludeRequest 0 [] (by decide)

/-! ### C20: the association state after a conclude handshake -/

/-- The wait of conclude returns or blocks with the association state of a
session that the thread found: its own at the start or one of the schedule. -/
theorem waitForConcludeResponse_association (waitUntilTime : Nat)
    (schedule : List (Nat × MmsConnection)) (currentTime : Nat) (self : MmsConnection) :
    (waitForConcludeResponse waitUntilTime currentTime self schedule).state.associationState
        = self.associationState ∨
      ∃ obs ∈ schedule,
        (waitForConcludeResponse waitUntilTime currentTime self
          schedule).state.associationState = obs.2.associationState := by
  induction schedule generalizing currentTime self with
  | nil =>
    left
    cases hp : pollConcludeState waitUntilTime currentTime self with
    | none => simp [waitForConcludeResponse, hp, Outcome.state]
    | some s =>
      simp only [waitForConcludeResponse, hp, Outcome.state]
      exact (pollConcludeState_states _ _ _ _ hp).2.1
  | cons o rest ih =>
    obtain ⟨t, s⟩ := o
    cases hp : pollConcludeState waitUntilTime currentTime self with
    | some s1 =>
      left
      simp only [waitForConcludeResponse, hp, Outcome.state]
      exact (pollConcludeState_states _ _ _ _ hp).2.1
    | none =>
      right
      simp only [waitForConcludeResponse, hp]
      rcases ih t s with h | ⟨obs, hmem, h⟩
      · exact ⟨(t, s), by simp, h⟩
      · exact ⟨obs, List.mem_cons_of_mem _ hmem, h⟩

/-- A continuation that keeps the association state does not change the
association state of the sequence. -/
theorem Outcome.andThen_association {α β : Type} (o : Outcome α)
    (k : α → MmsConnection → Outcome β)
    (hk : ∀ v t, (k v t).state.associationState = t.associationState) :
    (o.andThen k).state.associationState = o.state.associationState := by
  cases o with
  | blocked c s e => rfl
  | returned v s e =>
    rw [Outcome.andThen_state_returned, hk]
    rfl

/-- Conclude never writes the association state: on return (or where it
blocks) the association state is that of a session the thread found. -/
theorem MmsConnection_conclude_association (self : MmsConnection) (concludeMessage : ByteBuffer)
    (startTime : Nat) (schedule : List (Nat × MmsConnection)) :
    (MmsConnection_conclude self concludeMessage startTime schedule).state.associationState
        = self.associationState ∨
      ∃ obs ∈ schedule,
        (MmsConnection_conclude self concludeMessage startTime
          schedule).state.associationState = obs.2.associationState := by
  unfold MmsConnection_conclude
  split_ifs with hassoc
  · left
    rfl
  · rw [Outcome.andThen_association _
      (fun _ s => Outcome.returned (concludeError s)
        { (releaseResponse s).1 with connectionLostHandler := 0 } (releaseResponse s).2)
      (fun _ _ => rfl)]
    unfold sendConcludeRequestAndWaitForResponse
    rw [Outcome.andThen_state_returned]
    exact waitForConcludeResponse_association _ schedule startTime
      (setConcludeState self CONCLUDE_STATE_REQUESTED)

/-- C20 (counterexample): the conclude-response- and the conclude-response+
have been processed and conclude has returned (with
`MMS_ERROR_CONCLUDE_REJECTED`, with `MMS_ERROR_NONE`); the association state
is still `MMS_STATE_CONNECTED`. -/
theorem C20_association_stays_connected :
    (∃ s, MmsConnection_conclude connectedSession sampleConcludeRequest 0
        [(1, concludeRejected)]
      = .returned MMS_ERROR_CONCLUDE_REJECTED s
          [Event.allocateTransmitBuffer, Event.sendMessage sampleConcludeRequest,
           Event.releaseReceiveBuffer] ∧
      getConcludeState s = CONCLUDE_STATE_REJECTED ∧
      getAssociationState s = MMS_STATE_CONNECTED) ∧
    (∃ s, MmsConnection_conclude connectedSession sampleConcludeRequest 0
        [(1, concludeAccepted)]
      = .returned MMS_ERROR_NONE s
          [Event.allocateTransmitBuffer, Event.sendMessage sampleConcludeRequest,
           Event.releaseReceiveBuffer] ∧
      getConcludeState s = CONCLUDE_STATE_ACCEPTED ∧
      getAssociationState s = MMS_STATE_CONNECTED) := by
  exact ⟨⟨{ concludeRejected with connectionLostHandler := 0 }, by decide, by decide,
      by decide⟩,
    ⟨{ concludeAccepted with connectionLostHandler := 0 }, by decide, by decide, by decide⟩⟩

/-- C20: a payload that starts with `0x8c` (conclude-response+) sets the
conclude state to `CONCLUDE_STATE_ACCEPTED` and calls
`IsoClientConnection_release`; one that starts with `0x8d`
(conclude-response-) sets it to `CONCLUDE_STATE_REJECTED`; both release the
receive buffer and leave the association state as it was. Conclude does not
write the association state either: on return it is that of a session the
thread found, its own at the call or one of the schedule. The indications
`ISO_IND_CLOSED` and `ISO_IND_ASSOCIATION_FAILED` set the association state
to `MMS_STATE_CLOSED`. -/
theorem C20_conclude_keeps_association (ext : Externals) (env : CallbackEnv)
    (self : MmsConnection) (payload : ByteBuffer)
    (htag : byteAt payload 0 = 0x8c ∨ byteAt payload 0 = 0x8d) :
    mmsIsoCallback ext env ISO_IND_DATA self payload
      = .returned ()
          { self with concludeState :=
              if byteAt payload 0 = 0x8c then CONCLUDE_STATE_ACCEPTED
              else CONCLUDE_STATE_REJECTED }
          (if byteAt payload 0 = 0x8c then [Event.isoRelease, Event.releaseReceiveBuffer]
            else [Event.releaseReceiveBuffer]) ∧
    (mmsIsoCallback ext env ISO_IND_DATA self payload).state.associationState
      = self.associationState ∧
    (∀ (concludeMessage : ByteBuffer) (startTime : Nat) (schedule : List (Nat × MmsConnection)),
      (MmsConnection_conclude self concludeMessage startTime schedule).state.associationState
          = self.associationState ∨
        ∃ obs ∈ schedule,
          (MmsConnection_conclude self concludeMessage startTime
            schedule).state.associationState = obs.2.associationState) ∧
    (mmsIsoCallback ext env ISO_IND_CLOSED self payload).state.associationState
      = MMS_STATE_CLOSED ∧
    (mmsIsoCallback ext env ISO_IND_ASSOCIATION_FAILED self payload).state.associationState
      = MMS_STATE_CLOSED := by
  have hne : ¬ payload.length < 1 := by
    intro hlen
    cases payload with
    | nil => rcases htag with h | h <;> simp [byteAt] at h
    | cons b rest => simp at hlen
  have hcb : mmsIsoCallback ext env ISO_IND_DATA self payload
      = .returned ()
          { self with concludeState :=
              if byteAt payload 0 = 0x8c then CONCLUDE_STATE_ACCEPTED
              else CONCLUDE_STATE_REJECTED }
          (if byteAt payload 0 = 0x8c then [Event.isoRelease, Event.releaseReceiveBuffer]
            else [Event.releaseReceiveBuffer]) := by
    rcases htag with h | h <;> simp [mmsIsoCallback, tagDispatch, hne, h]
  refine ⟨hcb, ?_, ?_, ?_, ?_⟩
  · rw [hcb]
    rfl
  · intro concludeMessage startTime schedule
    exact MmsConnection_conclude_association self concludeMessage startTime schedule
  · simp [mmsIsoCallback, Outcome.state]
  · simp [mmsIsoCallback, Outcome.state]

/-- C20 (witness): the conclude-response+ `8c 00` on the session that waits
for the answer to its conclude request. -/
theorem C20_conclude_keeps_association_witness :
    mmsIsoCallback sampleExternals (sampleEnv 1) ISO_IND_DATA concludePending [0x8c, 0x00]
      = .returned () { concludePending with concludeState := CONCLUDE_STATE_ACCEPTED }
          [Event.isoRelease, Event.releaseReceiveBuffer] ∧
    (mmsIsoCallback sampleExternals (sampleEnv 1) ISO_IND_DATA concludePending
        [0x8c, 0x00]).state.associationState = MMS_STATE_CONNECTED :=
  ⟨(C20_conclude_keeps_association sampleExternals (sampleEnv 1) concludePending [0x8c, 0x00]
      (Or.inl (by decide))).1,
   (C20_conclude_keeps_association sampleExternals (sampleEnv 1) concludePending [0x8c, 0x00]
      (Or.inl (by decide))).2.1⟩

/-! ### C14: a transport close while a synchronous call is pending -/

/-- While every test of the loop ends in the sleep, the loop goes on with the
rest of the schedule. -/
theorem waitForResponse_append (invokeId waitUntilTime : Nat) (pre : List (Nat × MmsConnection))
    (currentTime : Nat) (self : MmsConnection) (t : Nat) (s : MmsConnection)
    (rest : List (Nat × MmsConnection))
    (hpre : ∀ obs ∈ (currentTime, self) :: pre,
      pollResponse invokeId waitUntilTime obs.1 obs.2 = none) :
    waitForResponse invokeId waitUntilTime currentTime self (pre ++ (t, s) :: rest)
      = waitForResponse invokeId waitUntilTime t s rest := by
  induction pre generalizing currentTime self with
  | nil =>
    have h := hpre (currentTime, self) (by simp)
    simp only [List.nil_append, waitForResponse]
    rw [h]
  | cons o pre ih =>
    obtain ⟨t1, s1⟩ := o
    have h := hpre (currentTime, self) (by simp)
    simp only [List.cons_append, waitForResponse]
    rw [h]
    exact ih t1 s1 (fun obs hobs => hpre obs (List.mem_cons_of_mem _ hobs))

/-- C14 (counterexample): a synchronous read is pending when the transport
closes. The Closed indication calls no handler, so the read stays blocked on
its semaphore; when a Tick after the deadline of the call follows, the handler
is called with `MMS_ERROR_SERVICE_TIMEOUT` and the read returns that error,
not `MMS_ERROR_CONNECTION_LOST`. -/
theorem C14_read_not_connection_lost :
    MmsConnection_readVariable connectedSession (fun i => [i]) 7 8 100
        (mmsIsoCallback sampleExternals (sampleEnv 200) ISO_IND_CLOSED readVariablePending
          []).trace
      = .blocked .responseSemaphore readVariablePending
          [Event.allocateTransmitBuffer, Event.sendMessage [1]] ∧
    MmsConnection_readVariable connectedSession (fun i => [i]) 7 8 100
        ((mmsIsoCallback sampleExternals (sampleEnv 200) ISO_IND_CLOSED readVariablePending
            []).trace ++
          (mmsIsoCallback sampleExternals (sampleEnv 6000) ISO_IND_TICK
            (mmsIsoCallback sampleExternals (sampleEnv 200) ISO_IND_CLOSED readVariablePending
              []).state []).trace)
      = .returned (none, MMS_ERROR_SERVICE_TIMEOUT) readVariablePending
          [Event.allocateTransmitBuffer, Event.sendMessage [1]] := by
  constructor <;> decide

/-- C14: a service built on `sendRequestAndWaitForResponse` that is polling
for the response to `invokeId` (every test so far ended in the sleep) and then
finds, before its deadline, the association state `MMS_STATE_CLOSED`, leaves
the loop, removes its call from the table and returns no message and
`MMS_ERROR_CONNECTION_LOST`; found at or after the deadline, the closed
association gives `MMS_ERROR_SERVICE_TIMEOUT`. The indication `ISO_IND_CLOSED`
sets the association state to `MMS_STATE_CLOSED` and calls no handler of a
read; `MmsConnection_readVariable`, once its request is sent, returns what the
first call of its handler stored and stays blocked without one. -/
theorem C14_connection_lost_sync (invokeId waitUntilTime : Nat)
    (pre : List (Nat × MmsConnection)) (currentTime : Nat) (self : MmsConnection) (t : Nat)
    (s : MmsConnection) (rest : List (Nat × MmsConnection))
    (hpre : ∀ obs ∈ (currentTime, self) :: pre,
      pollResponse invokeId waitUntilTime obs.1 obs.2 = none)
    (hclosed : s.associationState = MMS_STATE_CLOSED)
    (hlock : s.outstandingCallsLock = false) :
    (t < waitUntilTime →
      waitForResponse invokeId waitUntilTime currentTime self (pre ++ (t, s) :: rest)
        = .returned ⟨none, MMS_ERROR_CONNECTION_LOST⟩
            { s with outstandingCalls := removeOutstandingCall invokeId s.outstandingCalls }
            []) ∧
    (¬ t < waitUntilTime →
      waitForResponse invokeId waitUntilTime currentTime self (pre ++ (t, s) :: rest)
        = .returned ⟨none, MMS_ERROR_SERVICE_TIMEOUT⟩
            { s with outstandingCalls := removeOutstandingCall invokeId s.outstandingCalls }
            []) ∧
    (∀ (ext : Externals) (env : CallbackEnv) (found : MmsConnection) (payload : ByteBuffer)
        (handler parameter : Nat),
      (mmsIsoCallback ext env ISO_IND_CLOSED found payload).state.associationState
          = MMS_STATE_CLOSED ∧
        (mmsIsoCallback ext env ISO_IND_CLOSED found payload).trace.findSome?
          (readVariableHandler handler parameter) = none) ∧
    (∀ (session : MmsConnection) (request : Nat → ByteBuffer) (handler parameter now : Nat)
        (later : List Event) (id : Nat) (sent : MmsConnection) (events : List Event),
      MmsConnection_readVariableAsync session request handler parameter now
          = .returned (id, MMS_ERROR_NONE) sent events →
        MmsConnection_readVariable session request handler parameter now later
          = match later.findSome? (readVariableHandler handler parameter) with
            | some (err, value) => .returned (value, err) sent events
            | none => .blocked .responseSemaphore sent events) := by
  refine ⟨?_, ?_, ?_, ?_⟩
  · intro ht
    rw [waitForResponse_append invokeId waitUntilTime pre currentTime self t s rest hpre]
    cases rest <;>
      simp [waitForResponse, pollResponse, ht, hclosed, removeFromOutstandingCalls, hlock,
        Outcome.andThen]
  · intro ht
    rw [waitForResponse_append invokeId waitUntilTime pre currentTime self t s rest hpre]
    cases rest <;>
      simp [waitForResponse, pollResponse, ht, removeFromOutstandingCalls, hlock,
        Outcome.andThen]
  · intro ext env found payload handler parameter
    have hcb : mmsIsoCallback ext env ISO_IND_CLOSED found payload
        = .returned ()
            { found with connectionState := MMS_CON_IDLE,
                         associationState := MMS_STATE_CLOSED }
            (if found.connectionLostHandler ≠ 0 then
              [Event.connectionLost found.connectionLostHandler
                found.connectionLostHandlerParameter]
             else []) := by
      simp [mmsIsoCallback]
    rw [hcb]
    constructor
    · rfl
    · simp only [Outcome.trace]
      split_ifs <;> simp [readVariableHandler]
  · intro session request handler parameter now later id sent events hsent
    simp only [MmsConnection_readVariable, hsent, Outcome.andThen]
    cases later.findSome? (readVariableHandler handler parameter) with
    | none => simp
    | some r => simp

/-- C14 (witness): the identify call of `syncCallPending` finds the
association closed at its second test. -/
theorem C14_connection_lost_sync_witness :
    waitForResponse 1 5100 100 syncCallPending ([] ++ (110, syncCallClosed) :: [])
      = .returned ⟨none, MMS_ERROR_CONNECTION_LOST⟩
          { syncCallClosed with
              outstandingCalls := removeOutstandingCall 1 syncCallClosed.outstandingCalls }
          [] :=
  (C14_connection_lost_sync 1 5100 [] 100 syncCallPending 110 syncCallClosed []
    (by decide) (by decide) (by decide)).1 (by decide)

/-! ### C15: a service call without an association -/

/-- C15: `MmsConnection_getServerStatus` and `MmsConnection_writeVariable`,
called on a created session whose association is closed, do not test the
association state: they take a transmit buffer, consume invoke-id `1`, enter
the call into the table and send the request; the error
`MMS_ERROR_CONNECTION_LOST` comes from the first test of the polling loop (and
is `MMS_ERROR_SERVICE_TIMEOUT` with `requestTimeout = 0`).
`MmsConnection_identify`, which tests the association state first, returns
`MMS_ERROR_CONNECTION_LOST` with the session unchanged and no event. -/
theorem C15_request_sent_without_association :
    getAssociationState MmsConnection_create = MMS_STATE_CLOSED ∧
    (MmsConnection_getServerStatus sampleExternals MmsConnection_create (fun i => [0xa0, i])
        100 100 []).returnedValue = some MMS_ERROR_CONNECTION_LOST ∧
    (MmsConnection_getServerStatus sampleExternals MmsConnection_create (fun i => [0xa0, i])
        100 100 []).trace
      = [Event.allocateTransmitBuffer, Event.sendMessage [0xa0, 1],
         Event.releaseReceiveBuffer] ∧
    (MmsConnection_getServerStatus sampleExternals MmsConnection_create (fun i => [0xa0, i])
        100 100 []).state.lastInvokeId = 1 ∧
    ((MmsConnection_getServerStatus sampleExternals MmsConnection_create (fun i => [0xa0, i])
        100 100 []).state.outstandingCalls.getD 0 MmsOutstandingCall.zero).invokeId = 1 ∧
    (MmsConnection_writeVariable sampleExternals (-1) MmsConnection_create
        (fun i => [0xa0, i]) 100 100 []).returnedValue
      = some (-1, MMS_ERROR_CONNECTION_LOST) ∧
    (MmsConnection_writeVariable sampleExternals (-1) MmsConnection_create
        (fun i => [0xa0, i]) 100 100 []).trace
      = [Event.allocateTransmitBuffer, Event.sendMessage [0xa0, 1],
         Event.releaseReceiveBuffer] ∧
    (MmsConnection_getServerStatus sampleExternals
        { MmsConnection_create with requestTimeout := 0 } (fun i => [0xa0, i])
        100 100 []).returnedValue = some MMS_ERROR_SERVICE_TIMEOUT ∧
    MmsConnection_identify sampleExternals MmsConnection_create (fun i => [0xa0, i]) 100 100 []
      = .returned (none, MMS_ERROR_CONNECTION_LOST) MmsConnection_create [] := by
  refine ⟨by decide, by decide, by decide, by decide, by decide, by decide, by decide,
    by decide, by decide⟩

/-! ### C16: a response body that does not decode -/

/-- C16: with decoders that fail on the response body, the confirmed-response
for an outstanding asynchronous read calls the handler with `MMS_ERROR_NONE`
and the value `NULL`, and `MmsConnection_deleteNamedVariableList` returns
`false` with `MMS_ERROR_NONE`; on the same response
`MmsConnection_getServerStatus` returns `MMS_ERROR_PARSING_RESPONSE`, and so
does the handler call of a define-named-variable-list call. -/
theorem C16_decode_failure_reported_as_none :
    failingExternals.mmsClient_parseReadResponse (readResponse 1 22) = none ∧
    (mmsIsoCallback failingExternals (sampleEnv 105) ISO_IND_DATA fiveAsyncReads
        (readResponse 1 22)).trace
      = [Event.userCallback 10 1 11 MMS_ERROR_NONE (HandlerResult.readVariable none),
         Event.releaseReceiveBuffer] ∧
    (MmsConnection_deleteNamedVariableList (fun _ => false) connectedSession (fun i => [i])
        100 100 [(110, syncCallAnswered)]).returnedValue = some (false, MMS_ERROR_NONE) ∧
    (MmsConnection_getServerStatus failingExternals connectedSession (fun i => [i])
        100 100 [(110, syncCallAnswered)]).returnedValue = some MMS_ERROR_PARSING_RESPONSE ∧
    handlerEvents failingExternals
        { isUsed := true, invokeId := 1, timeout := 5100, type := MMS_CALL_TYPE_DEFINE_NVL,
          userCallback := 10, userParameter := 11 }
        (some (readResponse 1 22)) 5 MMS_ERROR_NONE
      = [Event.userCallback 10 1 11 MMS_ERROR_PARSING_RESPONSE
          (HandlerResult.genericService false)] := by
  refine ⟨by decide, by decide, by decide, by decide, by decide⟩

/-! ### C22: the insert into the table -/

/-- A table with an unused slot: the insert writes the entry into the unused
slot of lowest index and into no other. -/
theorem insertOutstandingCall_lowest (entry : MmsOutstandingCall)
    (calls : List MmsOutstandingCall) (h : ∃ c ∈ calls, c.isUsed = false) :
    ∃ i, i < calls.length ∧ (calls.getD i MmsOutstandingCall.zero).isUsed = false ∧
      (∀ j, j < i → (calls.getD j MmsOutstandingCall.zero).isUsed = true) ∧
      insertOutstandingCall entry calls = some (calls.set i entry) := by
  induction calls with
  | nil => simp at h
  | cons c rest ih =>
    by_cases hc : c.isUsed = false
    · exact ⟨0, by simp, by simpa using hc, by simp, by simp [insertOutstandingCall, hc]⟩
    · have hrest : ∃ d ∈ rest, d.isUsed = false := by
        obtain ⟨d, hd, hdu⟩ := h
        rcases List.mem_cons.1 hd with rfl | hd
        · exact absurd hdu hc
        · exact ⟨d, hd, hdu⟩
      obtain ⟨i, hi, hfree, hfirst, hins⟩ := ih hrest
      refine ⟨i + 1, by simpa using hi, by simpa using hfree, ?_, ?_⟩
      · intro j hj
        cases j with
        | zero => simpa using hc
        | succ k => simpa using hfirst k (by omega)
      · simp [insertOutstandingCall, hc, hins]

/-- C22: with the table lock free and at least one unused slot,
`addToOutstandingCalls` returns `true` with no event; there is an index `i`
of an unused slot with every slot below it in use, and the table afterwards is
the table before with slot `i` replaced by the entry (fields in the order `isUsed`,
`invokeId`, `timeout`, `type`, `userCallback`, `userParameter`) in use with
the given invoke-id, type, callback and parameter and the deadline
`now + requestTimeout`; every other slot and the rest of the session are
unchanged. -/
theorem C22_insert_lowest_free_slot (self : MmsConnection) (invokeId : Nat)
    (type : eMmsOutstandingCallType) (userCallback userParameter now : Nat)
    (hlock : self.outstandingCallsLock = false)
    (hfree : ∃ c ∈ self.outstandingCalls, c.isUsed = false) :
    ∃ i, i < self.outstandingCalls.length ∧ (slotAt self i).isUsed = false ∧
      (∀ j, j < i → (slotAt self j).isUsed = true) ∧
      addToOutstandingCalls self invokeId type userCallback userParameter now
        = .returned true
            { self with outstandingCalls :=
                (self.outstandingCalls.set i
                  ⟨true, invokeId, now + self.requestTimeout, type, userCallback,
                    userParameter⟩) } [] ∧
      (∀ j, j ≠ i →
        slotAt (addToOutstandingCalls self invokeId type userCallback userParameter now).state j
          = slotAt self j) ∧
      slotAt (addToOutstandingCalls self invokeId type userCallback userParameter now).state i
        = { isUsed := true, invokeId := invokeId, timeout := now + self.requestTimeout,
            type := type, userCallback := userCallback, userParameter := userParameter } := by
  obtain ⟨i, hi, hfreei, hfirst, hins⟩ := insertOutstandingCall_lowest
    { isUsed := true, invokeId := invokeId, timeout := now + self.requestTimeout,
      type := type, userCallback := userCallback, userParameter := userParameter }
    self.outstandingCalls hfree
  have hadd : addToOutstandingCalls self invokeId type userCallback userParameter now
      = .returned true
          { self with outstandingCalls :=
              (self.outstandingCalls.set i
                ⟨true, invokeId, now + self.requestTimeout, type, userCallback,
                  userParameter⟩) } [] := by
    simp [addToOutstandingCalls, hlock, hins]
  refine ⟨i, hi, hfreei, hfirst, hadd, ?_, ?_⟩
  · intro j hj
    rw [hadd]
    simp only [Outcome.state, slotAt, List.getD_eq_getElem?_getD]
    rw [List.getElem?_set_ne (Ne.symm hj)]
  · rw [hadd]
    simp only [Outcome.state, slotAt, List.getD_eq_getElem?_getD]
    rw [List.getElem?_set_self hi]
    rfl

/-- C22 (witness): the sixth request on a table whose first five slots are
in use takes slot `5`. -/
theorem C22_insert_lowest_free_slot_witness :
    ∃ i, i < fiveAsyncReads.outstandingCalls.length ∧ (slotAt fiveAsyncReads i).isUsed = false ∧
      (∀ j, j < i → (slotAt fiveAsyncReads j).isUsed = true) ∧
      addToOutstandingCalls fiveAsyncReads 6 MMS_CALL_TYPE_WRITE_VARIABLE 60 61 200
        = .returned true
            { fiveAsyncReads with outstandingCalls :=
                (fiveAsyncReads.outstandingCalls.set i
                  ⟨true, 6, 200 + fiveAsyncReads.requestTimeout, MMS_CALL_TYPE_WRITE_VARIABLE,
                    60, 61⟩) } [] := by
  obtain ⟨i, h1, h2, h3, h4, -, -⟩ := C22_insert_lowest_free_slot fiveAsyncReads 6
    MMS_CALL_TYPE_WRITE_VARIABLE 60 61 200 (by decide)
    ⟨MmsOutstandingCall.zero, by decide, by decide⟩
  exact ⟨i, h1, h2, h3, h4⟩

/-! ### C25: the transport-status transitions -/

/-- C25: the indication `ISO_IND_CLOSED` sets the connection state to
`MMS_CON_IDLE` and the association state to `MMS_STATE_CLOSED` and calls the
connection-lost handler exactly when one is set; `ISO_IND_ASSOCIATION_FAILED`
sets them to `MMS_CON_ASSOCIATION_FAILED` and `MMS_STATE_CLOSED` with no
event; a payload that starts with `0xa9`, delivered with
`ISO_IND_ASSOCIATION_SUCCESS` or `ISO_IND_DATA`, sets the connection state to
`MMS_CON_ASSOCIATED` for the former and to `MMS_CON_ASSOCIATION_FAILED` for
the latter, keeps the payload as `lastResponse` and releases the receive
buffer, the association state staying as it was. In all three the table, the
conclude state and the invoke-id counter are those of the session before. -/
theorem C25_transport_status_transitions (ext : Externals) (env : CallbackEnv)
    (self : MmsConnection) (payload : ByteBuffer) :
    mmsIsoCallback ext env ISO_IND_CLOSED self payload
      = .returned ()
          { self with connectionState := MMS_CON_IDLE, associationState := MMS_STATE_CLOSED }
          (if self.connectionLostHandler ≠ 0 then
            [Event.connectionLost self.connectionLostHandler
              self.connectionLostHandlerParameter]
           else []) ∧
    mmsIsoCallback ext env ISO_IND_ASSOCIATION_FAILED self payload
      = .returned ()
          { self with connectionState := MMS_CON_ASSOCIATION_FAILED,
                      associationState := MMS_STATE_CLOSED } [] ∧
    (byteAt payload 0 = 0xa9 →
      mmsIsoCallback ext env ISO_IND_ASSOCIATION_SUCCESS self payload
        = .returned () { self with connectionState := MMS_CON_ASSOCIATED,
                                   lastResponse := some payload }
            [Event.releaseReceiveBuffer] ∧
      mmsIsoCallback ext env ISO_IND_DATA self payload
        = .returned () { self with connectionState := MMS_CON_ASSOCIATION_FAILED,
                                   lastResponse := some payload }
            [Event.releaseReceiveBuffer]) ∧
    (∀ indication, indication = ISO_IND_CLOSED ∨ indication = ISO_IND_ASSOCIATION_FAILED ∨
        ((indication = ISO_IND_ASSOCIATION_SUCCESS ∨ indication = ISO_IND_DATA) ∧
          byteAt payload 0 = 0xa9) →
      (mmsIsoCallback ext env indication self payload).state.outstandingCalls
          = self.outstandingCalls ∧
        (mmsIsoCallback ext env indication self payload).state.concludeState
          = self.concludeState ∧
        (mmsIsoCallback ext env indication self payload).state.lastInvokeId
          = self.lastInvokeId) := by
  have hclosed : mmsIsoCallback ext env ISO_IND_CLOSED self payload
      = .returned ()
          { self with connectionState := MMS_CON_IDLE, associationState := MMS_STATE_CLOSED }
          (if self.connectionLostHandler ≠ 0 then
            [Event.connectionLost self.connectionLostHandler
              self.connectionLostHandlerParameter]
           else []) := by
    simp [mmsIsoCallback]
  have hfailed : mmsIsoCallback ext env ISO_IND_ASSOCIATION_FAILED self payload
      = .returned ()
          { self with connectionState := MMS_CON_ASSOCIATION_FAILED,
                      associationState := MMS_STATE_CLOSED } [] := by
    simp [mmsIsoCallback]
  have hinit : byteAt payload 0 = 0xa9 →
      mmsIsoCallback ext env ISO_IND_ASSOCIATION_SUCCESS self payload
        = .returned () { self with connectionState := MMS_CON_ASSOCIATED,
                                   lastResponse := some payload }
            [Event.releaseReceiveBuffer] ∧
      mmsIsoCallback ext env ISO_IND_DATA self payload
        = .returned () { self with connectionState := MMS_CON_ASSOCIATION_FAILED,
                                   lastResponse := some payload }
            [Event.releaseReceiveBuffer] := by
    intro htag
    have hne : ¬ payload.length < 1 := by
      intro hlen
      cases payload with
      | nil => simp [byteAt] at htag
      | cons b rest => simp at hlen
    constructor <;> simp [mmsIsoCallback, tagDispatch, hne, htag]
  refine ⟨hclosed, hfailed, hinit, ?_⟩
  rintro indication (rfl | rfl | ⟨rfl | rfl, htag⟩)
  · rw [hclosed]; exact ⟨rfl, rfl, rfl⟩
  · rw [hfailed]; exact ⟨rfl, rfl, rfl⟩
  · rw [(hinit htag).1]; exact ⟨rfl, rfl, rfl⟩
  · rw [(hinit htag).2]; exact ⟨rfl, rfl, rfl⟩

/-- C25 (witness): the initiate response `a9 00` arriving with the
association-success indication at a session that waits for it. -/
theorem C25_transport_status_transitions_witness :
    mmsIsoCallback sampleExternals (sampleEnv 0) ISO_IND_ASSOCIATION_SUCCESS
        (setConnectionState MmsConnection_create MMS_CON_WAITING) [0xa9, 0x00]
      = .returned ()
          { setConnectionState MmsConnection_create MMS_CON_WAITING with
              connectionState := MMS_CON_ASSOCIATED, lastResponse := some [0xa9, 0x00] }
          [Event.releaseReceiveBuffer] :=
  ((C25_transport_status_transitions sampleExternals (sampleEnv 0)
    (setConnectionState MmsConnection_create MMS_CON_WAITING) [0xa9, 0x00]).2.2.1
      (by decide)).1

/-! ### C26: the conclude PDUs -/

/-- C26: a payload delivered with `ISO_IND_DATA` whose first byte is `0x8b`
sets the conclude state to `CONCLUDE_STATE_REQUESTED`, `0x8c` sets it to
`CONCLUDE_STATE_ACCEPTED` and calls `IsoClientConnection_release` once,
`0x8d` sets it to `CONCLUDE_STATE_REJECTED` without that call; in all three
the receive buffer is released once, nothing is sent, and every other field
of the session (table, shared response slot, connection state, invoke-id
counter) is as before. -/
theorem C26_conclude_pdus (ext : Externals) (env : CallbackEnv) (self : MmsConnection)
    (payload : ByteBuffer) :
    (byteAt payload 0 = 0x8b →
      mmsIsoCallback ext env ISO_IND_DATA self payload
        = .returned () { self with concludeState := CONCLUDE_STATE_REQUESTED }
            [Event.releaseReceiveBuffer]) ∧
    (byteAt payload 0 = 0x8c →
      mmsIsoCallback ext env ISO_IND_DATA self payload
        = .returned () { self with concludeState := CONCLUDE_STATE_ACCEPTED }
            [Event.isoRelease, Event.releaseReceiveBuffer]) ∧
    (byteAt payload 0 = 0x8d →
      mmsIsoCallback ext env ISO_IND_DATA self payload
        = .returned () { self with concludeState := CONCLUDE_STATE_REJECTED }
            [Event.releaseReceiveBuffer]) := by
  have hne : ∀ tag, byteAt payload 0 = tag → tag ≠ 0 → ¬ payload.length < 1 := by
    intro tag htag h0 hlen
    cases payload with
    | nil => exact h0 (by simpa [byteAt] using htag.symm)
    | cons b rest => simp at hlen
  refine ⟨?_, ?_, ?_⟩
  · intro htag
    simp [mmsIsoCallback, tagDispatch, hne _ htag (by decide), htag]
  · intro htag
    simp [mmsIsoCallback, tagDispatch, hne _ htag (by decide), htag]
  · intro htag
    simp [mmsIsoCallback, tagDispatch, hne _ htag (by decide), htag]

/-- C26 (witness): a conclude request `8b 00` from the server, a
conclude-response+ `8c 00` and a conclude-response- `8d 00`. -/
theorem C26_conclude_pdus_witness :
    mmsIsoCallback sampleExternals (sampleEnv 0) ISO_IND_DATA fiveAsyncReads [0x8b, 0x00]
      = .returned () { fiveAsyncReads with concludeState := CONCLUDE_STATE_REQUESTED }
          [Event.releaseReceiveBuffer] ∧
    mmsIsoCallback sampleExternals (sampleEnv 0) ISO_IND_DATA fiveAsyncReads [0x8c, 0x00]
      = .returned () { fiveAsyncReads with concludeState := CONCLUDE_STATE_ACCEPTED }
          [Event.isoRelease, Event.releaseReceiveBuffer] ∧
    mmsIsoCallback sampleExternals (sampleEnv 0) ISO_IND_DATA fiveAsyncReads [0x8d, 0x00]
      = .returned () { fiveAsyncReads with concludeState := CONCLUDE_STATE_REJECTED }
          [Event.releaseReceiveBuffer] :=
  ⟨(C26_conclude_pdus sampleExternals (sampleEnv 0) fiveAsyncReads [0x8b, 0x00]).1 (by decide),
   (C26_conclude_pdus sampleExternals (sampleEnv 0) fiveAsyncReads [0x8c, 0x00]).2.1
     (by decide),
   (C26_conclude_pdus sampleExternals (sampleEnv 0) fiveAsyncReads [0x8d, 0x00]).2.2
     (by decide)⟩

/-! ### C23: the timeout sweep -/

/-- C23 (failing input): five asynchronous reads with deadline `5100` and a
Tick at clock value `6000`. The sweep finds slot `0`, calls its handler with
`MMS_ERROR_SERVICE_TIMEOUT` and then blocks in `removeFromOutstandingCalls` on
the table lock it holds: the callback does not return, no slot is freed (all
five are still in use) and the lock stays taken. On a session whose expired
call is synchronous the sweep frees slot `0`, calls no handler and returns. -/
theorem C23_sweep_keeps_async_slot :
    findExpiredCall 6000 fiveAsyncReads.outstandingCalls = some 0 ∧
    mmsIsoCallback sampleExternals (sampleEnv 6000) ISO_IND_TICK fiveAsyncReads []
      = .blocked .outstandingCallsLock { fiveAsyncReads with outstandingCallsLock := true }
          [Event.userCallback 10 1 11 MMS_ERROR_SERVICE_TIMEOUT
            (HandlerResult.readVariable none)] ∧
    usedSlots (mmsIsoCallback sampleExternals (sampleEnv 6000) ISO_IND_TICK fiveAsyncReads
      []).state = 5 ∧
    mmsIsoCallback sampleExternals (sampleEnv 6000) ISO_IND_TICK syncCallPending []
      = .returned ()
          { syncCallPending with
              outstandingCalls := clearSlot syncCallPending.outstandingCalls 0 } [] ∧
    usedSlots syncCallPending = 1 ∧
    usedSlots (mmsIsoCallback sampleExternals (sampleEnv 6000) ISO_IND_TICK syncCallPending
      []).state = 0 := by
  refine ⟨by decide, by decide, by decide, by decide, by decide, by decide⟩

/-! ### C28: the table lock around the handler call -/

/-- C28 (failing input): `handleAsyncResponse` entered with the table lock
held calls the handler and then blocks in `removeFromOutstandingCalls` on that
lock, whatever the session; the Tick branch enters it so. With two
asynchronous reads outstanding and a Tick at clock value `9999`, the handler
of the first is called while the lock taken at line 892 is held, and the
same thread then waits for that lock at line 339. -/
theorem C28_handler_called_under_lock (ext : Externals) (self : MmsConnection)
    (response : Option ByteBuffer) (bufPos outstandingCall : Nat) (err : MmsError) :
    handleAsyncResponse ext { self with outstandingCallsLock := true } response bufPos
        outstandingCall err
      = .blocked .outstandingCallsLock { self with outstandingCallsLock := true }
          (handlerEvents ext (slotAt self outstandingCall) response bufPos err) ∧
    tickBranch sampleExternals (afterAsyncReads 2 connectedSession 100) 9999
      = (handleAsyncResponse sampleExternals
          { afterAsyncReads 2 connectedSession 100 with outstandingCallsLock := true } none 0 0
          MMS_ERROR_SERVICE_TIMEOUT).andThen
          (fun _ s =>
            .returned ()
              { s with outstandingCalls := clearSlot s.outstandingCalls 0,
                       outstandingCallsLock := false } []) ∧
    mmsIsoCallback sampleExternals (sampleEnv 9999) ISO_IND_TICK
        (afterAsyncReads 2 connectedSession 100) []
      = .blocked .outstandingCallsLock
          { afterAsyncReads 2 connectedSession 100 with outstandingCallsLock := true }
          [Event.userCallback 7 1 8 MMS_ERROR_SERVICE_TIMEOUT
            (HandlerResult.readVariable none)] := by
  refine ⟨?_, by decide, by decide⟩
  have hslot : slotAt { self with outstandingCallsLock := true } outstandingCall
      = slotAt self outstandingCall := rfl
  simp [handleAsyncResponse, hslot, removeFromOutstandingCalls, Outcome.andThen]

/-! ### C29: the invoke-id counter and the transport callback -/

/-- C29 (failing input): five requests have been issued (counter `5`, calls
`1..5` outstanding) when the confirmed-request PDU `a0 03 02 01 02` arrives.
The callback stores the invoke-id of the PDU in the counter (line 1231): the
counter is `2` afterwards, and the next request is given the invoke-id `3` of
a call that is still outstanding. -/
theorem C29_confirmed_request_overwrites_counter :
    fiveAsyncReads.lastInvokeId = 5 ∧
    mmsIsoCallback sampleExternals (sampleEnv 0) ISO_IND_DATA fiveAsyncReads confirmedRequestTwo
      = .returned () { fiveAsyncReads with lastInvokeId := 2 } [] ∧
    (getNextInvokeId (mmsIsoCallback sampleExternals (sampleEnv 0) ISO_IND_DATA fiveAsyncReads
      confirmedRequestTwo).state).1 = 3 ∧
    findOutstandingCall 3 fiveAsyncReads.outstandingCalls = some 2 := by
  refine ⟨by decide, by decide, by decide, by decide⟩

/-! ### C30: the output variables of the error parsers -/

/-- C30 (failing input): the PDUs `a2 00` and `a4 00` hold no field. Both
parsers return the position `2` and leave the output variables as they were,
so the invoke-id (and reject type and reason) that the callback uses are the
prior contents of its locals: with a synchronous call `1` outstanding, the
same payload `a2 00` completes that call when the local held `1` and is
dropped when it held `2`. -/
theorem C30_output_variables_not_written (invokeId : Nat) (serviceError : MmsServiceError)
    (rejectType rejectReason : Int) :
    mmsMsg_parseConfirmedErrorPDU emptyConfirmedError 0 emptyConfirmedError.length invokeId
        serviceError = some ⟨2, invokeId, serviceError⟩ ∧
    mmsMsg_parseRejectPDU emptyReject 0 emptyReject.length invokeId rejectType rejectReason
      = some ⟨2, invokeId, rejectType, rejectReason⟩ ∧
    mmsIsoCallback sampleExternals ⟨0, 1, 0, 0⟩ ISO_IND_DATA syncCallPending emptyConfirmedError
      = .returned ()
          { syncCallPending with lastResponseError := MMS_ERROR_VMDSTATE_OTHER,
                                 responseInvokeId := 1 } [] ∧
    mmsIsoCallback sampleExternals ⟨0, 2, 0, 0⟩ ISO_IND_DATA syncCallPending emptyConfirmedError
      = .returned () syncCallPending [Event.releaseReceiveBuffer] ∧
    mmsIsoCallback sampleExternals ⟨0, 1, 1, 1⟩ ISO_IND_DATA syncCallPending emptyReject
      = .returned ()
          { syncCallPending with
              lastResponseError := MMS_ERROR_REJECT_UNRECOGNIZED_SERVICE,
              responseInvokeId := 1 } [] ∧
    mmsIsoCallback sampleExternals ⟨0, 1, 5, 0⟩ ISO_IND_DATA syncCallPending emptyReject
      = .returned ()
          { syncCallPending with
              lastResponseError := MMS_ERROR_REJECT_UNKNOWN_PDU_TYPE,
              responseInvokeId := 1 } [] := by
  refine ⟨?_, ?_, by decide, by decide, by decide, by decide⟩
  · simp [mmsMsg_parseConfirmedErrorPDU, emptyConfirmedError, byteAt, BerDecoder_decodeLength,
      parseConfirmedErrorLoop]
  · simp [mmsMsg_parseRejectPDU, emptyReject, byteAt, BerDecoder_decodeLength, parseRejectLoop]

/-! ### C24: the result of the synchronous wait -/

/-- With distinct invoke-ids in the table, no used slot carries `X` once the
call `X` has been removed. -/
theorem usedInvokeIds_remove_not_mem (X : Nat) (calls : List MmsOutstandingCall)
    (hd : invokeIdsDistinct calls) : X ∉ usedInvokeIds (removeOutstandingCall X calls) := by
  induction calls with
  | nil => simp [removeOutstandingCall, usedInvokeIds]
  | cons c rest ih =>
    unfold invokeIdsDistinct at hd ih
    rw [usedInvokeIds_cons] at hd
    by_cases hx : c.isUsed = true ∧ c.invokeId = X
    · simp only [removeOutstandingCall, hx, and_self, if_true, usedInvokeIds_cons]
      simp only [hx.1, if_true, List.nodup_cons, hx.2] at hd
      simpa using hd.1
    · simp only [removeOutstandingCall, hx, if_false, usedInvokeIds_cons]
      by_cases hu : c.isUsed = true
      · simp only [hu, if_true, List.nodup_cons] at hd
        simp only [hu, if_true, List.mem_cons, not_or]
        exact ⟨fun h => hx ⟨hu, h.symm⟩, ih hd.2⟩
      · simp only [hu, if_false] at hd
        simp only [hu, if_false]
        exact ih hd

/-- The loop returns what the first test that leaves it yields. -/
theorem waitForResponse_decided (invokeId waitUntilTime : Nat)
    (pre : List (Nat × MmsConnection)) (currentTime : Nat) (self : MmsConnection)
    (schedule : List (Nat × MmsConnection)) (t : Nat) (s : MmsConnection)
    (rest : List (Nat × MmsConnection)) (o : Outcome SyncResponse)
    (hsplit : (currentTime, self) :: schedule = pre ++ (t, s) :: rest)
    (hpre : ∀ obs ∈ pre, pollResponse invokeId waitUntilTime obs.1 obs.2 = none)
    (hpoll : pollResponse invokeId waitUntilTime t s = some o) :
    waitForResponse invokeId waitUntilTime currentTime self schedule = o := by
  induction pre generalizing currentTime self schedule with
  | nil =>
    simp only [List.nil_append, List.cons.injEq, Prod.mk.injEq] at hsplit
    obtain ⟨⟨rfl, rfl⟩, rfl⟩ := hsplit
    cases schedule <;> simp [waitForResponse, hpoll]
  | cons p pre ih =>
    simp only [List.cons_append, List.cons.injEq] at hsplit
    obtain ⟨rfl, hschedule⟩ := hsplit
    have hnone := hpre (currentTime, self) (by simp)
    cases schedule with
    | nil => cases pre <;> simp at hschedule
    | cons hd tl =>
      obtain ⟨c1, s1⟩ := hd
      simp only [waitForResponse, hnone]
      exact ih c1 s1 tl hschedule (fun obs hobs => hpre obs (List.mem_cons_of_mem _ hobs))

/-- C24 (counterexample): the response to the synchronous call `1`, and in a
second run the close of the association, are there when the thread wakes from
its last sleep at the deadline `5100`. The loop condition is tested first, the
loop is left, and the call returns `MMS_ERROR_SERVICE_TIMEOUT` with no
message although the shared slot carries its invoke-id with
`MMS_ERROR_NONE` and a stored response, respectively although the
association is found closed. -/
theorem C24_deadline_tested_first :
    syncCallAnswered.responseInvokeId = 1 ∧
    syncCallAnswered.lastResponseError = MMS_ERROR_NONE ∧
    syncCallAnswered.lastResponse = some (readResponse 1 22) ∧
    (sendRequestAndWaitForResponse (getNextInvokeId connectedSession).2 1 [1] 100 100
        [(5100, syncCallAnswered)]).returnedValue = some ⟨none, MMS_ERROR_SERVICE_TIMEOUT⟩ ∧
    syncCallClosed.associationState = MMS_STATE_CLOSED ∧
    (sendRequestAndWaitForResponse (getNextInvokeId connectedSession).2 1 [1] 100 100
        [(5100, syncCallClosed)]).returnedValue = some ⟨none, MMS_ERROR_SERVICE_TIMEOUT⟩ := by
  refine ⟨by decide, by decide, by decide, by decide, by decide, by decide⟩

/-- C24: a synchronous request that has been entered into the table (state
`s1`) and sent polls the sessions `(currentTime, s1) :: schedule`. Let `(t, s)`
be the first of them at which the deadline `currentTime + requestTimeout` is
reached, or the association is closed, or the shared slot carries the
invoke-id. Then `sendRequestAndWaitForResponse` returns after the one event of
the send, with the call removed from the table of `s` (no used slot carries the
invoke-id afterwards, the invoke-ids of `s` being distinct), and its result is:
`MMS_ERROR_SERVICE_TIMEOUT` and no message when `t` has reached the deadline;
else `MMS_ERROR_CONNECTION_LOST` and no message when the association is
closed; else the error of the shared slot, with the stored response exactly
when that error is `MMS_ERROR_NONE`. -/
theorem C24_sync_wait_result (self : MmsConnection) (invokeId : Nat) (message : ByteBuffer)
    (now currentTime : Nat) (schedule : List (Nat × MmsConnection)) (s1 : MmsConnection)
    (pre : List (Nat × MmsConnection)) (t : Nat) (s : MmsConnection)
    (rest : List (Nat × MmsConnection))
    (hadd : addToOutstandingCalls self invokeId MMS_CALL_TYPE_NONE 0 0 now
      = .returned true s1 [])
    (hsplit : (currentTime, s1) :: schedule = pre ++ (t, s) :: rest)
    (hpre : ∀ obs ∈ pre,
      pollResponse invokeId (currentTime + s1.requestTimeout) obs.1 obs.2 = none)
    (hdecided : ¬ t < currentTime + s1.requestTimeout ∨
      s.associationState = MMS_STATE_CLOSED ∨ s.responseInvokeId = invokeId)
    (hlock : s.outstandingCallsLock = false)
    (hdistinct : invokeIdsDistinct s.outstandingCalls) :
    ∃ r, sendRequestAndWaitForResponse self invokeId message now currentTime schedule
        = .returned r
            { s with outstandingCalls := removeOutstandingCall invokeId s.outstandingCalls }
            [Event.sendMessage message] ∧
      invokeId ∉ usedInvokeIds (removeOutstandingCall invokeId s.outstandingCalls) ∧
      (¬ t < currentTime + s1.requestTimeout → r = ⟨none, MMS_ERROR_SERVICE_TIMEOUT⟩) ∧
      (t < currentTime + s1.requestTimeout → s.associationState = MMS_STATE_CLOSED →
        r = ⟨none, MMS_ERROR_CONNECTION_LOST⟩) ∧
      (t < currentTime + s1.requestTimeout → s.associationState ≠ MMS_STATE_CLOSED →
        s.responseInvokeId = invokeId →
        r = ⟨if s.lastResponseError ≠ MMS_ERROR_NONE then none else s.lastResponse,
             s.lastResponseError⟩) := by
  have hsend : ∀ o, pollResponse invokeId (currentTime + s1.requestTimeout) t s = some o →
      sendRequestAndWaitForResponse self invokeId message now currentTime schedule
        = (Outcome.returned () s1 (sendMessage message)).andThen (fun _ _ => o) := by
    intro o ho
    have hw := waitForResponse_decided invokeId (currentTime + s1.requestTimeout) pre
      currentTime s1 schedule t s rest o hsplit hpre ho
    cases o <;> simp [sendRequestAndWaitForResponse, hadd, Outcome.andThen, hw]
  have hmem := usedInvokeIds_remove_not_mem invokeId s.outstandingCalls hdistinct
  by_cases ht : t < currentTime + s1.requestTimeout
  · by_cases hc : s.associationState = MMS_STATE_CLOSED
    · refine ⟨⟨none, MMS_ERROR_CONNECTION_LOST⟩, ?_, hmem, fun h => absurd ht h,
        fun _ _ => rfl, fun _ h => absurd hc h⟩
      have hp : pollResponse invokeId (currentTime + s1.requestTimeout) t s
          = some ((removeFromOutstandingCalls s invokeId).andThen
              fun _ s => .returned ⟨none, MMS_ERROR_CONNECTION_LOST⟩ s []) := by
        simp [pollResponse, ht, hc]
      rw [hsend _ hp]
      simp [removeFromOutstandingCalls, hlock, Outcome.andThen, sendMessage]
    · have hid : s.responseInvokeId = invokeId := by
        rcases hdecided with h | h | h
        · exact absurd ht h
        · exact absurd h hc
        · exact h
      refine ⟨⟨if s.lastResponseError ≠ MMS_ERROR_NONE then none else s.lastResponse,
          s.lastResponseError⟩, ?_, hmem, fun h => absurd ht h, fun _ h => absurd h hc,
        fun _ _ _ => rfl⟩
      have hp : pollResponse invokeId (currentTime + s1.requestTimeout) t s
          = some ((removeFromOutstandingCalls s invokeId).andThen
              fun _ s' =>
                .returned
                  ⟨if s.lastResponseError ≠ MMS_ERROR_NONE then none else s.lastResponse,
                   s.lastResponseError⟩ s' []) := by
        simp [pollResponse, ht, hc, hid]
      rw [hsend _ hp]
      simp [removeFromOutstandingCalls, hlock, Outcome.andThen, sendMessage]
  · refine ⟨⟨none, MMS_ERROR_SERVICE_TIMEOUT⟩, ?_, hmem, fun _ => rfl, fun h => absurd h ht,
      fun h => absurd h ht⟩
    have hp : pollResponse invokeId (currentTime + s1.requestTimeout) t s
        = some ((removeFromOutstandingCalls s invokeId).andThen
            fun _ s => .returned ⟨none, MMS_ERROR_SERVICE_TIMEOUT⟩ s []) := by
      simp [pollResponse, ht]
    rw [hsend _ hp]
    simp [removeFromOutstandingCalls, hlock, Outcome.andThen, sendMessage]

/-- C24 (witness): the response to the synchronous call `1` is found at the
second test, before the deadline. -/
theorem C24_sync_wait_result_witness :
    ∃ r, sendRequestAndWaitForResponse (getNextInvokeId connectedSession).2 1 [1] 100 100
        [(110, syncCallAnswered)]
      = .returned r
          { syncCallAnswered with
              outstandingCalls := removeOutstandingCall 1 syncCallAnswered.outstandingCalls }
          [Event.sendMessage [1]] ∧
      r = ⟨some (readResponse 1 22), MMS_ERROR_NONE⟩ := by
  obtain ⟨r, hr, -, -, -, h⟩ := C24_sync_wait_result (getNextInvokeId connectedSession).2 1 [1]
    100 100 [(110, syncCallAnswered)] syncCallPending [(100, syncCallPending)] 110
    syncCallAnswered [] (by decide) (by decide) (by decide) (by decide) (by decide) (by decide)
  exact ⟨r, hr, h (by decide) (by decide) (by decide)⟩

/-! ### The decoders read nothing but the field they are given -/

/-- A buffer that holds `x ++ y` holds `x`, and `y` after it. -/
theorem HoldsAt.append (buffer : ByteBuffer) (offset : Nat) (x y : ByteBuffer)
    (h : HoldsAt buffer offset (x ++ y)) :
    HoldsAt buffer offset x ∧ HoldsAt buffer (offset + x.length) y := by
  constructor
  · intro i hi
    have := h i (by simp; omega)
    rw [this]
    simp [byteAt, List.getD_eq_getElem?_getD, List.getElem?_append_left hi]
  · intro i hi
    have := h (x.length + i) (by simp; omega)
    rw [Nat.add_assoc, this]
    simp [byteAt, List.getD_eq_getElem?_getD, List.getElem?_append_right]

/-- A buffer holds itself from position `0` on. -/
theorem HoldsAt.self (content : ByteBuffer) : HoldsAt content 0 content := by
  intro i _
  rw [Nat.zero_add]

/-- The long-form length bytes of an embedded field are read as in the field
alone. -/
theorem decodeLengthBytes_embed (buffer : ByteBuffer) (offset : Nat) (content : ByteBuffer)
    (endPos maxBufPos n bufPos acc length pos : Nat)
    (hb : HoldsAt buffer offset content) (he : endPos ≤ content.length)
    (hm : offset + endPos ≤ maxBufPos)
    (h : decodeLengthBytes content endPos n bufPos acc = some (length, pos)) :
    decodeLengthBytes buffer maxBufPos n (offset + bufPos) acc = some (length, offset + pos) := by
  induction n generalizing bufPos acc with
  | zero =>
    simp only [decodeLengthBytes, Option.some.injEq, Prod.mk.injEq] at h ⊢
    omega
  | succ k ih =>
    unfold decodeLengthBytes at h ⊢
    split at h
    · cases h
    · rename_i hlt
      have hlt2 : ¬ offset + bufPos ≥ maxBufPos := by omega
      simp only [hlt2, if_false]
      rw [hb bufPos (by omega), Nat.add_assoc]
      exact ih _ _ h

/-- The length of an embedded field is decoded as in the field alone. -/
theorem BerDecoder_decodeLength_embed (buffer : ByteBuffer) (offset : Nat)
    (content : ByteBuffer) (endPos maxBufPos bufPos length pos : Nat)
    (hb : HoldsAt buffer offset content) (he : endPos ≤ content.length)
    (hm : offset + endPos ≤ maxBufPos)
    (h : BerDecoder_decodeLength content bufPos endPos = some (length, pos)) :
    BerDecoder_decodeLength buffer (offset + bufPos) maxBufPos = some (length, offset + pos) := by
  unfold BerDecoder_decodeLength at h ⊢
  split at h
  · cases h
  · rename_i hlt
    have hlt2 : ¬ offset + bufPos ≥ maxBufPos := by omega
    simp only [hlt2, if_false]
    rw [hb bufPos (by omega)]
    simp only at h ⊢
    split at h
    · rename_i hshort
      simp only [hshort, if_true]
      split at h
      · cases h
      · rename_i hfit
        simp only [Option.some.injEq, Prod.mk.injEq] at h
        have hfit2 : ¬ offset + bufPos + 1 + byteAt content bufPos > maxBufPos := by omega
        simp only [hfit2, if_false, Option.some.injEq, Prod.mk.injEq]
        omega
    · rename_i hlong
      simp only [hlong, if_false]
      split at h
      · cases h
      · rename_i hdef
        simp only [hdef, if_false]
        split at h
        · cases h
        · rename_i l p hd
          have hd2 := decodeLengthBytes_embed buffer offset content endPos maxBufPos _ _ _ _ _
            hb he hm hd
          rw [Nat.add_assoc, hd2]
          simp only
          split at h
          · cases h
          · rename_i hfit
            simp only [Option.some.injEq, Prod.mk.injEq] at h
            obtain ⟨rfl, rfl⟩ := h
            have hfit2 : ¬ offset + p + l > maxBufPos := by omega
            simp only [hfit2, if_false]

/-- An unsigned integer inside an embedded field is decoded as in the field
alone. -/
theorem BerDecoder_decodeUint32_embed (buffer : ByteBuffer) (offset : Nat)
    (content : ByteBuffer) (intLen bufPos : Nat)
    (hb : HoldsAt buffer offset content) (hin : bufPos + intLen ≤ content.length) :
    BerDecoder_decodeUint32 buffer intLen (offset + bufPos)
      = BerDecoder_decodeUint32 content intLen bufPos := by
  induction intLen with
  | zero => rfl
  | succ k ih =>
    unfold BerDecoder_decodeUint32
    rw [ih (by omega), Nat.add_assoc, hb (bufPos + k) (by omega)]

/-- A signed integer inside an embedded field is decoded as in the field
alone. -/
theorem BerDecoder_decodeInt32_embed (buffer : ByteBuffer) (offset : Nat)
    (content : ByteBuffer) (intLen bufPos : Nat)
    (hb : HoldsAt buffer offset content) (hin : bufPos + intLen ≤ content.length) :
    BerDecoder_decodeInt32 buffer intLen (offset + bufPos)
      = BerDecoder_decodeInt32 content intLen bufPos := by
  unfold BerDecoder_decodeInt32
  by_cases h0 : intLen = 0
  · simp [h0]
  · simp only [h0, if_false]
    rw [BerDecoder_decodeUint32_embed buffer offset content intLen bufPos hb hin,
      hb bufPos (by omega)]

/-- A successful run of the loop of `parseServiceError` that starts at or
before `endPos` ends exactly at `endPos`. -/
theorem parseServiceErrorLoop_end (buffer : ByteBuffer) (endPos fuel bufPos : Nat)
    (error : MmsServiceError) (pos : Nat) (error2 : MmsServiceError)
    (hle : bufPos ≤ endPos)
    (h : parseServiceErrorLoop buffer endPos fuel bufPos error = some (pos, error2)) :
    pos = endPos := by
  induction fuel generalizing bufPos error with
  | zero =>
    unfold parseServiceErrorLoop at h
    split at h
    · cases h
    · simp only [Option.some.injEq, Prod.mk.injEq] at h
      omega
  | succ k ih =>
    unfold parseServiceErrorLoop at h
    split at h
    · simp only at h
      split at h
      · cases h
      · rename_i length p hd
        have h1 := BerDecoder_decodeLength_pos _ _ _ _ _ hd
        split at h
        · split at h
          · cases h
          · rename_i length2 p2 hd2
            have h2 := BerDecoder_decodeLength_pos _ _ _ _ _ hd2
            exact ih _ _ h2.2 h
        · exact ih _ _ h1.2 h
    · simp only [Option.some.injEq, Prod.mk.injEq] at h
      omega

/-- The loop of `parseServiceError` on an embedded service-error field gives
what it gives on the field alone. -/
theorem parseServiceErrorLoop_embed (buffer : ByteBuffer) (offset : Nat) (content : ByteBuffer)
    (endPos fuel bufPos : Nat) (error : MmsServiceError) (pos : Nat) (error2 : MmsServiceError)
    (hb : HoldsAt buffer offset content) (he : endPos ≤ content.length)
    (h : parseServiceErrorLoop content endPos fuel bufPos error = some (pos, error2)) :
    parseServiceErrorLoop buffer (offset + endPos) fuel (offset + bufPos) error
      = some (offset + pos, error2) := by
  induction fuel generalizing bufPos error with
  | zero =>
    unfold parseServiceErrorLoop at h ⊢
    split at h
    · cases h
    · rename_i hlt
      have hlt2 : ¬ offset + bufPos < offset + endPos := by omega
      simp only [Option.some.injEq, Prod.mk.injEq] at h
      simp only [hlt2, if_false, Option.some.injEq, Prod.mk.injEq]
      exact ⟨by omega, h.2⟩
  | succ k ih =>
    unfold parseServiceErrorLoop at h ⊢
    split at h
    · rename_i hlt
      have hlt2 : offset + bufPos < offset + endPos := by omega
      simp only [hlt2, if_true]
      simp only at h
      split at h
      · cases h
      · rename_i length p hd
        have h1 := BerDecoder_decodeLength_pos _ _ _ _ _ hd
        have hd2 := BerDecoder_decodeLength_embed buffer offset content endPos
          (offset + endPos) _ _ _ hb he (Nat.le_refl _) hd
        rw [Nat.add_assoc, hd2, hb bufPos (by omega)]
        simp only
        split at h
        · rename_i htag
          simp only [htag, if_true]
          split at h
          · cases h
          · rename_i length2 p2 hd3
            have h2 := BerDecoder_decodeLength_pos _ _ _ _ _ hd3
            have hd4 := BerDecoder_decodeLength_embed buffer offset content endPos
              (offset + endPos) _ _ _ hb he (Nat.le_refl _) hd3
            rw [Nat.add_assoc, hd4, hb p (by omega)]
            simp only
            rw [BerDecoder_decodeUint32_embed buffer offset content length2 p2 hb (by omega),
              Nat.add_assoc]
            exact ih _ _ h
        · rename_i htag
          simp only [htag, if_false]
          rw [Nat.add_assoc]
          exact ih _ _ h
    · rename_i hlt
      have hlt2 : ¬ offset + bufPos < offset + endPos := by omega
      simp only [Option.some.injEq, Prod.mk.injEq] at h
      simp only [hlt2, if_false, Option.some.injEq, Prod.mk.injEq]
      exact ⟨by omega, h.2⟩

/-- The first of the fields that a buffer holds at `bufPos`: its tag is at
`bufPos`, its length decodes from `bufPos + 1`, its content and the further
fields follow. -/
theorem HoldsAt.field (buffer : ByteBuffer) (bufPos maxBufPos : Nat) (f : BerField)
    (rest : ByteBuffer) (hb : HoldsAt buffer bufPos (f.bytes ++ rest))
    (hm : bufPos + (f.bytes ++ rest).length ≤ maxBufPos) (hf : f.WellFormed) :
    byteAt buffer bufPos = f.tag ∧
      BerDecoder_decodeLength buffer (bufPos + 1) maxBufPos
        = some (f.content.length, bufPos + 1 + f.lengthBytes.length) ∧
      HoldsAt buffer (bufPos + 1 + f.lengthBytes.length) f.content ∧
      HoldsAt buffer (bufPos + 1 + f.lengthBytes.length + f.content.length) rest ∧
      f.bytes.length = 1 + f.lengthBytes.length + f.content.length := by
  have hlen : f.bytes.length = 1 + f.lengthBytes.length + f.content.length := by
    simp only [BerField.bytes, List.length_cons, List.length_append]
    omega
  obtain ⟨hfield, hrest⟩ := HoldsAt.append buffer bufPos f.bytes rest hb
  have htag : byteAt buffer bufPos = f.tag := by
    have := hfield 0 (by simp [BerField.bytes])
    simpa [BerField.bytes, byteAt] using this
  have hbody : HoldsAt buffer (bufPos + 1) (f.lengthBytes ++ f.content) := by
    have := (HoldsAt.append buffer bufPos [f.tag] (f.lengthBytes ++ f.content)
      (by simpa [BerField.bytes] using hfield)).2
    simpa using this
  have hdec := BerDecoder_decodeLength_embed buffer (bufPos + 1) (f.lengthBytes ++ f.content)
    (f.lengthBytes ++ f.content).length maxBufPos 0 _ _ hbody (Nat.le_refl _)
    (by simp [BerField.bytes] at hm ⊢; omega) hf
  refine ⟨htag, by simpa using hdec, (HoldsAt.append _ _ _ _ hbody).2, ?_, hlen⟩
  rw [hlen] at hrest
  have e : bufPos + 1 + f.lengthBytes.length + f.content.length
      = bufPos + (1 + f.lengthBytes.length + f.content.length) := by omega
  rw [e]
  exact hrest

/-- The loop of `mmsMsg_parseConfirmedErrorPDU` on a buffer that holds a
sequence of well-formed fields up to `endPos`: the output variables are what
`confirmedErrorFields` gives, the position is `endPos`. -/
theorem parseConfirmedErrorLoop_fields (buffer : ByteBuffer) (maxBufPos : Nat)
    (fields : List BerField) (fuel bufPos invokeId : Nat) (serviceError : MmsServiceError)
    (result : Nat × MmsServiceError)
    (hb : HoldsAt buffer bufPos (fieldBytes fields))
    (hm : bufPos + (fieldBytes fields).length ≤ maxBufPos)
    (hfuel : fields.length ≤ fuel)
    (hf : ∀ f ∈ fields, f.WellFormed)
    (hrun : confirmedErrorFields fields invokeId serviceError = some result) :
    parseConfirmedErrorLoop buffer maxBufPos (bufPos + (fieldBytes fields).length) fuel bufPos
        invokeId serviceError
      = some ⟨bufPos + (fieldBytes fields).length, result.1, result.2⟩ := by
  induction fields generalizing fuel bufPos invokeId serviceError with
  | nil =>
    simp only [confirmedErrorFields, Option.some.injEq] at hrun
    subst hrun
    cases fuel <;> simp [parseConfirmedErrorLoop, fieldBytes]
  | cons f rest ih =>
    cases fuel with
    | zero => simp at hfuel
    | succ k =>
      simp only [fieldBytes] at hb hm ⊢
      obtain ⟨htag, hdec, hcontent, hrest, hlen⟩ := HoldsAt.field buffer bufPos maxBufPos f
        (fieldBytes rest) hb hm (hf f (by simp))
      have hpos : bufPos < bufPos + (f.bytes ++ fieldBytes rest).length := by
        rw [List.length_append, hlen]
        omega
      have hnext : bufPos + (f.bytes ++ fieldBytes rest).length
          = bufPos + 1 + f.lengthBytes.length + f.content.length
            + (fieldBytes rest).length := by
        rw [List.length_append, hlen]
        omega
      have hfr : ∀ g ∈ rest, g.WellFormed := fun g hg => hf g (List.mem_cons_of_mem _ hg)
      have hk : rest.length ≤ k := by simpa using hfuel
      have hmr : bufPos + 1 + f.lengthBytes.length + f.content.length
          + (fieldBytes rest).length ≤ maxBufPos := by omega
      unfold parseConfirmedErrorLoop
      simp only [hpos, if_true, hdec, htag]
      unfold confirmedErrorFields at hrun
      by_cases h80 : f.tag = 0x80
      · simp only [h80, if_true] at hrun ⊢
        have hint := BerDecoder_decodeUint32_embed buffer
          (bufPos + 1 + f.lengthBytes.length) f.content f.content.length 0 hcontent (by omega)
        rw [Nat.add_zero] at hint
        rw [hint, hnext]
        exact ih k _ _ _ hrest hmr hk hfr hrun
      · simp only [h80, if_false] at hrun ⊢
        by_cases ha2 : f.tag = 0xa2
        · simp only [ha2, if_true] at hrun ⊢
          cases hse : parseServiceError f.content 0 f.content.length serviceError with
          | none => simp [hse] at hrun
          | some r =>
            obtain ⟨q, se2⟩ := r
            simp only [hse] at hrun
            unfold parseServiceError at hse ⊢
            have hq := parseServiceErrorLoop_end _ _ _ _ _ _ _ (Nat.zero_le _) hse
            have hemb := parseServiceErrorLoop_embed buffer (bufPos + 1 + f.lengthBytes.length)
              f.content (0 + f.content.length) f.content.length 0 serviceError q se2 hcontent
              (by omega) hse
            simp only [Nat.add_zero, Nat.zero_add] at hemb hq
            rw [hemb]
            simp only
            rw [hq, hnext]
            exact ih k _ _ _ hrest hmr hk hfr hrun
        · simp only [ha2, if_false] at hrun ⊢
          rw [hnext]
          exact ih k _ _ _ hrest hmr hk hfr hrun

/-- The loop of `mmsMsg_parseRejectPDU` on a buffer that holds a sequence of
well-formed fields up to `endPos`: the output variables are what
`rejectFields` gives, the position is `endPos`. -/
theorem parseRejectLoop_fields (buffer : ByteBuffer) (maxBufPos : Nat)
    (fields : List BerField) (fuel bufPos invokeId : Nat) (rejectType rejectReason : Int)
    (hb : HoldsAt buffer bufPos (fieldBytes fields))
    (hm : bufPos + (fieldBytes fields).length ≤ maxBufPos)
    (hfuel : fields.length ≤ fuel)
    (hf : ∀ f ∈ fields, f.WellFormed) :
    parseRejectLoop buffer maxBufPos (bufPos + (fieldBytes fields).length) fuel bufPos
        invokeId rejectType rejectReason
      = some ⟨bufPos + (fieldBytes fields).length,
          (rejectFields fields invokeId rejectType rejectReason).1,
          (rejectFields fields invokeId rejectType rejectReason).2.1,
          (rejectFields fields invokeId rejectType rejectReason).2.2⟩ := by
  induction fields generalizing fuel bufPos invokeId rejectType rejectReason with
  | nil => cases fuel <;> simp [parseRejectLoop, fieldBytes, rejectFields]
  | cons f rest ih =>
    cases fuel with
    | zero => simp at hfuel
    | succ k =>
      simp only [fieldBytes] at hb hm ⊢
      obtain ⟨htag, hdec, hcontent, hrest, hlen⟩ := HoldsAt.field buffer bufPos maxBufPos f
        (fieldBytes rest) hb hm (hf f (by simp))
      have hpos : bufPos < bufPos + (f.bytes ++ fieldBytes rest).length := by
        rw [List.length_append, hlen]
        omega
      have hnext : bufPos + (f.bytes ++ fieldBytes rest).length
          = bufPos + 1 + f.lengthBytes.length + f.content.length
            + (fieldBytes rest).length := by
        rw [List.length_append, hlen]
        omega
      have hfr : ∀ g ∈ rest, g.WellFormed := fun g hg => hf g (List.mem_cons_of_mem _ hg)
      have hk : rest.length ≤ k := by simpa using hfuel
      have hmr : bufPos + 1 + f.lengthBytes.length + f.content.length
          + (fieldBytes rest).length ≤ maxBufPos := by omega
      have huint := BerDecoder_decodeUint32_embed buffer
        (bufPos + 1 + f.lengthBytes.length) f.content f.content.length 0 hcontent (by omega)
      have hint := BerDecoder_decodeInt32_embed buffer
        (bufPos + 1 + f.lengthBytes.length) f.content f.content.length 0 hcontent (by omega)
      rw [Nat.add_zero] at huint hint
      unfold parseRejectLoop
      simp only [hpos, if_true, hdec, htag]
      unfold rejectFields
      by_cases h80 : f.tag = 0x80
      · simp only [h80, if_true]
        rw [huint, hnext]
        exact ih k _ _ _ _ hrest hmr hk hfr
      · simp only [h80, if_false]
        by_cases hr : f.tag > 0x80 ∧ f.tag < 0x8c
        · simp only [hr, and_self, if_true]
          rw [hint, hnext]
          exact ih k _ _ _ _ hrest hmr hk hfr
        · simp only [hr, if_false]
          rw [hnext]
          exact ih k _ _ _ _ hrest hmr hk hfr

/-- A sequence of fields has at least one byte per field. -/
theorem fieldBytes_length (fields : List BerField) : fields.length ≤ (fieldBytes fields).length := by
  induction fields with
  | nil => simp [fieldBytes]
  | cons f rest ih =>
    simp only [fieldBytes, List.length_cons, List.length_append, BerField.bytes]
    omega

/-- The function `mmsMsg_parseConfirmedErrorPDU` on a well-formed PDU of
well-formed fields yields what `confirmedErrorFields` gives for the fields. -/
theorem mmsMsg_parseConfirmedErrorPDU_fields (lengthBytes : ByteBuffer) (fields : List BerField)
    (invokeId : Nat) (serviceError : MmsServiceError) (result : Nat × MmsServiceError)
    (hw : (pduOf 0xa2 lengthBytes fields).WellFormed)
    (hf : ∀ f ∈ fields, f.WellFormed)
    (hrun : confirmedErrorFields fields invokeId serviceError = some result) :
    mmsMsg_parseConfirmedErrorPDU (pduOf 0xa2 lengthBytes fields).bytes 0
        (pduOf 0xa2 lengthBytes fields).bytes.length invokeId serviceError
      = some ⟨(pduOf 0xa2 lengthBytes fields).bytes.length, result.1, result.2⟩ := by
  have hself : HoldsAt (pduOf 0xa2 lengthBytes fields).bytes 0
      ((pduOf 0xa2 lengthBytes fields).bytes ++ []) := by
    rw [List.append_nil]
    exact HoldsAt.self _
  obtain ⟨htag, hdec, hcontent, -, hlen⟩ := HoldsAt.field _ 0
    (pduOf 0xa2 lengthBytes fields).bytes.length (pduOf 0xa2 lengthBytes fields) [] hself
    (by simp) hw
  have hloop := parseConfirmedErrorLoop_fields (pduOf 0xa2 lengthBytes fields).bytes
    (pduOf 0xa2 lengthBytes fields).bytes.length fields
    (pduOf 0xa2 lengthBytes fields).bytes.length (0 + 1 + lengthBytes.length) invokeId
    serviceError result hcontent
    (by rw [hlen]; simp only [pduOf]; omega)
    (by rw [hlen]; have := fieldBytes_length fields; simp only [pduOf]; omega) hf hrun
  have hend : 0 + 1 + lengthBytes.length + (fieldBytes fields).length
      = (pduOf 0xa2 lengthBytes fields).bytes.length := by
    rw [hlen, Nat.zero_add]
    rfl
  have htag2 : ¬ byteAt (pduOf 0xa2 lengthBytes fields).bytes 0 ≠ 0xa2 := by
    rw [htag]
    simp [pduOf]
  simp only [pduOf] at hdec hloop hend htag2 ⊢
  unfold mmsMsg_parseConfirmedErrorPDU
  simp only [htag2, if_false, hdec]
  rw [hend] at hloop ⊢
  simp only [gt_iff_lt, Nat.lt_irrefl, if_false]
  exact hloop

/-- The function `mmsMsg_parseRejectPDU` on a well-formed PDU of well-formed
fields yields what `rejectFields` gives for the fields. -/
theorem mmsMsg_parseRejectPDU_fields (lengthBytes : ByteBuffer) (fields : List BerField)
    (invokeId : Nat) (rejectType rejectReason : Int)
    (hw : (pduOf 0xa4 lengthBytes fields).WellFormed)
    (hf : ∀ f ∈ fields, f.WellFormed) :
    mmsMsg_parseRejectPDU (pduOf 0xa4 lengthBytes fields).bytes 0
        (pduOf 0xa4 lengthBytes fields).bytes.length invokeId rejectType rejectReason
      = some ⟨(pduOf 0xa4 lengthBytes fields).bytes.length,
          (rejectFields fields invokeId rejectType rejectReason).1,
          (rejectFields fields invokeId rejectType rejectReason).2.1,
          (rejectFields fields invokeId rejectType rejectReason).2.2⟩ := by
  have hself : HoldsAt (pduOf 0xa4 lengthBytes fields).bytes 0
      ((pduOf 0xa4 lengthBytes fields).bytes ++ []) := by
    rw [List.append_nil]
    exact HoldsAt.self _
  obtain ⟨htag, hdec, hcontent, -, hlen⟩ := HoldsAt.field _ 0
    (pduOf 0xa4 lengthBytes fields).bytes.length (pduOf 0xa4 lengthBytes fields) [] hself
    (by simp) hw
  have hloop := parseRejectLoop_fields (pduOf 0xa4 lengthBytes fields).bytes
    (pduOf 0xa4 lengthBytes fields).bytes.length fields
    (pduOf 0xa4 lengthBytes fields).bytes.length (0 + 1 + lengthBytes.length) invokeId
    rejectType rejectReason hcontent
    (by rw [hlen]; simp only [pduOf]; omega)
    (by rw [hlen]; have := fieldBytes_length fields; simp only [pduOf]; omega) hf
  have hend : 0 + 1 + lengthBytes.length + (fieldBytes fields).length
      = (pduOf 0xa4 lengthBytes fields).bytes.length := by
    rw [hlen, Nat.zero_add]
    rfl
  have htag2 : ¬ byteAt (pduOf 0xa4 lengthBytes fields).bytes 0 ≠ 0xa4 := by
    rw [htag]
    simp [pduOf]
  simp only [pduOf] at hdec hloop hend htag2 ⊢
  unfold mmsMsg_parseRejectPDU
  simp only [htag2, if_false, hdec]
  rw [hend] at hloop ⊢
  simp only [gt_iff_lt, Nat.lt_irrefl, if_false]
  exact hloop

/-- Fields that are neither an invoke-id nor a service error leave the output
variables of the confirmed-error parser alone. -/
theorem confirmedErrorFields_skip (unknown rest : List BerField) (invokeId : Nat)
    (serviceError : MmsServiceError)
    (h : ∀ f ∈ unknown, ¬ (f.tag = 0x80 ∨ f.tag = 0xa2)) :
    confirmedErrorFields (unknown ++ rest) invokeId serviceError
      = confirmedErrorFields rest invokeId serviceError := by
  induction unknown with
  | nil => rfl
  | cons f us ih =>
    have hf := h f (by simp)
    simp only [not_or] at hf
    simp only [List.cons_append, confirmedErrorFields, hf.1, hf.2, if_false]
    exact ih (fun g hg => h g (List.mem_cons_of_mem _ hg))

/-- Fields with a tag outside `0x80..0x8b` leave the output variables of the
reject parser alone. -/
theorem rejectFields_skip (unknown rest : List BerField) (invokeId : Nat)
    (rejectType rejectReason : Int)
    (h : ∀ f ∈ unknown, ¬ (0x80 ≤ f.tag ∧ f.tag < 0x8c)) :
    rejectFields (unknown ++ rest) invokeId rejectType rejectReason
      = rejectFields rest invokeId rejectType rejectReason := by
  induction unknown with
  | nil => rfl
  | cons f us ih =>
    have hf := h f (by simp)
    have h80 : ¬ f.tag = 0x80 := fun e => hf (by omega)
    have hr : ¬ (f.tag > 0x80 ∧ f.tag < 0x8c) := fun e => hf (by omega)
    simp only [List.cons_append, rejectFields, h80, hr, if_false]
    exact ih (fun g hg => h g (List.mem_cons_of_mem _ hg))

/-- An invoke-id field and a service-error field, in either order, with
unknown fields anywhere: the output variables are those of the two fields. -/
theorem confirmedErrorFields_arranged (idField errorField : BerField)
    (fields : List BerField) (invokeId : Nat) (serviceError parsed : MmsServiceError)
    (pos : Nat)
    (hid : idField.tag = 0x80) (herr : errorField.tag = 0xa2)
    (harr : Arranged idField errorField (fun t => t = 0x80 ∨ t = 0xa2) fields)
    (hparsed : parseServiceError errorField.content 0 errorField.content.length serviceError
      = some (pos, parsed)) :
    confirmedErrorFields fields invokeId serviceError
      = some (BerDecoder_decodeUint32 idField.content idField.content.length 0, parsed) := by
  obtain ⟨u1, u2, u3, hu, hfields⟩ := harr
  have h1 : ∀ f ∈ u1, ¬ (f.tag = 0x80 ∨ f.tag = 0xa2) := fun f hf => hu f (by simp [hf])
  have h2 : ∀ f ∈ u2, ¬ (f.tag = 0x80 ∨ f.tag = 0xa2) := fun f hf => hu f (by simp [hf])
  have h3 : ∀ f ∈ u3, ¬ (f.tag = 0x80 ∨ f.tag = 0xa2) := fun f hf => hu f (by simp [hf])
  have hend : ∀ i e, confirmedErrorFields u3 i e = some (i, e) := by
    intro i e
    have := confirmedErrorFields_skip u3 [] i e h3
    rw [List.append_nil] at this
    rw [this]
    rfl
  have hne : ¬ errorField.tag = 0x80 := by rw [herr]; decide
  have h162 : ¬ ((162 : Nat) = 128) := by decide
  rcases hfields with rfl | rfl
  · rw [confirmedErrorFields_skip _ _ _ _ h1]
    simp only [confirmedErrorFields, hid, if_true]
    rw [confirmedErrorFields_skip _ _ _ _ h2]
    simp only [confirmedErrorFields, hne, herr, h162, if_true, if_false, hparsed]
    exact hend _ _
  · rw [confirmedErrorFields_skip _ _ _ _ h1]
    simp only [confirmedErrorFields, hne, herr, h162, if_true, if_false, hparsed]
    rw [confirmedErrorFields_skip _ _ _ _ h2]
    simp only [confirmedErrorFields, hid, if_true]
    exact hend _ _

/-- An invoke-id field and a reject field, in either order, with unknown
fields anywhere: the output variables are those of the two fields. -/
theorem rejectFields_arranged (idField rejectField : BerField) (fields : List BerField)
    (invokeId : Nat) (rejectType rejectReason : Int)
    (hid : idField.tag = 0x80) (hrej : rejectField.tag > 0x80 ∧ rejectField.tag < 0x8c)
    (harr : Arranged idField rejectField (fun t => 0x80 ≤ t ∧ t < 0x8c) fields) :
    rejectFields fields invokeId rejectType rejectReason
      = (BerDecoder_decodeUint32 idField.content idField.content.length 0,
         (rejectField.tag : Int) - 0x80,
         BerDecoder_decodeInt32 rejectField.content rejectField.content.length 0) := by
  obtain ⟨u1, u2, u3, hu, hfields⟩ := harr
  have h1 : ∀ f ∈ u1, ¬ (0x80 ≤ f.tag ∧ f.tag < 0x8c) := fun f hf => hu f (by simp [hf])
  have h2 : ∀ f ∈ u2, ¬ (0x80 ≤ f.tag ∧ f.tag < 0x8c) := fun f hf => hu f (by simp [hf])
  have h3 : ∀ f ∈ u3, ¬ (0x80 ≤ f.tag ∧ f.tag < 0x8c) := fun f hf => hu f (by simp [hf])
  have hend : ∀ i t r, rejectFields u3 i t r = (i, t, r) := by
    intro i t r
    have := rejectFields_skip u3 [] i t r h3
    rw [List.append_nil] at this
    rw [this]
    rfl
  have hne : ¬ rejectField.tag = 0x80 := by omega
  rcases hfields with rfl | rfl
  · rw [rejectFields_skip _ _ _ _ _ h1]
    simp only [rejectFields, hid, if_true]
    rw [rejectFields_skip _ _ _ _ _ h2]
    simp only [rejectFields, hne, hrej, and_self, if_true, if_false]
    exact hend _ _ _
  · rw [rejectFields_skip _ _ _ _ _ h1]
    simp only [rejectFields, hne, hrej, and_self, if_true, if_false]
    rw [rejectFields_skip _ _ _ _ _ h2]
    simp only [rejectFields, hid, if_true]
    exact hend _ _ _

/-! ### C27: field order and unknown fields -/

/-- C27: take a confirmed-error PDU (outer tag `0xa2`, a definite length that
`BerDecoder_decodeLength` accepts, content equal to its fields) whose fields
are an invoke-id field (`0x80`), a service-error field (`0xa2`) that
`parseServiceError` accepts, in either order, and any number of well-formed
fields with other single-byte tags before, between and after them. Then
`mmsMsg_parseConfirmedErrorPDU` succeeds, returns the end of the PDU and
yields the invoke-id of the invoke-id field and the service error of the
service-error field: the same values for either order and whatever the
further fields are. Likewise `mmsMsg_parseRejectPDU` on a reject PDU (outer
tag `0xa4`) with an invoke-id field and a reject field (tag in `0x81..0x8b`),
the further fields having tags outside `0x80..0x8b`, yields the invoke-id, the
reject type `tag - 0x80` and the reject reason of the reject field. -/
theorem C27_field_order_and_unknown_fields (idField errorField rejectField : BerField)
    (errorLength rejectLength : ByteBuffer) (errorFields rejectFieldList : List BerField)
    (invokeId : Nat) (serviceError parsed : MmsServiceError) (pos : Nat)
    (rejectType rejectReason : Int)
    (hid : idField.tag = 0x80) (herr : errorField.tag = 0xa2)
    (hrej : rejectField.tag > 0x80 ∧ rejectField.tag < 0x8c)
    (harrE : Arranged idField errorField (fun t => t = 0x80 ∨ t = 0xa2) errorFields)
    (harrR : Arranged idField rejectField (fun t => 0x80 ≤ t ∧ t < 0x8c) rejectFieldList)
    (hwE : (pduOf 0xa2 errorLength errorFields).WellFormed)
    (hwR : (pduOf 0xa4 rejectLength rejectFieldList).WellFormed)
    (hfE : ∀ f ∈ errorFields, f.WellFormed)
    (hfR : ∀ f ∈ rejectFieldList, f.WellFormed)
    (hparsed : parseServiceError errorField.content 0 errorField.content.length serviceError
      = some (pos, parsed)) :
    mmsMsg_parseConfirmedErrorPDU (pduOf 0xa2 errorLength errorFields).bytes 0
        (pduOf 0xa2 errorLength errorFields).bytes.length invokeId serviceError
      = some ⟨(pduOf 0xa2 errorLength errorFields).bytes.length,
          BerDecoder_decodeUint32 idField.content idField.content.length 0, parsed⟩ ∧
    mmsMsg_parseRejectPDU (pduOf 0xa4 rejectLength rejectFieldList).bytes 0
        (pduOf 0xa4 rejectLength rejectFieldList).bytes.length invokeId rejectType rejectReason
      = some ⟨(pduOf 0xa4 rejectLength rejectFieldList).bytes.length,
          BerDecoder_decodeUint32 idField.content idField.content.length 0,
          (rejectField.tag : Int) - 0x80,
          BerDecoder_decodeInt32 rejectField.content rejectField.content.length 0⟩ := by
  constructor
  · exact mmsMsg_parseConfirmedErrorPDU_fields errorLength errorFields invokeId serviceError _
      hwE hfE
      (confirmedErrorFields_arranged idField errorField errorFields invokeId serviceError
        parsed pos hid herr harrE hparsed)
  · have h := mmsMsg_parseRejectPDU_fields rejectLength rejectFieldList invokeId rejectType
      rejectReason hwR hfR
    rw [rejectFields_arranged idField rejectField rejectFieldList invokeId rejectType
      rejectReason hid hrej harrR] at h
    exact h

/-- C27 (witness): the confirmed-error PDU
`a2 0d  81 01 00  a2 05 a0 03 87 01 02  80 01 01` (an unknown field, then the
service error, then the invoke-id) and the reject PDU
`a4 09  80 01 01  8c 01 00  81 01 01` (invoke-id, an unknown field, reject
type `1` with reason `1`). -/
theorem C27_field_order_and_unknown_fields_witness :
    mmsMsg_parseConfirmedErrorPDU
        [0xa2, 0x0d, 0x81, 0x01, 0x00, 0xa2, 0x05, 0xa0, 0x03, 0x87, 0x01, 0x02, 0x80, 0x01,
          0x01] 0 15 77 ⟨0, 0⟩
      = some ⟨15, 1, ⟨7, 2⟩⟩ ∧
    mmsMsg_parseRejectPDU [0xa4, 0x09, 0x80, 0x01, 0x01, 0x8c, 0x01, 0x00, 0x81, 0x01, 0x01] 0 11
        77 5 5
      = some ⟨11, 1, 1, 1⟩ :=
  C27_field_order_and_unknown_fields ⟨0x80, [1], [1]⟩ ⟨0xa2, [5], [0xa0, 3, 0x87, 1, 2]⟩
    ⟨0x81, [1], [1]⟩ [13] [9]
    [⟨0x81, [1], [0]⟩, ⟨0xa2, [5], [0xa0, 3, 0x87, 1, 2]⟩, ⟨0x80, [1], [1]⟩]
    [⟨0x80, [1], [1]⟩, ⟨0x8c, [1], [0]⟩, ⟨0x81, [1], [1]⟩]
    77 ⟨0, 0⟩ ⟨7, 2⟩ 5 5 5 rfl rfl (by decide)
    ⟨[⟨0x81, [1], [0]⟩], [], [], by decide, Or.inr rfl⟩
    ⟨[], [⟨0x8c, [1], [0]⟩], [], by decide, Or.inl rfl⟩
    (by decide) (by decide) (by decide) (by decide) (by decide)

/-! ### C21: pagination of get-name-list -/

/-- A request whose round brings the answer `(page, moreFollows)` returns
that flag, the list extended by the page and `MMS_ERROR_NONE`, after the
events of one answered request. -/
theorem mmsClient_getNameListSingleRequest_answered (ext : Externals)
    (nameList : Option (List Nat)) (self : MmsConnection)
    (request : Nat → Option Nat → ByteBuffer) (continueAfter : Option Nat) (round : Round)
    (page : List Nat) (moreFollows : Bool)
    (h : Answered ext self round page moreFollows) :
    ∃ next, mmsClient_getNameListSingleRequest ext nameList self request continueAfter round
      = .returned (moreFollows, some (nameList.getD [] ++ page), MMS_ERROR_NONE) next
          [Event.allocateTransmitBuffer,
           Event.sendMessage (request (getNextInvokeId self).1 continueAfter),
           Event.releaseReceiveBuffer] := by
  obtain ⟨hassoc, pending, pre, t, s, rest, hadd, hsplit, hpre, ht, hopen, hid, herr, hresp,
    hlock, hparse⟩ := h
  have hne : ¬ getAssociationState self ≠ MMS_STATE_CONNECTED := by simp [hassoc]
  have hpoll : pollResponse (getNextInvokeId self).1
      (round.currentTime + pending.requestTimeout) t s
      = some ((removeFromOutstandingCalls s (getNextInvokeId self).1).andThen
          fun _ s' =>
            .returned
              ⟨if s.lastResponseError ≠ MMS_ERROR_NONE then none else s.lastResponse,
               s.lastResponseError⟩ s' []) := by
    simp [pollResponse, ht, hopen, hid]
  have hw := waitForResponse_decided (getNextInvokeId self).1
    (round.currentTime + pending.requestTimeout) pre round.currentTime pending round.schedule
    t s rest _ hsplit hpre hpoll
  refine ⟨{ s with
      outstandingCalls := removeOutstandingCall (getNextInvokeId self).1 s.outstandingCalls,
      responseInvokeId := 0, lastResponseError := MMS_ERROR_NONE }, ?_⟩
  simp [mmsClient_getNameListSingleRequest, hne, sendRequestAndWaitForResponse, hadd, hw,
    removeFromOutstandingCalls, hlock, herr, hresp, hparse, releaseResponse, sendMessage,
    Outcome.andThen]

/-- In a list of distinct names, the names after the last name of a prefix
are the rest of the list. -/
theorem namesAfter_last (acc rest : List Nat) (hd : (acc ++ rest).Nodup) :
    namesAfter (acc ++ rest) acc.getLast? = rest := by
  induction acc with
  | nil => rfl
  | cons a t ih =>
    cases t with
    | nil => simp [namesAfter]
    | cons b t2 =>
      have hd2 : ((b :: t2) ++ rest).Nodup := (List.nodup_cons.1 hd).2
      have hlast : (a :: b :: t2).getLast? = (b :: t2).getLast? := by
        simp [List.getLast?_cons_cons]
      rw [hlast]
      have ih2 := ih hd2
      cases hl : (b :: t2).getLast? with
      | none => simp at hl
      | some c =>
        rw [hl] at ih2
        have hc : c ∈ (b :: t2) ++ rest :=
          List.mem_append_left _ (List.mem_of_mem_getLast? hl)
        have hne : a ≠ c := by
          intro h
          subst h
          exact (List.nodup_cons.1 hd).1 hc
        simp only [namesAfter] at ih2 ⊢
        have hstep : ((a :: b :: t2) ++ rest).dropWhile (fun n => decide (n ≠ c))
            = ((b :: t2) ++ rest).dropWhile (fun n => decide (n ≠ c)) := by
          simp [List.dropWhile_cons, hne]
        rw [hstep]
        exact ih2

/-- One answered request of the pagination: with `rest` the names that the
client has not received yet, the server's page is the next `pageSize` names
of `rest` and more follow exactly when `rest` is longer; the request returns
them. -/
theorem getNameList_request_step (ext : Externals) (request : Nat → Option Nat → ByteBuffer)
    (round : Round) (names : List Nat) (pageSize : Option Nat → Nat)
    (list : Option (List Nat)) (rest : List Nat) (s : MmsConnection)
    (hnames : names = list.getD [] ++ rest) (hd : names.Nodup)
    (hans : Answered ext s round
      (serverPage names pageSize (list.getD []).getLast?).1
      (serverPage names pageSize (list.getD []).getLast?).2) :
    serverPage names pageSize (list.getD []).getLast?
        = (rest.take (pageSize (list.getD []).getLast?),
           decide (pageSize (list.getD []).getLast? < rest.length)) ∧
      ∃ next, mmsClient_getNameListSingleRequest ext list s request (list.getD []).getLast?
          round
        = .returned
            (decide (pageSize (list.getD []).getLast? < rest.length),
             some (list.getD [] ++ rest.take (pageSize (list.getD []).getLast?)),
             MMS_ERROR_NONE) next
            [Event.allocateTransmitBuffer,
             Event.sendMessage (request (getNextInvokeId s).1 (list.getD []).getLast?),
             Event.releaseReceiveBuffer] := by
  have hafter : namesAfter names (list.getD []).getLast? = rest := by
    rw [hnames]
    exact namesAfter_last _ _ (hnames ▸ hd)
  have hpage : serverPage names pageSize (list.getD []).getLast?
      = (rest.take (pageSize (list.getD []).getLast?),
         decide (pageSize (list.getD []).getLast? < rest.length)) := by
    simp only [serverPage, hafter]
  refine ⟨hpage, ?_⟩
  rw [hpage] at hans
  exact mmsClient_getNameListSingleRequest_answered ext list s request _ round _ _ hans

/-- The pagination, from any request on: with `rest` the names not yet
received, a request that is served (and whose follow-ups are) ends the loop
with the full list, after the events of the requests with the continue-after
identifiers of `continueAfters`. -/
theorem getNameList_served (ext : Externals) (request : Nat → Option Nat → ByteBuffer)
    (env : Nat → Round) (names : List Nat) (pageSize : Option Nat → Nat)
    (hd : names.Nodup) (hpos : ∀ c, 0 < pageSize c) (n : Nat) :
    ∀ (fuel k : Nat) (list : Option (List Nat)) (rest : List Nat) (s : MmsConnection)
      (events : List Event),
      names = list.getD [] ++ rest → rest.length ≤ n + 1 → rest.length ≤ fuel + 1 →
      Served ext request env names pageSize n k list s →
      ∃ (s2 : MmsConnection) (ids : List Nat),
        (match mmsClient_getNameListSingleRequest ext list s request (list.getD []).getLast?
            (env k) with
          | .returned r s1 ev =>
            getNameListLoop ext request env fuel (k + 1) r.1 r.2.1 r.2.2 s1 (events ++ ev)
          | .blocked cause s1 ev => some (.blocked cause s1 (events ++ ev)))
          = some (.returned (some names, MMS_ERROR_NONE) s2
              (events ++ requestEvents request
                (ids.zip (continueAfters names pageSize n (list.getD []).getLast?)))) ∧
        ids.length = (continueAfters names pageSize n (list.getD []).getLast?).length := by
  induction n with
  | zero =>
    intro fuel k list rest s events hnames hn hfuel hserved
    simp only [Served] at hserved
    obtain ⟨-, next, hsingle⟩ := getNameList_request_step ext request (env k) names pageSize
      list rest s hnames hd hserved
    have hp := hpos (list.getD []).getLast?
    have hmore : ¬ pageSize (list.getD []).getLast? < rest.length := by omega
    have htake : rest.take (pageSize (list.getD []).getLast?) = rest :=
      List.take_of_length_le (by omega)
    refine ⟨next, [(getNextInvokeId s).1], ?_, by simp [continueAfters]⟩
    rw [hsingle]
    simp only [hmore, decide_False, htake, ← hnames, continueAfters, List.zip_cons_cons,
      List.zip_nil_right, requestEvents, List.append_nil]
    cases fuel <;> simp [getNameListLoop]
  | succ n ih =>
    intro fuel k list rest s events hnames hn hfuel hserved
    simp only [Served] at hserved
    obtain ⟨hans, hnext⟩ := hserved
    obtain ⟨hpage, next, hsingle⟩ := getNameList_request_step ext request (env k) names
      pageSize list rest s hnames hd hans
    have hp := hpos (list.getD []).getLast?
    by_cases hmore : pageSize (list.getD []).getLast? < rest.length
    · have hstate : (mmsClient_getNameListSingleRequest ext list s request
          (list.getD []).getLast? (env k)).state = next := by
        rw [hsingle]
        rfl
      rw [hpage, hstate] at hnext
      have hserved2 := hnext (by simp [hmore])
      cases fuel with
      | zero => omega
      | succ f =>
        have hne : rest.take (pageSize (list.getD []).getLast?) ≠ [] := by
          intro h
          have := congrArg List.length h
          simp only [List.length_take, List.length_nil] at this
          omega
        have hlast : ((some (list.getD []
            ++ rest.take (pageSize (list.getD []).getLast?))).getD []).getLast?
            = (rest.take (pageSize (list.getD []).getLast?)).getLast? := by
          simp only [Option.getD_some]
          rw [List.getLast?_append_of_ne_nil _ hne]
        obtain ⟨s2, ids, hrun, hlen⟩ := ih f (k + 1)
          (some (list.getD [] ++ rest.take (pageSize (list.getD []).getLast?)))
          (rest.drop (pageSize (list.getD []).getLast?)) next
          (events ++ [Event.allocateTransmitBuffer,
            Event.sendMessage (request (getNextInvokeId s).1 (list.getD []).getLast?),
            Event.releaseReceiveBuffer])
          (by simp only [Option.getD_some, List.append_assoc, List.take_append_drop]
              exact hnames)
          (by simp only [List.length_drop]; omega)
          (by simp only [List.length_drop]; omega) hserved2
        refine ⟨s2, (getNextInvokeId s).1 :: ids, ?_, ?_⟩
        · rw [hsingle]
          simp only [hmore, decide_True]
          rw [getNameListLoop]
          simp only [ne_eq, reduceCtorEq, not_false_eq_true, and_self, if_true]
          rw [hrun, hlast]
          simp only [continueAfters, hpage, hmore, decide_True, if_true, List.zip_cons_cons,
            requestEvents, List.append_assoc]
          rfl
        · simp only [continueAfters, hpage, hmore, decide_True, if_true, List.length_cons]
          rw [hlen, hlast]
    · have htake : rest.take (pageSize (list.getD []).getLast?) = rest :=
        List.take_of_length_le (by omega)
      refine ⟨next, [(getNextInvokeId s).1], ?_, by simp [continueAfters, hpage, hmore]⟩
      rw [hsingle]
      simp only [hmore, decide_False, htake, ← hnames, continueAfters, hpage,
        List.zip_cons_cons, List.zip_nil_right, requestEvents, List.append_nil,
        Bool.false_eq_true, if_false]
      cases fuel <;> simp [getNameListLoop]

/-- C21: let the server hold the pairwise distinct names `names` and answer
every request of the client with the next `pageSize` (at least one) names
after its continue-after identifier, more-follows exactly when names remain
(`Served`: each request is issued and its answer is found in the shared slot
before the deadline). Then `mmsClient_getNameList` returns for every fuel
from `names.length` on: the list is exactly `names` in server order, the
error is `MMS_ERROR_NONE`, and the events are those of one request per page,
the first with no continue-after identifier and each further one with the
last name received so far (`continueAfters`), nothing else. -/
theorem C21_get_name_list_pagination (ext : Externals) (request : Nat → Option Nat → ByteBuffer)
    (env : Nat → Round) (names : List Nat) (pageSize : Option Nat → Nat)
    (self : MmsConnection) (fuel : Nat)
    (hd : names.Nodup) (hpos : ∀ c, 0 < pageSize c)
    (hserved : Served ext request env names pageSize names.length 0 none self)
    (hfuel : names.length ≤ fuel) :
    ∃ (s2 : MmsConnection) (ids : List Nat),
      mmsClient_getNameList ext self request env fuel
        = some (.returned (some names, MMS_ERROR_NONE) s2
            (requestEvents request
              (ids.zip (continueAfters names pageSize names.length none)))) ∧
      ids.length = (continueAfters names pageSize names.length none).length := by
  obtain ⟨s2, ids, hrun, hlen⟩ := getNameList_served ext request env names pageSize hd hpos
    names.length fuel 0 none names self [] rfl (by omega) (by omega) hserved
  refine ⟨s2, ids, ?_, hlen⟩
  simp only [Option.getD_none, List.getLast?_nil, List.nil_append, Nat.zero_add] at hrun
  unfold mmsClient_getNameList
  exact hrun

/-- C21 (witness): a server with the names `11, 12, 13` and pages of two
names; the client sends two requests, the second with continue-after `12`. -/
theorem C21_get_name_list_pagination_witness :
    (∃ (s2 : MmsConnection) (ids : List Nat),
      mmsClient_getNameList nameListExternals connectedSession nameListRequest nameListEnv 3
        = some (.returned (some [11, 12, 13], MMS_ERROR_NONE) s2
            (requestEvents nameListRequest
              (ids.zip (continueAfters [11, 12, 13] (fun _ => 2) 3 none)))) ∧
      ids.length = (continueAfters [11, 12, 13] (fun _ => 2) 3 none).length) ∧
    (mmsClient_getNameList nameListExternals connectedSession nameListRequest nameListEnv
        3).map Outcome.trace
      = some [Event.allocateTransmitBuffer, Event.sendMessage (nameListRequest 1 none),
          Event.releaseReceiveBuffer, Event.allocateTransmitBuffer,
          Event.sendMessage (nameListRequest 2 (some 12)), Event.releaseReceiveBuffer] := by
  have hserved : Served nameListExternals nameListRequest nameListEnv [11, 12, 13]
      (fun _ => 2) 3 0 none connectedSession := by
    simp only [Served]
    refine ⟨⟨by decide, syncCallPending, [(100, syncCallPending)], 110,
        (mmsIsoCallback nameListExternals (sampleEnv 105) ISO_IND_DATA syncCallPending
          (nameListResponse 1 [11, 12] true)).state, [],
        by decide, by decide, by decide, by decide, by decide, by decide, by decide, by decide,
        by decide, by decide⟩, ?_⟩
    intro _
    refine ⟨⟨by decide, nameListPending1, [(200, nameListPending1)], 210,
        (mmsIsoCallback nameListExternals (sampleEnv 205) ISO_IND_DATA nameListPending1
          (nameListResponse 2 [13] false)).state, [],
        by decide, by decide, by decide, by decide, by decide, by decide, by decide, by decide,
        by decide, by decide⟩, ?_⟩
    intro h
    exact absurd h (by decide)
  exact ⟨C21_get_name_list_pagination nameListExternals nameListRequest nameListEnv
    [11, 12, 13] (fun _ => 2) connectedSession 3 (by decide) (fun _ => Nat.zero_lt_two) hserved
    (by decide), by decide⟩

end MmsClient
